import Mathlib

/-!
AstroAsync: real-time gateway, message relay and consultation broker.

A shallow embedding of `src/socket/socket.js`, of the consultation and chat
controllers, of the sweep route with the middleware of `middleware/auth.js`,
and of the two Mongoose schemas they use.

Conventions of the embedding

* Instants are natural numbers (milliseconds); every `new Date()` / `Date.now()`
  of the source is an explicit argument of the handler that performs it, in
  the order of the reads.
* The Mongo collections are lists in insertion order. `findById` / `findOne`
  return the first match, `save` rewrites the first document with the same
  `_id`, `updateMany` rewrites every match.
* Every awaited store call of a handler is numbered from 0 in program order;
  the argument `faults k = some msg` makes call `k` reject with an error whose
  `message` is `msg` (the call then has no effect on the store).
* A handler returns the new server state, the events it emitted (in order)
  and the acknowledgments it invoked (in order); `cb` tells whether a callback
  function was supplied.
* An ObjectId is represented by the string that `toString()` renders: 24
  hexadecimal digits in lower case. The `_id` of a stored document, its
  references to other documents and the id of the session user
  (`socket.user._id.toString()`, `req.user._id`) are such strings and are used
  as they are. An id that arrives from a client is an arbitrary string: the
  store casts it (`castObjectId`) wherever the source hands it to `findById`,
  to a query filter or to a new document, and the source itself compares and
  looks up the string as it was sent.
* The automatic `updatedAt` stamp of Mongoose is not part of the model.
-/

namespace AstroAsync

/-! ## JavaScript strings -/

/-- UTF-16 code units of a string, the unit in which JavaScript measures and
compares strings. -/
def utf16Units (s : String) : List Nat :=
  s.data.flatMap fun c =>
    if c.toNat < 0x10000 then [c.toNat]
    else [0xD800 + (c.toNat - 0x10000) / 0x400, 0xDC00 + (c.toNat - 0x10000) % 0x400]

/-- The `length` property of a JavaScript string. -/
def jsLength (s : String) : Nat := (utf16Units s).length

/-- Lexicographic `<` on code-unit sequences. -/
def unitsLt : List Nat → List Nat → Bool
  | [], [] => false
  | [], _ :: _ => true
  | _ :: _, [] => false
  | a :: as, b :: bs => if a < b then true else if b < a then false else unitsLt as bs

/-- The comparison used by `Array.prototype.sort` without a comparator, on strings. -/
def jsStrLt (a b : String) : Bool := unitsLt (utf16Units a) (utf16Units b)

/-- WhiteSpace and LineTerminator code points removed by `String.prototype.trim`. -/
def isJsWhiteSpace (c : Char) : Bool :=
  let n := c.toNat
  n == 0x09 || n == 0x0A || n == 0x0B || n == 0x0C || n == 0x0D || n == 0x20 ||
  n == 0xA0 || n == 0x1680 || (0x2000 ≤ n && n ≤ 0x200A) || n == 0x2028 ||
  n == 0x2029 || n == 0x202F || n == 0x205F || n == 0x3000 || n == 0xFEFF

/-- The method `String.prototype.trim`. -/
def jsTrim (s : String) : String :=
  String.mk ((s.data.dropWhile isJsWhiteSpace).reverse.dropWhile isJsWhiteSpace).reverse

/-- Truthiness of a value that is a string or `undefined`. -/
def truthy : Option String → Bool
  | none => false
  | some s => s != ""

/-- The expression `a || b` where `a` is a string or `undefined` and `b` a string. -/
def orElse (a : Option String) (b : String) : String :=
  match a with
  | none => b
  | some s => if s != "" then s else b

/-- Helper of socket.js (lines 718-722): `[userId1, userId2].sort().join("_")`. -/
def getRoomId (userId1 userId2 : String) : String :=
  if jsStrLt userId2 userId1 then userId2 ++ "_" ++ userId1
  else userId1 ++ "_" ++ userId2

/-! ## JavaScript `Map` with string keys and values -/

/-- Entries of a `Map` in insertion order. -/
abbrev JsMap := List (String × String)

namespace JsMap

/-- The method `Map.prototype.get`. -/
def get (m : JsMap) (k : String) : Option String :=
  match m with
  | [] => none
  | (k1, v1) :: rest => if k1 = k then some v1 else get rest k

/-- The method `Map.prototype.has`. -/
def has (m : JsMap) (k : String) : Bool :=
  match m with
  | [] => false
  | (k1, _) :: rest => if k1 = k then true else has rest k

/-- The method `Map.prototype.set`: an existing key keeps its position. -/
def set (m : JsMap) (k v : String) : JsMap :=
  match m with
  | [] => [(k, v)]
  | (k1, v1) :: rest => if k1 = k then (k, v) :: rest else (k1, v1) :: set rest k v

/-- The method `Map.prototype.delete`. -/
def delete (m : JsMap) (k : String) : JsMap :=
  match m with
  | [] => []
  | (k1, v1) :: rest => if k1 = k then rest else (k1, v1) :: delete rest k

/-- The expression `Array.from(map.keys())`. -/
def keys (m : JsMap) : List String := m.map Prod.fst

end JsMap

/-! ## Documents -/

/-- The `role` enum of user.model.js. -/
inductive Role
  | user | admin | astrologer
  deriving DecidableEq, Repr

/-- The fields of a User document read by the socket layer. -/
structure User where
  _id : String
  name : String
  email : String
  role : Role
  deriving DecidableEq, Repr

/-- A Message document (message.model.js). -/
structure Message where
  _id : String
  sender : String
  receiver : String
  message : String
  isRead : Bool
  readAt : Option Nat
  createdAt : Nat
  deriving DecidableEq, Repr

/-- The `status` enum of consultationRequest.model.js. -/
inductive Status
  | pending | accepted | declined | expired | cancelled | completed
  deriving DecidableEq, Repr

/-- The text of a status, as interpolated into error messages. -/
def Status.text : Status → String
  | .pending => "pending"
  | .accepted => "accepted"
  | .declined => "declined"
  | .expired => "expired"
  | .cancelled => "cancelled"
  | .completed => "completed"

/-- A ConsultationRequest document (consultationRequest.model.js). -/
structure ConsultationRequest where
  _id : String
  user : String
  astrologer : String
  message : String
  status : Status
  requestedAt : Nat
  respondedAt : Option Nat
  completedAt : Option Nat
  expiresAt : Nat
  deriving DecidableEq, Repr

/-- The whole server: the three collections, the two presence maps of
socket.js (lines 8-9) and the room membership kept by socket.io, as pairs
(room, socket id). -/
structure ServerState where
  users : List User
  messages : List Message
  requests : List ConsultationRequest
  activeUsers : JsMap
  socketToUser : JsMap
  rooms : List (String × String)
  deriving DecidableEq, Repr

/-- A connected socket: its id and the user attached by the middleware. -/
structure Socket where
  id : String
  user : User
  deriving DecidableEq, Repr

/-! ## ObjectIds -/

/-- A hexadecimal digit, in either case. -/
def isHexDigit (c : Char) : Bool :=
  let n := c.toNat
  (0x30 ≤ n && n ≤ 0x39) || (0x41 ≤ n && n ≤ 0x46) || (0x61 ≤ n && n ≤ 0x66)

/-- The lower-case form of a hexadecimal digit. -/
def lowerHexDigit (c : Char) : Char :=
  if 0x41 ≤ c.toNat && c.toNat ≤ 0x46 then Char.ofNat (c.toNat + 0x20) else c

/-- The cast of a string to an ObjectId, which Mongoose applies to the id of
`findById`, to the ids of a query filter and to the ids of a new document: a
string of 24 hexadecimal digits, in either case, is the ObjectId with these
digits, rendered here in lower case as `toString()` does; for any other
string the cast throws a CastError (no value). This is the cast of the
current driver; the 12-character form that older drivers also took is not
modelled. -/
def castObjectId (s : String) : Option String :=
  if s.data.length = 24 ∧ s.data.all isHexDigit then some (String.mk (s.data.map lowerHexDigit))
  else none

/-- Whether the cast of the id handed to a store call throws: an absent id
(`undefined`) is not cast. -/
def castFails (id : Option String) : Bool :=
  match id with
  | none => false
  | some i => (castObjectId i).isNone

/-- Message of the CastError thrown for an id that is no ObjectId. -/
def castError : String := "Cast to ObjectId failed"

/-! ## Store operations -/

/-- The document to which `User.findById(id)` resolves: the user whose `_id`
is the ObjectId to which the id casts; an absent id finds nothing. For an id
whose cast throws (`castFails`) the call rejects and resolves to nothing.
The same lookup serves `populate`, which is handed a stored reference. -/
def findUser (users : List User) (id : Option String) : Option User :=
  match id.bind castObjectId with
  | none => none
  | some oid => users.find? fun u => u._id == oid

/-- The document to which `ConsultationRequest.findById(id)` resolves, as
`findUser`. -/
def findRequest (requests : List ConsultationRequest) (id : Option String) :
    Option ConsultationRequest :=
  match id.bind castObjectId with
  | none => none
  | some oid => requests.find? fun r => r._id == oid

/-- The call `request.save()` on a loaded document: the first stored document
with that `_id` is rewritten. -/
def saveRequest (requests : List ConsultationRequest) (doc : ConsultationRequest) :
    List ConsultationRequest :=
  match requests with
  | [] => []
  | r :: rest => if r._id == doc._id then doc :: rest else r :: saveRequest rest doc

/-! ## Events and acknowledgments -/

/-- Payloads of the outbound events of socket.js. -/
inductive Event
  | userOnline (userId name : String) (role : Role)
  | userOffline (userId name : String)
  | usersActive (ids : List String)
  | messageReceive (_id sender receiver message : String) (isRead : Bool) (createdAt : Nat)
  | messageNotification (_id sender message : String) (createdAt : Nat)
  | messageReadReceipt (readerId readerName : String) (count : Nat)
  | typingUser (userId name : String) (isTyping : Bool)
  | consultationIncoming (requestId : String) (user : User) (message : String)
      (requestedAt expiresAt : Nat)
  | consultationAccepted (requestId astrologerId astrologerName : String)
  | consultationDeclined (requestId astrologerId astrologerName reason : String)
  | consultationCancelled (requestId userId userName : String)
  | consultationCompleted (requestId completedBy completedByName : String)
  deriving DecidableEq, Repr

/-- One emission: `io.to(target).emit(...)`, where the target is a room name
or a socket id, or `socket.broadcast.emit(...)` / `socket.emit(...)`. -/
inductive Emit
  | to (target : String) (ev : Event)
  | broadcastFrom (socketId : String) (ev : Event)
  | toSelf (socketId : String) (ev : Event)
  deriving DecidableEq, Repr

/-- The `success: true` acknowledgment payloads. -/
inductive AckData
  | sent (data : Message)
  | count (n : Nat)
  | requested (requestId message : String)
  | acceptedFor (user : User) (message : String)
  | text (message : String)
  deriving DecidableEq, Repr

/-- One invocation of the acknowledgment callback. -/
inductive Ack
  | success (data : AckData)
  | failure (error : String)
  deriving DecidableEq, Repr

/-- What a handler did. -/
structure Outcome where
  state : ServerState
  emits : List Emit
  acks : List Ack
  deriving DecidableEq, Repr

/-- The guarded call `if (callback && typeof callback === "function") callback(a)`. -/
def ack (cb : Bool) (a : Ack) : List Ack := if cb then [a] else []

/-- The acknowledgment of a `catch` block: `error.message || fallback`. -/
def caught (cb : Bool) (errorMessage fallback : String) : List Ack :=
  ack cb (.failure (if errorMessage != "" then errorMessage else fallback))

/-- Message of the TypeError raised by destructuring `undefined` or `null`. -/
def destructureError : String := "Cannot destructure property of undefined"

/-- Message of the TypeError raised by reading a property of `null`. -/
def nullReadError : String := "Cannot read properties of null"

/-- Message of the TypeError raised by calling a method that does not exist. -/
def notFunctionError : String := "message.trim is not a function"

/-- The events a socket receives from a list of emissions: `io.to(t)` reaches
the members of room `t` and the socket whose id is `t`. -/
def delivered (rooms : List (String × String)) (emits : List Emit) (socketId : String) :
    List Event :=
  emits.filterMap fun e =>
    match e with
    | .to target ev =>
        if target = socketId ∨ (target, socketId) ∈ rooms then some ev else none
    | .broadcastFrom sid ev => if sid = socketId then none else some ev
    | .toSelf sid ev => if sid = socketId then some ev else none

/-! ## Payloads -/

/-- A payload field that should be a string: absent, a string, or a value of
another type (of which only the truthiness matters; it has no `trim` method). -/
inductive TextField
  | absent
  | text (s : String)
  | other (isTruthy : Bool)
  deriving DecidableEq, Repr

/-- Truthiness of a text field. -/
def TextField.truthy : TextField → Bool
  | .absent => false
  | .text s => s != ""
  | .other b => b

/-- Payload of `message:send` and body of `POST /send`. -/
structure SendData where
  receiverId : Option String
  message : TextField
  deriving DecidableEq, Repr

/-- Payload of `message:read`. -/
structure ReadData where
  senderId : Option String
  deriving DecidableEq, Repr

/-- Payload of `consultation:request`. -/
structure RequestData where
  astrologerId : Option String
  message : Option String
  deriving DecidableEq, Repr

/-- Payload of `consultation:accept`, `decline`, `cancel` and `complete`. -/
structure TransitionData where
  requestId : Option String
  reason : Option String
  deriving DecidableEq, Repr

/-- The store calls that reject, by position in the handler. -/
abbrev Faults := Nat → Option String

/-- No store call rejects. -/
def noFaults : Faults := fun _ => none

/-! ## Presence (socket.js lines 46-66, 698-712, 724-732) -/

/-- Body of `io.on("connection")` up to the registration of the handlers. -/
def onConnection (st : ServerState) (socket : Socket) : ServerState × List Emit :=
  let userId := socket.user._id
  let activeUsers := st.activeUsers.set userId socket.id
  let socketToUser := st.socketToUser.set socket.id userId
  ({ st with activeUsers := activeUsers, socketToUser := socketToUser },
   [.broadcastFrom socket.id (.userOnline userId socket.user.name socket.user.role),
    .toSelf socket.id (.usersActive activeUsers.keys)])

/-- The `disconnect` handler; socket.io has removed the socket from its rooms
before it runs. -/
def onDisconnect (st : ServerState) (socket : Socket) : ServerState × List Emit :=
  let userId := socket.user._id
  ({ st with
      activeUsers := st.activeUsers.delete userId,
      socketToUser := st.socketToUser.delete socket.id,
      rooms := st.rooms.filter fun p => p.2 != socket.id },
   [.broadcastFrom socket.id (.userOffline userId socket.user.name)])

/-- Exported `getActiveUsers`. -/
def getActiveUsers (st : ServerState) : List String := st.activeUsers.keys

/-- Exported `isUserOnline`. -/
def isUserOnline (st : ServerState) (userId : String) : Bool := st.activeUsers.has userId

/-- Handler of `conversation:join`. -/
def conversationJoin (st : ServerState) (socket : Socket) (otherUserId : String) : ServerState :=
  let roomId := getRoomId socket.user._id otherUserId
  if (roomId, socket.id) ∈ st.rooms then st
  else { st with rooms := st.rooms ++ [(roomId, socket.id)] }

/-- Handler of `conversation:leave`. -/
def conversationLeave (st : ServerState) (socket : Socket) (otherUserId : String) : ServerState :=
  let roomId := getRoomId socket.user._id otherUserId
  { st with rooms := st.rooms.filter fun p => p != (roomId, socket.id) }

/-! ## Handshake (socket.js lines 19-44) -/

/-- What the authentication middleware did: the calls of `next` (with the
message of the error passed, if any) and the user attached to the socket. -/
structure Handshake where
  state : ServerState
  socketUser : Option User
  nextCalls : List (Option String)
  deriving DecidableEq, Repr

/-- The middleware of `io.use`. `verify` stands for `jwt.verify(token, secret)`:
it throws, or returns the `_id` of the decoded payload (which may be absent).
Store call 0 is `User.findById`; its CastError is caught like any other
error. -/
def authMiddleware (st : ServerState) (token : Option String)
    (verify : String → Except String (Option String)) (faults : Faults) : Handshake :=
  match token with
  | none => ⟨st, none, [some "Authentication token required"]⟩
  | some tok =>
    if tok == "" then ⟨st, none, [some "Authentication token required"]⟩
    else
      match verify tok with
      | .error _ => ⟨st, none, [some "Invalid token"]⟩
      | .ok decodedId =>
        match faults 0 with
        | some _ => ⟨st, none, [some "Invalid token"]⟩
        | none =>
          if castFails decodedId then ⟨st, none, [some "Invalid token"]⟩
          else
            match findUser st.users decodedId with
            | none => ⟨st, none, [some "User not found"]⟩
            | some user => ⟨st, some user, [none]⟩

/-! ## Message Relay (socket.js lines 83-237, chat.controller.js) -/

/-- The call `Message.create(...)` under messageSchema, for a sender and a
receiver that are ObjectIds already: the `trim` setter, the `required` and
`maxlength` validators, the defaults of `isRead` and `readAt`, and the
`createdAt` stamp. -/
def createMessage (messages : List Message) (newId : String) (now : Nat)
    (sender receiver message : String) : Except String (Message × List Message) :=
  let stored := jsTrim message
  if stored == "" then .error "Message content is required"
  else if jsLength stored > 2000 then .error "Message cannot exceed 2000 characters"
  else
    let doc : Message :=
      { _id := newId, sender := sender, receiver := receiver, message := stored,
        isRead := false, readAt := none, createdAt := now }
    .ok (doc, messages ++ [doc])

/-- The call `Message.updateMany(filter, patch)` of read marking, for a
filter whose ids are cast already: the new collection and `modifiedCount`. -/
def markMessagesRead (messages : List Message) (senderId : Option String)
    (receiverId : String) (now : Nat) : List Message × Nat :=
  let hit := fun (m : Message) =>
    some m.sender == senderId && m.receiver == receiverId && m.isRead == false
  (messages.map fun m => if hit m then { m with isRead := true, readAt := some now } else m,
   (messages.filter hit).length)

/-- Handler of `message:send`. Store calls: 0 `User.findById`, 1
`Message.create`, 2 and 3 the two `populate` calls. The receiver id of the
payload is cast by `findById` and by `create`; the self test, the room and
the presence lookup use it as it was sent. -/
def messageSend (st : ServerState) (socket : Socket) (data : Option SendData) (cb : Bool)
    (newId : String) (now : Nat) (faults : Faults) : Outcome :=
  let userId := socket.user._id
  let fallback := "Failed to send message"
  let invalid : Outcome := ⟨st, [], ack cb (.failure "Receiver ID and message are required")⟩
  match data with
  | none => ⟨st, [], caught cb destructureError fallback⟩
  | some d =>
    match d.receiverId with
    | none => invalid
    | some receiverId =>
      if receiverId == "" then invalid
      else if !d.message.truthy then invalid
      else
        match d.message with
        | .absent => invalid
        | .other _ => ⟨st, [], caught cb notFunctionError fallback⟩
        | .text message =>
          if jsTrim message == "" then invalid
          else
            match faults 0 with
            | some e => ⟨st, [], caught cb e fallback⟩
            | none =>
              match castObjectId receiverId with
              | none => ⟨st, [], caught cb castError fallback⟩
              | some receiverOid =>
                match findUser st.users (some receiverId) with
                | none => ⟨st, [], ack cb (.failure "Receiver not found")⟩
                | some _ =>
                  if userId == receiverId then
                    ⟨st, [], ack cb (.failure "Cannot send message to yourself")⟩
                  else
                    match faults 1 with
                    | some e => ⟨st, [], caught cb e fallback⟩
                    | none =>
                      match createMessage st.messages newId now userId receiverOid
                          (jsTrim message) with
                      | .error e => ⟨st, [], caught cb e fallback⟩
                      | .ok (newMessage, messages) =>
                        let st1 := { st with messages := messages }
                        match faults 2 with
                        | some e => ⟨st1, [], caught cb e fallback⟩
                        | none =>
                          match faults 3 with
                          | some e => ⟨st1, [], caught cb e fallback⟩
                          | none =>
                            let roomId := getRoomId userId receiverId
                            let receive := Emit.to roomId
                              (.messageReceive newMessage._id newMessage.sender
                                newMessage.receiver newMessage.message newMessage.isRead
                                newMessage.createdAt)
                            let receiverSocketId := st.activeUsers.get receiverId
                            let notification :=
                              match receiverSocketId with
                              | none => []
                              | some sid =>
                                if sid != "" then
                                  [Emit.to sid (.messageNotification newMessage._id
                                    newMessage.sender newMessage.message newMessage.createdAt)]
                                else []
                            ⟨st1, receive :: notification,
                              ack cb (.success (.sent newMessage))⟩

/-- Handler of `message:read`. Store call 0 is `Message.updateMany`, which
casts the sender id of the payload; the presence lookup uses it as it was
sent. -/
def messageRead (st : ServerState) (socket : Socket) (data : Option ReadData) (cb : Bool)
    (now : Nat) (faults : Faults) : Outcome :=
  let userId := socket.user._id
  let fallback := "Failed to mark messages as read"
  match data with
  | none => ⟨st, [], caught cb destructureError fallback⟩
  | some d =>
    match faults 0 with
    | some e => ⟨st, [], caught cb e fallback⟩
    | none =>
      if castFails d.senderId then ⟨st, [], caught cb castError fallback⟩
      else
        let result := markMessagesRead st.messages (d.senderId.bind castObjectId) userId now
        let st1 := { st with messages := result.1 }
        let receipt :=
          match d.senderId with
          | none => []
          | some senderId =>
            match st.activeUsers.get senderId with
            | none => []
            | some sid =>
              if sid != "" then
                [Emit.to sid (.messageReadReceipt userId socket.user.name result.2)]
              else []
        ⟨st1, receipt, ack cb (.success (.count result.2))⟩

/-- Result of a controller of the pull surface: the JSON response sent, the
error handed to `next`, or an exception left to the `TryCatch` wrapper. -/
inductive RestResult (α : Type)
  | json (code : Nat) (body : α)
  | next (code : Nat) (message : String)
  | thrown (message : String)
  deriving DecidableEq, Repr

/-- Controller `sendMessage` of chat.controller.js. Store calls as in
`messageSend`. -/
def sendMessage (st : ServerState) (reqUser : User) (body : Option SendData)
    (newId : String) (now : Nat) (faults : Faults) : ServerState × RestResult Message :=
  let senderId := reqUser._id
  let required : ServerState × RestResult Message :=
    (st, .next 400 "Receiver ID and message are required")
  match body with
  | none => (st, .thrown destructureError)
  | some d =>
    match d.receiverId with
    | none => required
    | some receiverId =>
      if receiverId == "" then required
      else if !d.message.truthy then required
      else
        match d.message with
        | .absent => required
        | .other _ => (st, .thrown notFunctionError)
        | .text message =>
          if jsTrim message == "" then (st, .next 400 "Message cannot be empty")
          else
            match faults 0 with
            | some e => (st, .thrown e)
            | none =>
              match castObjectId receiverId with
              | none => (st, .thrown castError)
              | some receiverOid =>
                match findUser st.users (some receiverId) with
                | none => (st, .next 404 "Receiver not found")
                | some _ =>
                  if senderId == receiverId then
                    (st, .next 400 "Cannot send message to yourself")
                  else
                    match faults 1 with
                    | some e => (st, .thrown e)
                    | none =>
                      match createMessage st.messages newId now senderId receiverOid
                          (jsTrim message) with
                      | .error e => (st, .thrown e)
                      | .ok (newMessage, messages) =>
                        let st1 := { st with messages := messages }
                        match faults 2 with
                        | some e => (st1, .thrown e)
                        | none =>
                          match faults 3 with
                          | some e => (st1, .thrown e)
                          | none => (st1, .json 201 newMessage)

/-- Controller `markAsRead` of chat.controller.js; the body is
`messagesMarked`. Store calls: 0 `User.findById`, 1 `Message.updateMany`. -/
def markAsRead (st : ServerState) (reqUser : User) (senderId : String) (now : Nat)
    (faults : Faults) : ServerState × RestResult Nat :=
  let receiverId := reqUser._id
  match faults 0 with
  | some e => (st, .thrown e)
  | none =>
    match castObjectId senderId with
    | none => (st, .thrown castError)
    | some senderOid =>
      match findUser st.users (some senderId) with
      | none => (st, .next 404 "Sender not found")
      | some _ =>
        match faults 1 with
        | some e => (st, .thrown e)
        | none =>
          let result := markMessagesRead st.messages (some senderOid) receiverId now
          ({ st with messages := result.1 }, .json 200 result.2)

/-! ## Consultation Broker (socket.js lines 242-696, consultation.controller.js) -/

/-- The filter `user, astrologer, status: "pending", expiresAt: $gt now`. -/
def isLivePending (userId astrologerId : String) (now : Nat) (r : ConsultationRequest) : Bool :=
  r.user == userId && r.astrologer == astrologerId && r.status == .pending &&
    decide (now < r.expiresAt)

/-- The query `findOne` with the filter `isLivePending`. -/
def findLivePending (requests : List ConsultationRequest) (userId astrologerId : String)
    (now : Nat) : Option ConsultationRequest :=
  requests.find? (isLivePending userId astrologerId now)

/-- The call `ConsultationRequest.create(...)` of the request handler under
consultationRequestSchema, for a requester and a provider that are ObjectIds
already: the `maxlength` validator and the defaults of
`respondedAt` and `completedAt`; `expiresAt` is supplied, so the pre-save hook
leaves it alone. -/
def createRequest (requests : List ConsultationRequest) (newId userId astrologerId : String)
    (message : String) (requestedAt expiresAt : Nat) :
    Except String (ConsultationRequest × List ConsultationRequest) :=
  if jsLength message > 500 then .error "Message cannot exceed 500 characters"
  else
    let doc : ConsultationRequest :=
      { _id := newId, user := userId, astrologer := astrologerId, message := message,
        status := .pending, requestedAt := requestedAt, respondedAt := none,
        completedAt := none, expiresAt := expiresAt }
    .ok (doc, requests ++ [doc])

/-- A truthy socket id stored for a user, if any. -/
def socketOf (st : ServerState) (userId : String) : Option String :=
  match st.activeUsers.get userId with
  | none => none
  | some sid => if sid != "" then some sid else none

/-- Handler of `consultation:request`. Store calls: 0 `User.findById`, 1
`findOne`, 2 `create`, 3 `populate`. Clock reads: `t1` in the query, `t2`
for `requestedAt`, `t3` for `expiresAt`. The astrologer id of the payload is
cast by `findById`, by the filter of `findOne` and by `create`; the self test
and the presence lookup use it as it was sent. -/
def consultationRequest (st : ServerState) (socket : Socket) (data : Option RequestData)
    (cb : Bool) (newId : String) (t1 t2 t3 : Nat) (faults : Faults) : Outcome :=
  let userId := socket.user._id
  let fallback := "Failed to send consultation request"
  match data with
  | none => ⟨st, [], caught cb destructureError fallback⟩
  | some d =>
    match faults 0 with
    | some e => ⟨st, [], caught cb e fallback⟩
    | none =>
      match d.astrologerId with
      | none => ⟨st, [], ack cb (.failure "Astrologer not found")⟩
      | some astrologerId =>
        match castObjectId astrologerId with
        | none => ⟨st, [], caught cb castError fallback⟩
        | some astrologerOid =>
          match findUser st.users (some astrologerId) with
          | none => ⟨st, [], ack cb (.failure "Astrologer not found")⟩
          | some astrologer =>
            if astrologer.role ≠ .astrologer then
              ⟨st, [], ack cb (.failure "User is not an astrologer")⟩
            else if userId == astrologerId then
              ⟨st, [], ack cb (.failure "Cannot request consultation with yourself")⟩
            else
              match faults 1 with
              | some e => ⟨st, [], caught cb e fallback⟩
              | none =>
                match findLivePending st.requests userId astrologerOid t1 with
                | some _ =>
                  ⟨st, [], ack cb
                    (.failure "You already have a pending request with this astrologer")⟩
                | none =>
                  match faults 2 with
                  | some e => ⟨st, [], caught cb e fallback⟩
                  | none =>
                    match createRequest st.requests newId userId astrologerOid
                        (orElse d.message "") t2 (t3 + 5 * 60 * 1000) with
                    | .error e => ⟨st, [], caught cb e fallback⟩
                    | .ok (request, requests) =>
                      let st1 := { st with requests := requests }
                      match faults 3 with
                      | some e => ⟨st1, [], caught cb e fallback⟩
                      | none =>
                        let done : ServerState → List Emit → Outcome := fun s es =>
                          ⟨s, es, ack cb (.success
                            (.requested request._id "Consultation request sent successfully"))⟩
                        match socketOf st astrologerId with
                        | none => done st1 []
                        | some sid =>
                          match findUser st.users (some request.user) with
                          | none => ⟨st1, [], caught cb nullReadError fallback⟩
                          | some u =>
                            done st1 [.to sid (.consultationIncoming request._id u
                              request.message request.requestedAt request.expiresAt)]

/-- Handler of `consultation:accept`. Store calls: 0 `findById` with
`populate`, 1 `save`. Clock reads: `t1` in the expiry test, `t2` for
`respondedAt`. -/
def consultationAccept (st : ServerState) (socket : Socket) (data : Option TransitionData)
    (cb : Bool) (t1 t2 : Nat) (faults : Faults) : Outcome :=
  let userId := socket.user._id
  let fallback := "Failed to accept consultation request"
  match data with
  | none => ⟨st, [], caught cb destructureError fallback⟩
  | some d =>
    match faults 0 with
    | some e => ⟨st, [], caught cb e fallback⟩
    | none =>
      if castFails d.requestId then ⟨st, [], caught cb castError fallback⟩
      else
        match findRequest st.requests d.requestId with
        | none => ⟨st, [], ack cb (.failure "Request not found")⟩
        | some request =>
          if request.astrologer ≠ userId then
            ⟨st, [], ack cb (.failure "You are not authorized to accept this request")⟩
          else if request.status ≠ .pending then
            ⟨st, [], ack cb (.failure ("Request is already " ++ request.status.text))⟩
          else if t1 > request.expiresAt then
            match faults 1 with
            | some e => ⟨st, [], caught cb e fallback⟩
            | none =>
              let saved := { request with status := .expired, respondedAt := some t2 }
              ⟨{ st with requests := saveRequest st.requests saved }, [],
                ack cb (.failure "Request has expired")⟩
          else
            match faults 1 with
            | some e => ⟨st, [], caught cb e fallback⟩
            | none =>
              let saved := { request with status := .accepted, respondedAt := some t2 }
              let st1 := { st with requests := saveRequest st.requests saved }
              match findUser st.users (some request.user) with
              | none => ⟨st1, [], caught cb nullReadError fallback⟩
              | some u =>
                let emits :=
                  match socketOf st u._id with
                  | none => []
                  | some sid =>
                    [Emit.to sid (.consultationAccepted saved._id userId socket.user.name)]
                ⟨st1, emits, ack cb (.success (.acceptedFor u "Consultation request accepted"))⟩

/-- Handler of `consultation:decline`. Store calls: 0 `findById` with
`populate`, 1 `save`. One clock read, for `respondedAt`. -/
def consultationDecline (st : ServerState) (socket : Socket) (data : Option TransitionData)
    (cb : Bool) (now : Nat) (faults : Faults) : Outcome :=
  let userId := socket.user._id
  let fallback := "Failed to decline consultation request"
  match data with
  | none => ⟨st, [], caught cb destructureError fallback⟩
  | some d =>
    match faults 0 with
    | some e => ⟨st, [], caught cb e fallback⟩
    | none =>
      if castFails d.requestId then ⟨st, [], caught cb castError fallback⟩
      else
        match findRequest st.requests d.requestId with
        | none => ⟨st, [], ack cb (.failure "Request not found")⟩
        | some request =>
          if request.astrologer ≠ userId then
            ⟨st, [], ack cb (.failure "You are not authorized to decline this request")⟩
          else if request.status ≠ .pending then
            ⟨st, [], ack cb (.failure ("Request is already " ++ request.status.text))⟩
          else
            match faults 1 with
            | some e => ⟨st, [], caught cb e fallback⟩
            | none =>
              let saved := { request with status := .declined, respondedAt := some now }
              let st1 := { st with requests := saveRequest st.requests saved }
              match findUser st.users (some request.user) with
              | none => ⟨st1, [], caught cb nullReadError fallback⟩
              | some u =>
                let emits :=
                  match socketOf st u._id with
                  | none => []
                  | some sid =>
                    [Emit.to sid (.consultationDeclined saved._id userId socket.user.name
                      (orElse d.reason "Astrologer is currently unavailable"))]
                ⟨st1, emits, ack cb (.success (.text "Consultation request declined"))⟩

/-- Handler of `consultation:cancel`. Store calls: 0 `findById`, 1 `save`. -/
def consultationCancel (st : ServerState) (socket : Socket) (data : Option TransitionData)
    (cb : Bool) (now : Nat) (faults : Faults) : Outcome :=
  let userId := socket.user._id
  let fallback := "Failed to cancel consultation request"
  match data with
  | none => ⟨st, [], caught cb destructureError fallback⟩
  | some d =>
    match faults 0 with
    | some e => ⟨st, [], caught cb e fallback⟩
    | none =>
      if castFails d.requestId then ⟨st, [], caught cb castError fallback⟩
      else
        match findRequest st.requests d.requestId with
        | none => ⟨st, [], ack cb (.failure "Request not found")⟩
        | some request =>
          if request.user ≠ userId then
            ⟨st, [], ack cb (.failure "You are not authorized to cancel this request")⟩
          else if request.status ≠ .pending then
            ⟨st, [], ack cb (.failure ("Request is already " ++ request.status.text))⟩
          else
            match faults 1 with
            | some e => ⟨st, [], caught cb e fallback⟩
            | none =>
              let saved := { request with status := .cancelled, respondedAt := some now }
              let st1 := { st with requests := saveRequest st.requests saved }
              let emits :=
                match socketOf st request.astrologer with
                | none => []
                | some sid =>
                  [Emit.to sid (.consultationCancelled saved._id userId socket.user.name)]
              ⟨st1, emits, ack cb (.success (.text "Consultation request cancelled"))⟩

/-- Handler of `consultation:complete`. Store calls: 0 `findById`, 1 `save`. -/
def consultationComplete (st : ServerState) (socket : Socket) (data : Option TransitionData)
    (cb : Bool) (now : Nat) (faults : Faults) : Outcome :=
  let userId := socket.user._id
  let fallback := "Failed to complete consultation"
  match data with
  | none => ⟨st, [], caught cb destructureError fallback⟩
  | some d =>
    match faults 0 with
    | some e => ⟨st, [], caught cb e fallback⟩
    | none =>
      if castFails d.requestId then ⟨st, [], caught cb castError fallback⟩
      else
        match findRequest st.requests d.requestId with
        | none => ⟨st, [], ack cb (.failure "Request not found")⟩
        | some request =>
          let isAstrologer := request.astrologer == userId
          let isUser := request.user == userId
          if !isAstrologer && !isUser then
            ⟨st, [], ack cb
              (.failure "You are not authorized to complete this consultation")⟩
          else if request.status ≠ .accepted then
            ⟨st, [], ack cb
              (.failure ("Cannot complete " ++ request.status.text ++ " consultation"))⟩
          else
            match faults 1 with
            | some e => ⟨st, [], caught cb e fallback⟩
            | none =>
              let saved := { request with status := .completed, completedAt := some now }
              let st1 := { st with requests := saveRequest st.requests saved }
              let otherUserId := if isAstrologer then request.user else request.astrologer
              let emits :=
                match socketOf st otherUserId with
                | none => []
                | some sid =>
                  [Emit.to sid (.consultationCompleted saved._id userId socket.user.name)]
              ⟨st1, emits, ack cb (.success (.text "Consultation completed successfully"))⟩

/-- Controller `cancelRequest`. Store calls: 0 `findById`, 1 `save`. -/
def cancelRequest (st : ServerState) (reqUser : User) (requestId : Option String)
    (now : Nat) (faults : Faults) : ServerState × RestResult String :=
  match faults 0 with
  | some e => (st, .thrown e)
  | none =>
    if castFails requestId then (st, .thrown castError)
    else
      match findRequest st.requests requestId with
      | none => (st, .next 404 "Request not found")
      | some request =>
        if request.user ≠ reqUser._id then
          (st, .next 403 "You can only cancel your own requests")
        else if request.status ≠ .pending then
          (st, .next 400 ("Cannot cancel " ++ request.status.text ++ " request"))
        else
          match faults 1 with
          | some e => (st, .thrown e)
          | none =>
            let saved := { request with status := .cancelled, respondedAt := some now }
            ({ st with requests := saveRequest st.requests saved },
              .json 200 "Request cancelled successfully")

/-- Controller `expireOldRequests`: `updateMany` of the pending requests with
`expiresAt < t1` (read in the filter), stamped with `t2` (read in the patch);
the body is `expiredCount`. -/
def expireOldRequests (st : ServerState) (t1 t2 : Nat) (faults : Faults) :
    ServerState × RestResult Nat :=
  match faults 0 with
  | some e => (st, .thrown e)
  | none =>
    let hit := fun (r : ConsultationRequest) => r.status == .pending && decide (r.expiresAt < t1)
    let patch := fun (r : ConsultationRequest) =>
      if hit r then { r with status := .expired, respondedAt := some t2 } else r
    ({ st with requests := st.requests.map patch }, .json 200 (st.requests.filter hit).length)

/-! ## Sequences of connection events -/

/-- A connection is established or closed. -/
inductive ConnEvent
  | connect (socket : Socket)
  | disconnect (socket : Socket)
  deriving DecidableEq, Repr

/-- The effect of one connection event on the server. -/
def ConnEvent.apply (st : ServerState) : ConnEvent → ServerState
  | .connect socket => (onConnection st socket).1
  | .disconnect socket => (onDisconnect st socket).1

/-- The effect of a sequence of connection events, first to last. -/
def runConn (st : ServerState) (evs : List ConnEvent) : ServerState :=
  evs.foldl ConnEvent.apply st

/-- A server with no document and no connection. -/
def emptyState : ServerState :=
  { users := [], messages := [], requests := [], activeUsers := [], socketToUser := [],
    rooms := [] }

/-! ## Sequences of broker operations -/

/-- One operation of the Consultation Broker with all its inputs: the six
operations of the state machine, cancel being reachable through the socket
and through the REST controller. -/
inductive Op
  | create (socket : Socket) (data : Option RequestData) (cb : Bool) (newId : String)
      (t1 t2 t3 : Nat) (faults : Faults)
  | accept (socket : Socket) (data : Option TransitionData) (cb : Bool) (t1 t2 : Nat)
      (faults : Faults)
  | decline (socket : Socket) (data : Option TransitionData) (cb : Bool) (now : Nat)
      (faults : Faults)
  | cancel (socket : Socket) (data : Option TransitionData) (cb : Bool) (now : Nat)
      (faults : Faults)
  | cancelRest (reqUser : User) (requestId : Option String) (now : Nat) (faults : Faults)
  | complete (socket : Socket) (data : Option TransitionData) (cb : Bool) (now : Nat)
      (faults : Faults)
  | sweep (t1 t2 : Nat) (faults : Faults)

/-- The state after an operation. -/
def Op.run (st : ServerState) : Op → ServerState
  | .create socket data cb newId t1 t2 t3 faults =>
      (consultationRequest st socket data cb newId t1 t2 t3 faults).state
  | .accept socket data cb t1 t2 faults => (consultationAccept st socket data cb t1 t2 faults).state
  | .decline socket data cb now faults => (consultationDecline st socket data cb now faults).state
  | .cancel socket data cb now faults => (consultationCancel st socket data cb now faults).state
  | .cancelRest reqUser requestId now faults => (cancelRequest st reqUser requestId now faults).1
  | .complete socket data cb now faults =>
      (consultationComplete st socket data cb now faults).state
  | .sweep t1 t2 faults => (expireOldRequests st t1 t2 faults).1

/-- The clock readings handed to an operation, in the order of the reads. -/
def Op.times : Op → List Nat
  | .create _ _ _ _ t1 t2 t3 _ => [t1, t2, t3]
  | .accept _ _ _ t1 t2 _ => [t1, t2]
  | .decline _ _ _ now _ => [now]
  | .cancel _ _ _ now _ => [now]
  | .cancelRest _ _ now _ => [now]
  | .complete _ _ _ now _ => [now]
  | .sweep t1 t2 _ => [t1, t2]

/-- The state after a sequence of operations executed one at a time. -/
def runOps (st : ServerState) (ops : List Op) : ServerState := ops.foldl Op.run st

/-- All clock readings of a sequence of operations, in order. -/
def clockReads (ops : List Op) : List Nat := ops.flatMap Op.times

/-- The requests of the ordered pair that are pending with `expiresAt` in
the future of `now`. -/
def livePending (requests : List ConsultationRequest) (userId astrologerId : String)
    (now : Nat) : List ConsultationRequest :=
  requests.filter (isLivePending userId astrologerId now)

/-- The last clock reading handed to an operation. -/
def Op.last : Op → Nat
  | .create _ _ _ _ _ _ t3 _ => t3
  | .accept _ _ _ _ t2 _ => t2
  | .decline _ _ _ now _ => now
  | .cancel _ _ _ now _ => now
  | .cancelRest _ _ now _ => now
  | .complete _ _ _ now _ => now
  | .sweep _ t2 _ => t2

/-- What an operation other than create does to the collection: nothing, a
save of a document that is not pending over the document found by id, which
was pending or accepted, or a patch of pending documents to expired. -/
inductive Shrinks (rs : List ConsultationRequest) : List ConsultationRequest → Prop
  | same : Shrinks rs rs
  | save (i : Option String) (found saved : ConsultationRequest)
      (hf : findRequest rs i = some found) (hid : saved._id = found._id)
      (hopen : found.status = .pending ∨ found.status = .accepted)
      (hs : saved.status ≠ .pending) :
      Shrinks rs (saveRequest rs saved)
  | sweep (hit : ConsultationRequest → Bool) (t2 : Nat)
      (hhit : ∀ r, hit r = true → r.status = .pending) :
      Shrinks rs (rs.map fun r =>
        if hit r = true then { r with status := .expired, respondedAt := some t2 } else r)

/-! ## Sample data for the concrete checks -/

/-- The ObjectId of Asha. -/
def ashaId : String := "0000000000000000000000a1"

/-- The ObjectId of Asha as a client may also write it, in upper case. -/
def ashaIdUpper : String := "0000000000000000000000A1"

/-- The ObjectId of Uma. -/
def umaId : String := "0000000000000000000000b1"

/-- The ObjectId of Xen. -/
def xenId : String := "0000000000000000000000c9"

/-- The ObjectId of Indra. -/
def indraId : String := "0000000000000000000000d5"

/-- The ObjectId of Yan. -/
def yanId : String := "0000000000000000000000e7"

/-- The ObjectId of the request that the comments call r1. -/
def req1 : String := "0000000000000000000000f1"

/-- The ObjectId of the request r2. -/
def req2 : String := "0000000000000000000000f2"

/-- The ObjectId of the request r3. -/
def req3 : String := "0000000000000000000000f3"

/-- The ObjectId of the request r4. -/
def req4 : String := "0000000000000000000000f4"

/-- The ObjectId of the message that the comments call m1. -/
def msg1 : String := "00000000000000000000aa01"

/-- A requester. -/
def uma : User := ⟨umaId, "Uma", "uma@example.org", .user⟩

/-- A provider. -/
def asha : User := ⟨ashaId, "Asha", "asha@example.org", .astrologer⟩

/-- A third user, party to nothing. -/
def xen : User := ⟨xenId, "Xen", "xen@example.org", .user⟩

/-- A request of Uma to Asha with the given status, created at instant 1000. -/
def sampleRequest (status : Status) : ConsultationRequest :=
  { _id := req1, user := umaId, astrologer := ashaId, message := "hello", status := status,
    requestedAt := 1000, respondedAt := none, completedAt := none, expiresAt := 301000 }

/-- A server holding the three users and one request, nobody connected. -/
def sampleState (status : Status) : ServerState :=
  { users := [uma, asha, xen], messages := [], requests := [sampleRequest status],
    activeUsers := [], socketToUser := [], rooms := [] }

/-- The payload naming the sample request. -/
def sampleTransition : TransitionData := ⟨some req1, none⟩

/-- The three users, no document, nobody connected. -/
def usersOnly : ServerState :=
  { users := [uma, asha, xen], messages := [], requests := [], activeUsers := [],
    socketToUser := [], rooms := [] }

/-- Uma requests Asha at 1000, tries again at 2000 while the first request is
live, and once more at 400000, after the first has run out unanswered and
unswept; Asha declines the last one. -/
def sampleOps : List Op :=
  [.create ⟨"s1", uma⟩ (some ⟨some ashaId, some "hello"⟩) true req1 1000 1000 1001 noFaults,
   .create ⟨"s1", uma⟩ (some ⟨some ashaId, none⟩) true req2 2000 2000 2000 noFaults,
   .create ⟨"s1", uma⟩ (some ⟨some ashaId, none⟩) true req3 400000 400000 400000 noFaults,
   .decline ⟨"s2", asha⟩ (some ⟨some req3, none⟩) true 400001 noFaults,
   .create ⟨"s1", uma⟩ (some ⟨some ashaId, none⟩) true req4 400002 400002 400002 noFaults]

/-- A text of 501 characters. -/
def longText : String := String.mk (List.replicate 501 'x')

/-- The sample server after the document of Uma, the requester, was deleted. -/
def orphanState : ServerState := { sampleState .pending with users := [asha, xen] }

/-- Yan has no user document any more, but an unread message of Yan to Uma
is still stored. -/
def unreadState : ServerState :=
  { usersOnly with messages := [⟨msg1, yanId, umaId, "hello", false, none, 10⟩] }

/-- The request r3 of the sample operations, as Asha declined it. -/
def declinedSample : ConsultationRequest :=
  ⟨req3, umaId, ashaId, "", .declined, 400000, some 400001, none, 700000⟩

/-- Asha has a cancelled, a declined and a pending request of Uma. -/
def historyState : ServerState :=
  { usersOnly with
    requests :=
      [{ sampleRequest .cancelled with respondedAt := some 1500 },
       ⟨req2, umaId, ashaId, "", .declined, 2000, some 2500, none, 302000⟩,
       ⟨req3, umaId, ashaId, "", .pending, 3000, none, none, 303000⟩] }

/-- A token check that knows the token of Uma and the token of the
administrator Indra. -/
def sampleVerify (token : String) : Except String (Option String) :=
  if token = "token-of-uma" then .ok (some umaId)
  else if token = "token-of-indra" then .ok (some indraId)
  else .error "jwt malformed"

/-- An administrator. -/
def indra : User := ⟨indraId, "Indra", "indra@example.org", .admin⟩

/-- The sample server with the administrator added. -/
def staffedState : ServerState := { sampleState .pending with users := [uma, asha, xen, indra] }

/-- Uma and Asha are both connected (sockets s1 and s2) and Asha has joined
the room of her conversation with Uma. -/
def subscribedState : ServerState :=
  conversationJoin
    { users := [uma, asha, xen], messages := [], requests := [],
      activeUsers := [(umaId, "s1"), (ashaId, "s2")],
      socketToUser := [("s1", umaId), ("s2", ashaId)], rooms := [] }
    ⟨"s2", asha⟩ umaId

/-! ## Pull surface: status, history and the sweep route
(consultation.controller.js, consultation.route.js, middleware/auth.js) -/

/-- Body of the response of `checkConsultationStatus`. -/
structure StatusReport where
  canRequest : Bool
  hasPending : Bool
  hasActive : Bool
  pendingRequest : Option ConsultationRequest
  activeConsultation : Option ConsultationRequest
  deriving DecidableEq, Repr

/-- The query `findOne(user, astrologer, status: "accepted")`. -/
def findAccepted (requests : List ConsultationRequest) (userId astrologerId : String) :
    Option ConsultationRequest :=
  requests.find? fun r =>
    r.user == userId && r.astrologer == astrologerId && r.status == .accepted

/-- Controller `checkConsultationStatus`. Store calls: 0 `User.findById`, 1
the query for a pending request (with one clock read), 2 the query for an
accepted one; each casts the astrologer id of the route. -/
def checkConsultationStatus (st : ServerState) (reqUser : User) (astrologerId : String)
    (now : Nat) (faults : Faults) : RestResult StatusReport :=
  let userId := reqUser._id
  match faults 0 with
  | some e => .thrown e
  | none =>
    match castObjectId astrologerId with
    | none => .thrown castError
    | some astrologerOid =>
      match findUser st.users (some astrologerId) with
      | none => .next 404 "Astrologer not found"
      | some astrologer =>
        if astrologer.role ≠ .astrologer then .next 400 "User is not an astrologer"
        else
          match faults 1 with
          | some e => .thrown e
          | none =>
            let pendingRequest := findLivePending st.requests userId astrologerOid now
            match faults 2 with
            | some e => .thrown e
            | none =>
              let activeConsultation := findAccepted st.requests userId astrologerOid
              .json 200
                { canRequest := !pendingRequest.isSome && !activeConsultation.isSome,
                  hasPending := pendingRequest.isSome,
                  hasActive := activeConsultation.isSome,
                  pendingRequest := pendingRequest,
                  activeConsultation := activeConsultation }

/-- Body of the response of `getRequestHistory`. -/
structure HistoryPage where
  requests : List ConsultationRequest
  currentPage : Int
  totalPages : Int
  totalRequests : Nat
  requestsPerPage : Int
  deriving DecidableEq, Repr

/-- The expression `parseInt(x) || fallback`, where the parse gives an
integer or NaN (no value). -/
def parsedOr (parsed : Option Int) (fallback : Int) : Int :=
  match parsed with
  | none => fallback
  | some n => if n = 0 then fallback else n

/-- The filter on `status` built by `getRequestHistory` from
`req.query.status`. -/
def historyStatusMatches (status : Option String) (s : Status) : Bool :=
  match status with
  | some t =>
    if t != "" && ["accepted", "declined", "expired", "completed"].contains t then
      s.text == t
    else ["accepted", "declined", "expired", "cancelled", "completed"].contains s.text
  | none => ["accepted", "declined", "expired", "cancelled", "completed"].contains s.text

/-- Controller `getRequestHistory`; `page` and `limit` are the results of the
two `parseInt`. Store calls: 0 `countDocuments`, 1 `find`. The sort by
requestedAt, newest first, keeps the stored order among equal instants; a
negative skip is refused by the store and a negative limit counts as its
absolute value. -/
def getRequestHistory (st : ServerState) (reqUser : User) (page limit : Option Int)
    (status : Option String) (faults : Faults) : RestResult HistoryPage :=
  let astrologerId := reqUser._id
  if reqUser.role ≠ .astrologer then .next 403 "Only astrologers can access this"
  else
    let page := parsedOr page 1
    let limit := parsedOr limit 20
    let skip := (page - 1) * limit
    let query := fun (r : ConsultationRequest) =>
      r.astrologer == astrologerId && historyStatusMatches status r.status
    match faults 0 with
    | some e => .thrown e
    | none =>
      let totalRequests := (st.requests.filter query).length
      match faults 1 with
      | some e => .thrown e
      | none =>
        if skip < 0 then .thrown "Skip value must be non-negative"
        else
          let sorted := (st.requests.filter query).insertionSort
            fun a b => a.requestedAt ≥ b.requestedAt
          let requests := (sorted.drop skip.toNat).take limit.natAbs
          .json 200
            { requests := requests, currentPage := page,
              totalPages := -Int.fdiv (-(totalRequests : Int)) limit,
              totalRequests := totalRequests, requestsPerPage := limit }

/-- What a middleware of the pull surface did: it attached a user and
called `next()`, or it handed an error with a status code to `next`. -/
inductive Gate
  | pass (user : User)
  | reject (code : Nat) (message : String)
  deriving DecidableEq, Repr

/-- The token taken from an Authorization header by
`authHeader.split(" ")[1]`, for a header that starts with "Bearer ". -/
def bearerToken (authHeader : String) : String :=
  String.mk ((authHeader.data.drop 7).takeWhile fun c => c != ' ')

/-- Middleware `isAuthenticated` of middleware/auth.js. `verify` stands for
`jwt.verify(token, secret)` as in `authMiddleware`; store call 0 is
`User.findById`, whose CastError is caught like any other error. -/
def isAuthenticated (st : ServerState) (authorization : Option String)
    (verify : String → Except String (Option String)) (faults : Faults) : Gate :=
  match authorization with
  | none => .reject 401 "Please login to access this resource"
  | some authHeader =>
    if authHeader == "" || authHeader.data.take 7 != "Bearer ".data then
      .reject 401 "Please login to access this resource"
    else
      let token := bearerToken authHeader
      if token == "" then .reject 401 "Please login to access this resource"
      else
        match verify token with
        | .error _ => .reject 401 "Invalid or expired token"
        | .ok decodedId =>
          match faults 0 with
          | some _ => .reject 401 "Invalid or expired token"
          | none =>
            if castFails decodedId then .reject 401 "Invalid or expired token"
            else
              match findUser st.users decodedId with
              | none => .reject 404 "User not found"
              | some user => .pass user

/-- Middleware `isAdmin` of middleware/auth.js, run on `req.user`. -/
def isAdmin (reqUser : Option User) : Gate :=
  match reqUser with
  | none => .reject 401 "Authentication required"
  | some user =>
    if user.role ≠ .admin then .reject 403 "Access denied. Admin privileges required"
    else .pass user

/-- The route `POST /expire-old` of consultation.route.js: the router-level
`isAuthenticated`, then the controller. `authFaults` are the rejected store
calls of the middleware, `faults` those of the controller. -/
def postExpireOld (st : ServerState) (authorization : Option String)
    (verify : String → Except String (Option String)) (t1 t2 : Nat)
    (authFaults faults : Faults) : ServerState × RestResult Nat :=
  match isAuthenticated st authorization verify authFaults with
  | .reject code message => (st, .next code message)
  | .pass _ => expireOldRequests st t1 t2 faults

/-! ## Two accept calls in flight (socket.js lines 354-453)

The handler gives up control at its two `await`s: the store serves
`findById(...).populate(...)`, and later the `save()`. A call is thus two
steps against the store, the load and the rest of the handler, and other
calls may run between them. -/

/-- What `findById(requestId).populate("user")` hands to the handler: the
request, and the user document of its requester, if they exist. -/
structure AcceptLoaded where
  request : Option ConsultationRequest
  user : Option User
  deriving DecidableEq, Repr

/-- The load step of accept, served by the store in state `st`, for a
request id whose cast does not throw. -/
def acceptLoad (st : ServerState) (d : TransitionData) : AcceptLoaded :=
  match findRequest st.requests d.requestId with
  | none => ⟨none, none⟩
  | some r => ⟨some r, findUser st.users (some r.user)⟩

/-- The write of `request.save()` for a document on which the handler set
`status` and `respondedAt`: these two paths are set on the stored document
with that `_id`. -/
def saveModified (requests : List ConsultationRequest) (id : String) (status : Status)
    (respondedAt : Option Nat) : List ConsultationRequest :=
  match requests with
  | [] => []
  | r :: rest =>
    if r._id == id then { r with status := status, respondedAt := respondedAt } :: rest
    else r :: saveModified rest id status respondedAt

/-- The handler of `consultation:accept` from the point where the load has
answered with `loaded`; `st` is the server when the save is served. Store
call 1 is the save. -/
def acceptResume (st : ServerState) (socket : Socket) (loaded : AcceptLoaded) (cb : Bool)
    (t1 t2 : Nat) (faults : Faults) : Outcome :=
  let userId := socket.user._id
  let fallback := "Failed to accept consultation request"
  match loaded.request with
  | none => ⟨st, [], ack cb (.failure "Request not found")⟩
  | some request =>
    if request.astrologer ≠ userId then
      ⟨st, [], ack cb (.failure "You are not authorized to accept this request")⟩
    else if request.status ≠ .pending then
      ⟨st, [], ack cb (.failure ("Request is already " ++ request.status.text))⟩
    else if t1 > request.expiresAt then
      match faults 1 with
      | some e => ⟨st, [], caught cb e fallback⟩
      | none =>
        ⟨{ st with requests := saveModified st.requests request._id .expired (some t2) }, [],
          ack cb (.failure "Request has expired")⟩
    else
      match faults 1 with
      | some e => ⟨st, [], caught cb e fallback⟩
      | none =>
        let st1 := { st with
          requests := saveModified st.requests request._id .accepted (some t2) }
        match loaded.user with
        | none => ⟨st1, [], caught cb nullReadError fallback⟩
        | some u =>
          let emits :=
            match socketOf st u._id with
            | none => []
            | some sid =>
              [Emit.to sid (.consultationAccepted request._id userId socket.user.name)]
          ⟨st1, emits, ack cb (.success (.acceptedFor u "Consultation request accepted"))⟩

/-- One accept call with all its inputs. -/
structure AcceptCall where
  socket : Socket
  data : TransitionData
  cb : Bool
  t1 : Nat
  t2 : Nat
  faults : Faults

/-- Where a call stands: not started, waiting for its save with the loaded
document, or finished with its emissions and acknowledgments. -/
inductive CallPhase
  | idle
  | loaded (l : AcceptLoaded)
  | done (emits : List Emit) (acks : List Ack)
  deriving DecidableEq, Repr

/-- The next step of a call against the store. -/
def stepAccept (st : ServerState) (c : AcceptCall) : CallPhase → ServerState × CallPhase
  | .idle =>
    match c.faults 0 with
    | some e => (st, .done [] (caught c.cb e "Failed to accept consultation request"))
    | none =>
      if castFails c.data.requestId then
        (st, .done [] (caught c.cb castError "Failed to accept consultation request"))
      else (st, .loaded (acceptLoad st c.data))
  | .loaded l =>
    ((acceptResume st c.socket l c.cb c.t1 c.t2 c.faults).state,
      .done (acceptResume st c.socket l c.cb c.t1 c.t2 c.faults).emits
        (acceptResume st c.socket l c.cb c.t1 c.t2 c.faults).acks)
  | .done emits acks => (st, .done emits acks)

/-- The server and the two calls in flight. -/
structure TwoCalls where
  state : ServerState
  first : CallPhase
  second : CallPhase
  deriving DecidableEq, Repr

/-- Runs a schedule: `true` lets the first call take its next step, `false`
the second. -/
def runTwo (a b : AcceptCall) (cfg : TwoCalls) : List Bool → TwoCalls
  | [] => cfg
  | true :: rest =>
    runTwo a b ⟨(stepAccept cfg.state a cfg.first).1, (stepAccept cfg.state a cfg.first).2,
      cfg.second⟩ rest
  | false :: rest =>
    runTwo a b ⟨(stepAccept cfg.state b cfg.second).1, cfg.first,
      (stepAccept cfg.state b cfg.second).2⟩ rest

/-- An accept call for request `rid` with an acknowledgment callback, on a
working store. -/
def acceptCall (socket : Socket) (rid : Option String) (t1 t2 : Nat) : AcceptCall :=
  ⟨socket, ⟨rid, none⟩, true, t1, t2, noFaults⟩

/-! ## The cancel row of the state machine -/

/-- The cancel operation as the specification words it (table of section
4.4): guard "caller is the request's requester; status == pending", effect
"transition to cancelled, stamp respondedAt". The result is the new
collection, or nothing when the guard refuses. -/
def specCancel (requests : List ConsultationRequest) (callerId : String)
    (requestId : Option String) (now : Nat) : Option (List ConsultationRequest) :=
  match findRequest requests requestId with
  | none => none
  | some r =>
    if r.user = callerId ∧ r.status = .pending then
      some (saveRequest requests { r with status := .cancelled, respondedAt := some now })
    else none

/-! ## Properties of requests used in the frame and stamp results -/

/-- Whether an operation is a create. -/
def Op.isCreate : Op → Bool
  | .create .. => true
  | _ => false

/-- Document `r2` is `r` up to status, respondedAt and completedAt. -/
def SameFrame (r r2 : ConsultationRequest) : Prop :=
  r2 = { r with status := r2.status, respondedAt := r2.respondedAt, completedAt := r2.completedAt }

/-- The stamps of a request fit its status. -/
def WellStamped (r : ConsultationRequest) : Prop :=
  match r.status with
  | .pending => r.respondedAt = none ∧ r.completedAt = none
  | .completed => r.respondedAt ≠ none ∧ r.completedAt ≠ none
  | _ => r.respondedAt ≠ none ∧ r.completedAt = none

/-! ## C1: the room of a conversation -/

theorem char_valid (c : Char) :
    c.toNat < 0xD800 ∨ (0xDFFF < c.toNat ∧ c.toNat < 0x110000) := by
  have h := c.valid
  simpa [UInt32.isValidChar, Nat.isValidChar, Char.toNat] using h

theorem char_eq_of_toNat (c d : Char) (h : c.toNat = d.toNat) : c = d := by
  apply Char.ext
  apply UInt32.ext
  exact h

/-- Two strings with the same UTF-16 code units are equal. -/
theorem units_injective (l1 l2 : List Char)
    (h : utf16Units (String.mk l1) = utf16Units (String.mk l2)) : l1 = l2 := by
  simp only [utf16Units] at h
  induction l1 generalizing l2 with
  | nil =>
    cases l2 with
    | nil => rfl
    | cons c r =>
      simp only [List.flatMap_nil, List.flatMap_cons] at h
      split at h <;> simp at h
  | cons c1 r1 ih =>
    cases l2 with
    | nil =>
      simp only [List.flatMap_nil, List.flatMap_cons] at h
      split at h <;> simp at h
    | cons c2 r2 =>
      simp only [List.flatMap_cons] at h
      have v1 := char_valid c1
      have v2 := char_valid c2
      split at h <;> split at h <;>
        simp only [List.cons_append, List.nil_append, List.cons.injEq] at h
      · rw [char_eq_of_toNat c1 c2 h.1, ih r2 h.2]
      · omega
      · omega
      · have : c1.toNat = c2.toNat := by omega
        rw [char_eq_of_toNat c1 c2 this, ih r2 h.2.2]

theorem unitsLt_total (a b : List Nat) (h1 : unitsLt a b = false) (h2 : unitsLt b a = false) :
    a = b := by
  induction a generalizing b with
  | nil =>
    cases b with
    | nil => rfl
    | cons y ys => simp [unitsLt] at h1
  | cons x xs ih =>
    cases b with
    | nil => simp [unitsLt] at h2
    | cons y ys =>
      simp only [unitsLt] at h1 h2
      by_cases hxy : x < y
      · simp [hxy] at h1
      · by_cases hyx : y < x
        · simp [hyx] at h2
        · simp only [hxy, hyx, if_false] at h1 h2
          have : x = y := by omega
          rw [this, ih ys h1 h2]

theorem unitsLt_asymm (a b : List Nat) (h1 : unitsLt a b = true) : unitsLt b a = false := by
  induction a generalizing b with
  | nil =>
    cases b with
    | nil => simp [unitsLt]
    | cons y ys => simp [unitsLt]
  | cons x xs ih =>
    cases b with
    | nil => simp [unitsLt] at h1
    | cons y ys =>
      simp only [unitsLt] at h1 ⊢
      by_cases hxy : x < y
      · have : ¬ y < x := by omega
        simp [hxy, this]
      · by_cases hyx : y < x
        · simp [hxy, hyx] at h1
        · simp only [hxy, hyx, if_false] at h1 ⊢
          exact ih ys h1

/-- C1. For all id strings A and B, getRoomId(A, B) = getRoomId(B, A); hence
the room joined by A for its conversation with B is the room joined by B
for its conversation with A, and the room to which a message of either is
emitted. -/
theorem getRoomId_comm (a b : String) :
    getRoomId a b = getRoomId b a ∧
    (∀ st sa sb, sa.user._id = a → sb.user._id = b →
      (getRoomId a b, sa.id) ∈ (conversationJoin st sa b).rooms ∧
      (getRoomId a b, sb.id) ∈ (conversationJoin st sb a).rooms ∧
      (getRoomId a b, sa.id) ∉ (conversationLeave st sa b).rooms ∧
      (getRoomId a b, sb.id) ∉ (conversationLeave st sb a).rooms) := by
  have hcomm : getRoomId a b = getRoomId b a := by
    unfold getRoomId
    cases hba : jsStrLt b a with
    | true =>
      have : jsStrLt a b = false := unitsLt_asymm _ _ hba
      simp [this]
    | false =>
      cases hab : jsStrLt a b with
      | true => simp
      | false =>
        have h := units_injective a.data b.data (unitsLt_total _ _ hab hba)
        have : a = b := by
          cases a; cases b; simp_all
        subst this; simp
  refine ⟨hcomm, ?_⟩
  intro st sa sb ha hb
  refine ⟨?_, ?_, ?_, ?_⟩
  · simp only [conversationJoin, ha]
    split
    · assumption
    · simp
  · simp only [conversationJoin, hb, ← hcomm]
    split
    · assumption
    · simp
  · simp [conversationLeave, ha]
  · simp [conversationLeave, hb, ← hcomm]

/-! ## Facts about the store operations -/

theorem ack_true (a : Ack) : ack true a = [a] := rfl

theorem ack_false (a : Ack) : ack false a = [] := rfl

theorem ack_length (cb : Bool) (a : Ack) : (ack cb a).length = if cb then 1 else 0 := by
  cases cb <;> rfl

theorem caught_length (cb : Bool) (e f : String) :
    (caught cb e f).length = if cb then 1 else 0 := by
  cases cb <;> rfl

/-- An id that resolves to a request is cast to the `_id` of that request. -/
theorem findRequest_cast (rs : List ConsultationRequest) (i : Option String)
    (r : ConsultationRequest) (h : findRequest rs i = some r) :
    i.bind castObjectId = some r._id := by
  cases hk : i.bind castObjectId with
  | none => simp [findRequest, hk] at h
  | some k =>
    simp only [findRequest, hk] at h
    have := List.find?_some h
    simp only [beq_iff_eq] at this
    rw [this]

/-- An id that resolves to a user is cast to the `_id` of that user. -/
theorem findUser_cast (users : List User) (i : Option String) (u : User)
    (h : findUser users i = some u) : i.bind castObjectId = some u._id := by
  cases hk : i.bind castObjectId with
  | none => simp [findUser, hk] at h
  | some k =>
    simp only [findUser, hk] at h
    have := List.find?_some h
    simp only [beq_iff_eq] at this
    rw [this]

theorem castFails_of_bind (i : Option String) (k : String)
    (h : i.bind castObjectId = some k) : castFails i = false := by
  cases i with
  | none => rfl
  | some raw =>
    simp only [Option.some_bind] at h
    simp [castFails, h]

/-- An id whose cast throws resolves to no user. -/
theorem findUser_of_castFails (users : List User) (i : Option String)
    (h : castFails i = true) : findUser users i = none := by
  cases i with
  | none => simp [castFails] at h
  | some raw =>
    simp only [castFails, Option.isNone_iff_eq_none] at h
    simp [findUser, h]

/-- An id whose cast throws resolves to no request. -/
theorem findRequest_of_castFails (rs : List ConsultationRequest) (i : Option String)
    (h : castFails i = true) : findRequest rs i = none := by
  cases i with
  | none => simp [castFails] at h
  | some raw =>
    simp only [castFails, Option.isNone_iff_eq_none] at h
    simp [findRequest, h]

/-- The cast of an id that resolves to a request does not throw. -/
theorem castFails_of_findRequest (rs : List ConsultationRequest) (i : Option String)
    (r : ConsultationRequest) (h : findRequest rs i = some r) : castFails i = false :=
  castFails_of_bind i _ (findRequest_cast rs i r h)

/-- The cast of an id that resolves to a user does not throw. -/
theorem castFails_of_findUser (users : List User) (i : Option String) (u : User)
    (h : findUser users i = some u) : castFails i = false :=
  castFails_of_bind i _ (findUser_cast users i u h)

/-- After `save`, `findById` returns the saved document. -/
theorem findRequest_saveRequest (rs : List ConsultationRequest) (i : Option String)
    (r saved : ConsultationRequest) (h : findRequest rs i = some r)
    (hid : saved._id = r._id) : findRequest (saveRequest rs saved) i = some saved := by
  cases hk : i.bind castObjectId with
  | none => simp [findRequest, hk] at h
  | some i =>
    simp only [findRequest, hk] at h ⊢
    induction rs with
    | nil => simp at h
    | cons x rest ih =>
      have hri : r._id = i := by
        have := List.find?_some h
        simpa using this
      by_cases hx : x._id = i
      · have hxr : x = r := by
          rw [List.find?_cons_of_pos _ (by simpa using hx)] at h
          exact Option.some.inj h
        subst hxr
        have hs : saveRequest (x :: rest) saved = saved :: rest := by
          simp [saveRequest, hid]
        rw [hs, List.find?_cons_of_pos _ (by simpa [hid] using hx)]
      · have hrest : List.find? (fun r => r._id == i) rest = some r := by
          rw [List.find?_cons_of_neg _ (by simpa using hx)] at h
          exact h
        have hne : ¬ x._id = saved._id := by
          rw [hid, hri]; exact hx
        have hs : saveRequest (x :: rest) saved = x :: saveRequest rest saved := by
          simp [saveRequest, hne]
        rw [hs, List.find?_cons_of_neg _ (by simpa using hx)]
        exact ih hrest

/-! ## The branches of `consultation:complete` -/

theorem complete_fault (st : ServerState) (socket : Socket) (d : TransitionData) (cb : Bool)
    (now : Nat) (faults : Faults) (e : String) (h0 : faults 0 = some e) :
    consultationComplete st socket (some d) cb now faults =
      ⟨st, [], caught cb e "Failed to complete consultation"⟩ := by
  simp [consultationComplete, h0]

theorem complete_malformed (st : ServerState) (socket : Socket) (d : TransitionData)
    (cb : Bool) (now : Nat) (faults : Faults) (h0 : faults 0 = none)
    (hc : castFails d.requestId = true) :
    consultationComplete st socket (some d) cb now faults =
      ⟨st, [], ack cb (.failure castError)⟩ := by
  simp [consultationComplete, h0, hc, caught]
  rfl

theorem complete_missing (st : ServerState) (socket : Socket) (d : TransitionData) (cb : Bool)
    (now : Nat) (faults : Faults) (h0 : faults 0 = none)
    (hc : castFails d.requestId = false)
    (hf : findRequest st.requests d.requestId = none) :
    consultationComplete st socket (some d) cb now faults =
      ⟨st, [], ack cb (.failure "Request not found")⟩ := by
  simp [consultationComplete, h0, hf, hc]

theorem complete_stranger (st : ServerState) (socket : Socket) (d : TransitionData) (cb : Bool)
    (now : Nat) (faults : Faults) (r : ConsultationRequest) (h0 : faults 0 = none)
    (hf : findRequest st.requests d.requestId = some r)
    (hu : r.user ≠ socket.user._id) (ha : r.astrologer ≠ socket.user._id) :
    consultationComplete st socket (some d) cb now faults =
      ⟨st, [], ack cb (.failure "You are not authorized to complete this consultation")⟩ := by
  simp [consultationComplete, h0, hf, castFails_of_findRequest _ _ _ hf, hu, ha]

theorem complete_wrong_status (st : ServerState) (socket : Socket) (d : TransitionData)
    (cb : Bool) (now : Nat) (faults : Faults) (r : ConsultationRequest) (h0 : faults 0 = none)
    (hf : findRequest st.requests d.requestId = some r)
    (hp : r.user = socket.user._id ∨ r.astrologer = socket.user._id)
    (hs : r.status ≠ .accepted) :
    consultationComplete st socket (some d) cb now faults =
      ⟨st, [], ack cb (.failure ("Cannot complete " ++ r.status.text ++ " consultation"))⟩ := by
  have hp2 : ¬ (¬ r.astrologer = socket.user._id ∧ ¬ r.user = socket.user._id) := by
    intro h; rcases hp with h1 | h1
    · exact h.2 h1
    · exact h.1 h1
  simp [consultationComplete, h0, hf, castFails_of_findRequest _ _ _ hf, hp2, hs]

theorem complete_accepted (st : ServerState) (socket : Socket) (d : TransitionData)
    (cb : Bool) (now : Nat) (faults : Faults) (r : ConsultationRequest) (h0 : faults 0 = none)
    (h1 : faults 1 = none)
    (hf : findRequest st.requests d.requestId = some r)
    (hp : r.user = socket.user._id ∨ r.astrologer = socket.user._id)
    (hs : r.status = .accepted) :
    consultationComplete st socket (some d) cb now faults =
      ⟨{ st with
          requests := saveRequest st.requests
            { r with status := .completed, completedAt := some now } },
        (match socketOf st
            (if r.astrologer = socket.user._id then r.user else r.astrologer) with
          | none => []
          | some sid =>
            [.to sid (.consultationCompleted r._id socket.user._id socket.user.name)]),
        ack cb (.success (.text "Consultation completed successfully"))⟩ := by
  have hp2 : ¬ (¬ r.astrologer = socket.user._id ∧ ¬ r.user = socket.user._id) := by
    intro h; rcases hp with h1 | h1
    · exact h.2 h1
    · exact h.1 h1
  simp only [consultationComplete, h0, h1, hf, castFails_of_findRequest _ _ _ hf]
  simp [hp2, hs]

/-! ## C11: completing a consultation -/


/-- C11. With a working store, `consultation:complete` acknowledges success
exactly when the request exists, the caller is its requester or its provider
and its status is accepted. In that case the stored request becomes completed
with completedAt = now and nothing else changed, the completed event goes to
the socket of the other party (the requester when the caller is the provider,
the provider when the caller is the requester) when that party is online,
and any further complete on the same request, by anyone at any time, fails
and changes nothing. In every other case the call fails and changes nothing. -/
theorem complete_spec (st : ServerState) (socket : Socket) (d : TransitionData) (now : Nat) :
    ((∃ a, (consultationComplete st socket (some d) true now noFaults).acks = [.success a]) ↔
      ∃ r, findRequest st.requests d.requestId = some r ∧
        (r.user = socket.user._id ∨ r.astrologer = socket.user._id) ∧ r.status = .accepted) ∧
    (∀ r, findRequest st.requests d.requestId = some r →
        (r.user = socket.user._id ∨ r.astrologer = socket.user._id) → r.status = .accepted →
        ∃ other,
          (r.astrologer = socket.user._id → other = r.user) ∧
          (r.user = socket.user._id → other = r.astrologer) ∧
          ∀ cb, consultationComplete st socket (some d) cb now noFaults =
            ⟨{ st with
                requests := saveRequest st.requests
                  { r with status := .completed, completedAt := some now } },
              (match socketOf st other with
                | none => []
                | some sid =>
                  [.to sid (.consultationCompleted r._id socket.user._id socket.user.name)]),
              ack cb (.success (.text "Consultation completed successfully"))⟩ ∧
          findRequest (consultationComplete st socket (some d) cb now noFaults).state.requests
              d.requestId = some { r with status := .completed, completedAt := some now } ∧
          ∀ socket2 cb2 now2,
            ∃ e, consultationComplete
                (consultationComplete st socket (some d) cb now noFaults).state
                socket2 (some d) cb2 now2 noFaults =
              ⟨(consultationComplete st socket (some d) cb now noFaults).state, [],
                ack cb2 (.failure e)⟩) ∧
    ((¬ ∃ r, findRequest st.requests d.requestId = some r ∧
        (r.user = socket.user._id ∨ r.astrologer = socket.user._id) ∧ r.status = .accepted) →
      ∀ cb, ∃ e, consultationComplete st socket (some d) cb now noFaults =
        ⟨st, [], ack cb (.failure e)⟩) := by
  have hn : noFaults 0 = none := rfl
  have hn1 : noFaults 1 = none := rfl
  -- the successful branch, used by the first two parts
  have key : ∀ r, findRequest st.requests d.requestId = some r →
      (r.user = socket.user._id ∨ r.astrologer = socket.user._id) → r.status = .accepted →
      ∀ cb, consultationComplete st socket (some d) cb now noFaults =
        ⟨{ st with
            requests := saveRequest st.requests
              { r with status := .completed, completedAt := some now } },
          (match socketOf st
              (if r.astrologer = socket.user._id then r.user else r.astrologer) with
            | none => []
            | some sid =>
              [.to sid (.consultationCompleted r._id socket.user._id socket.user.name)]),
          ack cb (.success (.text "Consultation completed successfully"))⟩ :=
    fun r hf hp hs cb => complete_accepted st socket d cb now noFaults r hn hn1 hf hp hs
  -- every other branch fails and leaves the state alone
  have other : (¬ ∃ r, findRequest st.requests d.requestId = some r ∧
        (r.user = socket.user._id ∨ r.astrologer = socket.user._id) ∧ r.status = .accepted) →
      ∀ cb, ∃ e, consultationComplete st socket (some d) cb now noFaults =
        ⟨st, [], ack cb (.failure e)⟩ := by
    intro hno cb
    cases hf : findRequest st.requests d.requestId with
    | none =>
      cases hc : castFails d.requestId with
      | true => exact ⟨_, complete_malformed st socket d cb now noFaults hn hc⟩
      | false => exact ⟨_, complete_missing st socket d cb now noFaults hn hc hf⟩
    | some r =>
      by_cases hp : r.user = socket.user._id ∨ r.astrologer = socket.user._id
      · have hs : r.status ≠ .accepted := fun hs => hno ⟨r, hf, hp, hs⟩
        exact ⟨_, complete_wrong_status st socket d cb now noFaults r hn hf hp hs⟩
      · have hu : r.user ≠ socket.user._id := fun h => hp (Or.inl h)
        have ha : r.astrologer ≠ socket.user._id := fun h => hp (Or.inr h)
        exact ⟨_, complete_stranger st socket d cb now noFaults r hn hf hu ha⟩
  refine ⟨⟨?_, ?_⟩, ?_, other⟩
  · intro hsucc
    by_contra hno
    obtain ⟨e, he⟩ := other hno true
    obtain ⟨a, ha⟩ := hsucc
    rw [he] at ha
    simp [ack] at ha
  · rintro ⟨r, hf, hp, hs⟩
    exact ⟨_, by rw [key r hf hp hs true]; rfl⟩
  · intro r hf hp hs
    refine ⟨if r.astrologer = socket.user._id then r.user else r.astrologer, ?_, ?_, ?_⟩
    · intro h; simp [h]
    · intro h
      by_cases h2 : r.astrologer = socket.user._id
      · simp [h2, h]
      · simp [h2]
    · intro cb
      have hfind : findRequest (saveRequest st.requests
          { r with status := .completed, completedAt := some now }) d.requestId =
          some { r with status := .completed, completedAt := some now } :=
        findRequest_saveRequest st.requests d.requestId r _ hf rfl
      refine ⟨key r hf hp hs cb, ?_, ?_⟩
      · rw [key r hf hp hs cb]; exact hfind
      · intro socket2 cb2 now2
        rw [key r hf hp hs cb]
        by_cases hp2 : r.user = socket2.user._id ∨ r.astrologer = socket2.user._id
        · exact ⟨_, complete_wrong_status _ socket2 d cb2 now2 noFaults _ hn hfind hp2
            (by simp)⟩
        · have hu : r.user ≠ socket2.user._id := fun h => hp2 (Or.inl h)
          have ha : r.astrologer ≠ socket2.user._id := fun h => hp2 (Or.inr h)
          exact ⟨_, complete_stranger _ socket2 d cb2 now2 noFaults _ hn hfind hu ha⟩

/-! ## C12: callers that are not the required party -/

/-- C12. A caller that is not the required party of an existing request is
refused before anything is written, whatever the status of the request and
whatever the store answers: accept and decline by someone who is not the
provider, cancel (socket and REST) by someone who is not the requester and
complete by someone who is neither leave the whole server state unchanged,
emit nothing and acknowledge (respond with) a failure. -/
theorem stranger_refused (st : ServerState) (socket : Socket) (d : TransitionData)
    (r : ConsultationRequest) (cb : Bool) (t1 t2 : Nat) (faults : Faults)
    (hf : findRequest st.requests d.requestId = some r) :
    (r.astrologer ≠ socket.user._id →
      (∃ e, consultationAccept st socket (some d) cb t1 t2 faults =
        ⟨st, [], ack cb (.failure e)⟩) ∧
      (∃ e, consultationDecline st socket (some d) cb t1 faults =
        ⟨st, [], ack cb (.failure e)⟩)) ∧
    (r.user ≠ socket.user._id →
      (∃ e, consultationCancel st socket (some d) cb t1 faults =
        ⟨st, [], ack cb (.failure e)⟩) ∧
      (cancelRequest st socket.user d.requestId t1 faults =
          (st, .next 403 "You can only cancel your own requests") ∨
        ∃ e, cancelRequest st socket.user d.requestId t1 faults = (st, .thrown e))) ∧
    (r.user ≠ socket.user._id → r.astrologer ≠ socket.user._id →
      ∃ e, consultationComplete st socket (some d) cb t1 faults =
        ⟨st, [], ack cb (.failure e)⟩) := by
  refine ⟨fun ha => ⟨?_, ?_⟩, fun hu => ⟨?_, ?_⟩, fun hu ha => ?_⟩
  · cases h0 : faults 0 with
    | some e => exact ⟨_, by simp [consultationAccept, h0, caught]; rfl⟩
    | none => exact ⟨_, by simp [consultationAccept, h0, hf, castFails_of_findRequest _ _ _ hf, ha]; rfl⟩
  · cases h0 : faults 0 with
    | some e => exact ⟨_, by simp [consultationDecline, h0, caught]; rfl⟩
    | none => exact ⟨_, by simp [consultationDecline, h0, hf, castFails_of_findRequest _ _ _ hf, ha]; rfl⟩
  · cases h0 : faults 0 with
    | some e => exact ⟨_, by simp [consultationCancel, h0, caught]; rfl⟩
    | none => exact ⟨_, by simp [consultationCancel, h0, hf, castFails_of_findRequest _ _ _ hf, hu]; rfl⟩
  · cases h0 : faults 0 with
    | some e => exact Or.inr ⟨e, by simp [cancelRequest, h0]⟩
    | none => exact Or.inl (by simp [cancelRequest, h0, hf, castFails_of_findRequest _ _ _ hf, hu])
  · cases h0 : faults 0 with
    | some e => exact ⟨_, by rw [complete_fault st socket d cb t1 faults e h0]; rfl⟩
    | none => exact ⟨_, complete_stranger st socket d cb t1 faults r h0 hf hu ha⟩


/-- The concrete instance of C12: Xen, a third user, cannot accept the
pending request of Uma to Asha. -/
theorem stranger_refused_witness :
    findRequest (sampleState .pending).requests sampleTransition.requestId =
        some (sampleRequest .pending) ∧
      ∃ e, consultationAccept (sampleState .pending) ⟨"s9", xen⟩ (some sampleTransition) true
          2000 2001 noFaults = ⟨sampleState .pending, [], ack true (.failure e)⟩ :=
  ⟨by decide,
    ((stranger_refused (sampleState .pending) ⟨"s9", xen⟩ sampleTransition
      (sampleRequest .pending) true 2000 2001 noFaults (by decide)).1 (by decide)).1⟩

/-! ## Facts about `Map` -/

namespace JsMap

theorem has_iff_mem_keys (m : JsMap) (k : String) : has m k = true ↔ k ∈ keys m := by
  induction m with
  | nil => simp [has, keys]
  | cons x rest ih =>
    obtain ⟨k1, v1⟩ := x
    by_cases h : k1 = k
    · simp [has, keys, h]
    · have h2 : ¬ k = k1 := fun e => h e.symm
      simp only [has, h, if_false, ih]
      simp [keys, h2]

theorem mem_keys_set (m : JsMap) (k v : String) : k ∈ keys (set m k v) := by
  induction m with
  | nil => simp [set, keys]
  | cons x rest ih =>
    obtain ⟨k1, v1⟩ := x
    by_cases h : k1 = k
    · simp [set, keys, h]
    · simp only [set, h, if_false]
      simp only [keys, List.map_cons, List.mem_cons]
      exact Or.inr ih

theorem mem_keys_set_iff (m : JsMap) (k v j : String) :
    j ∈ keys (set m k v) ↔ j = k ∨ j ∈ keys m := by
  induction m with
  | nil => simp [set, keys]
  | cons x rest ih =>
    obtain ⟨k1, v1⟩ := x
    by_cases h : k1 = k
    · subst h; simp [set, keys]
    · simp only [set, h, if_false]
      simp only [keys, List.map_cons, List.mem_cons] at ih ⊢
      rw [ih]; tauto

theorem nodup_keys_set (m : JsMap) (k v : String) (h : (keys m).Nodup) :
    (keys (set m k v)).Nodup := by
  induction m with
  | nil => simp [set, keys]
  | cons x rest ih =>
    obtain ⟨k1, v1⟩ := x
    have hn : k1 ∉ keys rest ∧ (keys rest).Nodup := by simpa [keys] using h
    by_cases hk : k1 = k
    · subst hk; simpa [set, keys] using h
    · simp only [set, hk, if_false]
      have : k1 ∉ keys (set rest k v) := by
        rw [mem_keys_set_iff]; rintro (e | e)
        · exact hk e
        · exact hn.1 e
      have h3 := ih hn.2
      simp only [keys, List.map_cons, List.nodup_cons] at this h3 ⊢
      exact ⟨this, h3⟩

theorem mem_keys_delete (m : JsMap) (k j : String) (h : j ∈ keys (delete m k)) :
    j ∈ keys m := by
  induction m with
  | nil => simp [delete, keys] at h
  | cons x rest ih =>
    obtain ⟨k1, v1⟩ := x
    by_cases hk : k1 = k
    · simp only [delete, hk, if_true] at h
      simp only [keys, List.map_cons, List.mem_cons]
      exact Or.inr h
    · simp only [delete, hk, if_false] at h
      simp only [keys, List.map_cons, List.mem_cons] at h ⊢
      rcases h with h | h
      · exact Or.inl h
      · exact Or.inr (ih h)

theorem nodup_keys_delete (m : JsMap) (k : String) (h : (keys m).Nodup) :
    (keys (delete m k)).Nodup := by
  induction m with
  | nil => simp [delete, keys]
  | cons x rest ih =>
    obtain ⟨k1, v1⟩ := x
    have hn : k1 ∉ keys rest ∧ (keys rest).Nodup := by simpa [keys] using h
    by_cases hk : k1 = k
    · simp only [delete, hk, if_true]; exact hn.2
    · simp only [delete, hk, if_false]
      have h3 := ih hn.2
      have : k1 ∉ keys (delete rest k) := fun e => hn.1 (mem_keys_delete rest k k1 e)
      simp only [keys, List.map_cons, List.nodup_cons] at this h3 ⊢
      exact ⟨this, h3⟩

theorem not_mem_keys_delete (m : JsMap) (k : String) (h : (keys m).Nodup) :
    k ∉ keys (delete m k) := by
  induction m with
  | nil => simp [delete, keys]
  | cons x rest ih =>
    obtain ⟨k1, v1⟩ := x
    have hn : k1 ∉ keys rest ∧ (keys rest).Nodup := by simpa [keys] using h
    by_cases hk : k1 = k
    · subst hk; simp only [delete, if_true]; exact hn.1
    · simp only [delete, hk, if_false]
      have h3 := ih hn.2
      have hk2 : ¬ k = k1 := fun e => hk e.symm
      simp only [keys, List.map_cons, List.mem_cons] at h3 ⊢
      rintro (e | e)
      · exact hk2 e
      · exact h3 e

theorem get_set_ne (m : JsMap) (k v j : String) (h : j ≠ k) : get (set m k v) j = get m j := by
  induction m with
  | nil => simp [set, get, h.symm]
  | cons x rest ih =>
    obtain ⟨k1, v1⟩ := x
    by_cases hk : k1 = k
    · subst hk; simp [set, get, h.symm]
    · simp only [set, hk, if_false, get, ih]

theorem get_delete_ne (m : JsMap) (k j : String) (h : j ≠ k) :
    get (delete m k) j = get m j := by
  induction m with
  | nil => simp [delete, get]
  | cons x rest ih =>
    obtain ⟨k1, v1⟩ := x
    by_cases hk : k1 = k
    · subst hk; simp [delete, get, h.symm]
    · simp only [delete, hk, if_false, get, ih]

theorem get_set_self (m : JsMap) (k v : String) : get (set m k v) k = some v := by
  induction m with
  | nil => simp [set, get]
  | cons x rest ih =>
    obtain ⟨k1, v1⟩ := x
    by_cases hk : k1 = k
    · subst hk; simp [set, get]
    · simp only [set, hk, if_false, get, ih]

theorem get_of_not_mem_keys (m : JsMap) (k : String) (h : k ∉ keys m) : get m k = none := by
  induction m with
  | nil => rfl
  | cons x rest ih =>
    obtain ⟨k1, v1⟩ := x
    have h2 : ¬ k = k1 ∧ k ∉ keys rest := by simpa [keys] using h
    have h3 : ¬ k1 = k := fun e => h2.1 e.symm
    simp only [get, h3, if_false]
    exact ih h2.2

end JsMap

theorem nodup_runConn (evs : List ConnEvent) (st : ServerState)
    (h : st.activeUsers.keys.Nodup) : (runConn st evs).activeUsers.keys.Nodup := by
  induction evs generalizing st with
  | nil => exact h
  | cons e rest ih =>
    apply ih
    cases e with
    | connect s => exact JsMap.nodup_keys_set _ _ _ h
    | disconnect s => exact JsMap.nodup_keys_delete _ _ h

/-- While no other connection of `u` registers, the entry of `u` is either
the handle it had or gone. -/
theorem get_runConn (evs : List ConnEvent) (st : ServerState) (u h : String)
    (hw : st.activeUsers.keys.Nodup)
    (hevs : ∀ s, ConnEvent.connect s ∈ evs → s.user._id ≠ u)
    (hget : st.activeUsers.get u = some h ∨ st.activeUsers.get u = none) :
    (runConn st evs).activeUsers.get u = some h ∨ (runConn st evs).activeUsers.get u = none := by
  induction evs generalizing st with
  | nil => exact hget
  | cons e rest ih =>
    have hrest : ∀ s, ConnEvent.connect s ∈ rest → s.user._id ≠ u :=
      fun s hs => hevs s (List.mem_cons_of_mem _ hs)
    cases e with
    | connect s =>
      have hs : s.user._id ≠ u := hevs s (List.mem_cons_self _ _)
      refine ih _ (JsMap.nodup_keys_set _ _ _ hw) hrest ?_
      have : (ConnEvent.apply st (.connect s)).activeUsers.get u = st.activeUsers.get u :=
        JsMap.get_set_ne _ _ _ _ (Ne.symm hs)
      rw [this]; exact hget
    | disconnect s =>
      refine ih _ (JsMap.nodup_keys_delete _ _ hw) hrest ?_
      by_cases hs : s.user._id = u
      · right
        have : u ∉ JsMap.keys (st.activeUsers.delete u) := JsMap.not_mem_keys_delete _ _ hw
        have h2 := JsMap.get_of_not_mem_keys _ _ this
        simpa [ConnEvent.apply, onDisconnect, hs] using h2
      · have : (ConnEvent.apply st (.disconnect s)).activeUsers.get u = st.activeUsers.get u :=
          JsMap.get_delete_ne _ _ _ (Ne.symm hs)
        rw [this]; exact hget

/-! ## C13: a stale disconnect -/

/-- C13. Uma connects with socket h1 and then with socket h2, so the presence
map holds Uma -> h2; when h1 then disconnects, the handler deletes the entry
of Uma although it belongs to h2: Uma is reported offline while h2 is still
registered in the reverse map. -/
theorem stale_disconnect_evicts :
    ((onConnection (onConnection emptyState ⟨"h1", uma⟩).1 ⟨"h2", uma⟩).1).activeUsers.get umaId
        = some "h2" ∧
      (runConn emptyState
          [.connect ⟨"h1", uma⟩, .connect ⟨"h2", uma⟩, .disconnect ⟨"h1", uma⟩]).activeUsers.get
          umaId = none ∧
      isUserOnline (runConn emptyState
          [.connect ⟨"h1", uma⟩, .connect ⟨"h2", uma⟩, .disconnect ⟨"h1", uma⟩]) umaId = false ∧
      (runConn emptyState
          [.connect ⟨"h1", uma⟩, .connect ⟨"h2", uma⟩, .disconnect ⟨"h1", uma⟩]).socketToUser.get
          "h2" = some umaId := by
  decide

/-! ## C14: register, then disconnect -/

/-- C14. In a presence map with distinct keys, after a connection of U
registers, getActiveUsers lists U exactly once, isUserOnline(U) holds and the
entries of the other identities are as before. If, after any connection
events among which no other connection of U registers, that connection
disconnects, then the entry it removes, if any, is its own handle, and
afterwards getActiveUsers does not list U, isUserOnline(U) is false and the
entry of every other identity is as the disconnect found it. -/
theorem register_then_disconnect (st : ServerState) (socket : Socket) (evs : List ConnEvent)
    (hw : st.activeUsers.keys.Nodup)
    (hevs : ∀ s, ConnEvent.connect s ∈ evs → s.user._id ≠ socket.user._id) :
    (getActiveUsers (onConnection st socket).1).count socket.user._id = 1 ∧
    isUserOnline (onConnection st socket).1 socket.user._id = true ∧
    (∀ v, v ≠ socket.user._id →
      (onConnection st socket).1.activeUsers.get v = st.activeUsers.get v) ∧
    ((runConn (onConnection st socket).1 evs).activeUsers.get socket.user._id = some socket.id ∨
      (runConn (onConnection st socket).1 evs).activeUsers.get socket.user._id = none) ∧
    socket.user._id ∉
      getActiveUsers (onDisconnect (runConn (onConnection st socket).1 evs) socket).1 ∧
    isUserOnline (onDisconnect (runConn (onConnection st socket).1 evs) socket).1
      socket.user._id = false ∧
    (∀ v, v ≠ socket.user._id →
      (onDisconnect (runConn (onConnection st socket).1 evs) socket).1.activeUsers.get v =
        (runConn (onConnection st socket).1 evs).activeUsers.get v) := by
  have h1 : (onConnection st socket).1.activeUsers.keys.Nodup :=
    JsMap.nodup_keys_set _ _ _ hw
  have h2 := nodup_runConn evs _ h1
  have h3 : socket.user._id ∉
      getActiveUsers (onDisconnect (runConn (onConnection st socket).1 evs) socket).1 :=
    JsMap.not_mem_keys_delete _ _ h2
  refine ⟨?_, ?_, ?_, ?_, h3, ?_, ?_⟩
  · exact List.count_eq_one_of_mem h1 (JsMap.mem_keys_set _ _ _)
  · exact (JsMap.has_iff_mem_keys _ _).2 (JsMap.mem_keys_set _ _ _)
  · intro v hv; exact JsMap.get_set_ne _ _ _ _ hv
  · exact get_runConn evs _ _ _ h1 hevs (Or.inl (JsMap.get_set_self _ _ _))
  · cases hh : isUserOnline (onDisconnect (runConn (onConnection st socket).1 evs) socket).1
        socket.user._id with
    | false => rfl
    | true => exact absurd ((JsMap.has_iff_mem_keys _ _).1 hh) h3
  · intro v hv; exact JsMap.get_delete_ne _ _ _ hv

/-- The concrete instance of C14: Uma connects while Asha is online, Xen
connects and leaves in between, then Uma disconnects. -/
theorem register_then_disconnect_witness :
    (getActiveUsers (onConnection
        { emptyState with activeUsers := [(ashaId, "s2")] } ⟨"s1", uma⟩).1).count umaId = 1 ∧
      umaId ∉ getActiveUsers (onDisconnect (runConn (onConnection
        { emptyState with activeUsers := [(ashaId, "s2")] } ⟨"s1", uma⟩).1
        [.connect ⟨"s3", xen⟩, .disconnect ⟨"s3", xen⟩]) ⟨"s1", uma⟩).1 :=
  have h := register_then_disconnect { emptyState with activeUsers := [(ashaId, "s2")] }
    ⟨"s1", uma⟩ [.connect ⟨"s3", xen⟩, .disconnect ⟨"s3", xen⟩] (by decide)
    (by intro s hs; simp at hs; subst hs; decide)
  ⟨h.1, h.2.2.2.2.1⟩


/-! ## C15: the handshake -/

/-- C15. The authentication middleware calls next exactly once and never
touches the server state (the presence maps included). When the token is
missing, when verification throws, or when the decoded id resolves to no
user (an ObjectId of no user: "User not found"; an id that is no ObjectId:
the CastError is caught, "Invalid token"), the single call carries an error
and no user is attached to the socket. The call carries no error exactly
when the token is present, verification returns, the lookup answers and
finds a user, and that user is the one attached. -/
theorem handshake_spec (st : ServerState) (token : Option String)
    (verify : String → Except String (Option String)) (faults : Faults) :
    (authMiddleware st token verify faults).state = st ∧
    (authMiddleware st token verify faults).nextCalls.length = 1 ∧
    (truthy token = false →
      authMiddleware st token verify faults =
        ⟨st, none, [some "Authentication token required"]⟩) ∧
    (∀ tok e, token = some tok → tok ≠ "" → verify tok = .error e →
      authMiddleware st token verify faults = ⟨st, none, [some "Invalid token"]⟩) ∧
    (∀ tok id, token = some tok → tok ≠ "" → verify tok = .ok id → faults 0 = none →
      findUser st.users id = none →
      authMiddleware st token verify faults =
        ⟨st, none, [some (if castFails id then "Invalid token" else "User not found")]⟩) ∧
    ((authMiddleware st token verify faults).nextCalls = [none] ↔
      ∃ tok id user, token = some tok ∧ tok ≠ "" ∧ verify tok = .ok id ∧ faults 0 = none ∧
        findUser st.users id = some user ∧
        (authMiddleware st token verify faults).socketUser = some user) ∧
    ((authMiddleware st token verify faults).nextCalls ≠ [none] →
      (authMiddleware st token verify faults).socketUser = none ∧
      ∃ e, (authMiddleware st token verify faults).nextCalls = [some e]) := by
  cases token with
  | none => simp [authMiddleware, truthy]
  | some tok =>
    by_cases ht : tok = ""
    · simp [authMiddleware, truthy, ht]
      refine ⟨?_, ?_⟩ <;> (intros; subst_vars; simp_all)
    · cases hv : verify tok with
      | error e =>
        simp [authMiddleware, truthy, ht, hv]
        intros; subst_vars; simp_all
      | ok id =>
        cases h0 : faults 0 with
        | some e => simp [authMiddleware, truthy, ht, hv, h0]
        | none =>
          cases hc : castFails id with
          | true =>
            have hu := findUser_of_castFails st.users id hc
            simp [authMiddleware, truthy, ht, hv, h0, hu, hc]
            intros; subst_vars; simp_all
          | false =>
            cases hu : findUser st.users id with
            | none =>
              simp [authMiddleware, truthy, ht, hv, h0, hu, hc]
              refine ⟨?_, ?_⟩ <;> (intros; subst_vars; simp_all)
            | some user =>
              simp [authMiddleware, truthy, ht, hv, h0, hu, hc]
              refine ⟨?_, ?_⟩ <;> (intros; subst_vars; simp_all)


/-! ## C16: sends that fail validation -/

/-- The refusals of a send that do hold: when the receiver id is missing or
resolves to no user, the text is missing or trims to empty, or the receiver
id is, letter for letter, the id of the sender, `message:send` persists
nothing, emits no event and acknowledges a failure, and the REST controller
`sendMessage` persists nothing and answers with an error (handed to next
with a 4xx code, or thrown), whatever the store answers. -/
theorem invalid_send_rejected (st : ServerState) (socket : Socket) (d : SendData) (cb : Bool)
    (newId : String) (now : Nat) (faults : Faults)
    (h : d.receiverId = none ∨ d.receiverId = some "" ∨ d.message = .absent ∨
      (∃ t, d.message = .text t ∧ jsTrim t = "") ∨
      findUser st.users d.receiverId = none ∨ d.receiverId = some socket.user._id) :
    (∃ e, messageSend st socket (some d) cb newId now faults = ⟨st, [], ack cb (.failure e)⟩) ∧
    (sendMessage st socket.user (some d) newId now faults).1 = st ∧
    ((∃ code msg, 400 ≤ code ∧ code < 500 ∧
        (sendMessage st socket.user (some d) newId now faults).2 = .next code msg) ∨
      ∃ e, (sendMessage st socket.user (some d) newId now faults).2 = .thrown e) := by
  obtain ⟨rid, msg⟩ := d
  cases rid with
  | none =>
    exact ⟨⟨_, by simp [messageSend]; rfl⟩,
      by simp [sendMessage],
      Or.inl ⟨400, "Receiver ID and message are required", by simp [sendMessage]⟩⟩
  | some rid =>
    by_cases hr : rid = ""
    ·
      exact ⟨⟨_, by simp [messageSend, hr]; rfl⟩,
        by simp [sendMessage, hr],
        Or.inl ⟨400, "Receiver ID and message are required", by simp [sendMessage, hr]⟩⟩
    · cases msg with
      | absent =>
        exact ⟨⟨_, by simp [messageSend, hr, TextField.truthy]; rfl⟩,
          by simp [sendMessage, hr, TextField.truthy],
          Or.inl ⟨400, "Receiver ID and message are required", by simp [sendMessage, hr, TextField.truthy]⟩⟩
      | other b =>
        cases b with
        | false =>
          exact ⟨⟨_, by simp [messageSend, hr, TextField.truthy]; rfl⟩,
            by simp [sendMessage, hr, TextField.truthy],
            Or.inl ⟨400, "Receiver ID and message are required", by simp [sendMessage, hr, TextField.truthy]⟩⟩
        | true =>
          exact ⟨⟨_, by simp [messageSend, hr, TextField.truthy, caught]; rfl⟩,
            by simp [sendMessage, hr, TextField.truthy],
            Or.inr ⟨_, by simp [sendMessage, hr, TextField.truthy]; rfl⟩⟩
      | text t =>
        by_cases ht0 : t = ""
        ·
          exact ⟨⟨_, by simp [messageSend, hr, TextField.truthy, ht0]; rfl⟩,
            by simp [sendMessage, hr, TextField.truthy, ht0],
            Or.inl ⟨400, "Receiver ID and message are required", by simp [sendMessage, hr, TextField.truthy, ht0]⟩⟩
        · by_cases ht : jsTrim t = ""
          ·
            exact ⟨⟨_, by simp [messageSend, hr, TextField.truthy, ht0, ht]; rfl⟩,
              by simp [sendMessage, hr, TextField.truthy, ht0, ht],
              Or.inl ⟨400, "Message cannot be empty", by simp [sendMessage, hr, TextField.truthy, ht0, ht]⟩⟩
          · cases h0 : faults 0 with
            | some e =>
              exact ⟨⟨_, by simp [messageSend, hr, TextField.truthy, ht0, ht, h0, caught]; rfl⟩,
                by simp [sendMessage, hr, TextField.truthy, ht0, ht, h0],
                Or.inr ⟨_, by simp [sendMessage, hr, TextField.truthy, ht0, ht, h0]; rfl⟩⟩
            | none =>
              cases hc : castObjectId rid with
              | none =>
                exact ⟨⟨_, by simp [messageSend, hr, TextField.truthy, ht0, ht, h0, hc, caught]; rfl⟩,
                  by simp [sendMessage, hr, TextField.truthy, ht0, ht, h0, hc],
                  Or.inr ⟨_, by simp [sendMessage, hr, TextField.truthy, ht0, ht, h0, hc]; rfl⟩⟩
              | some oid =>
                cases hu : findUser st.users (some rid) with
                | none =>
                  exact ⟨⟨_, by simp [messageSend, hr, TextField.truthy, ht0, ht, h0, hc, hu]; rfl⟩,
                    by simp [sendMessage, hr, TextField.truthy, ht0, ht, h0, hc, hu],
                    Or.inl ⟨404, "Receiver not found", by simp [sendMessage, hr, TextField.truthy, ht0, ht, h0, hc, hu]⟩⟩
                | some u =>
                  have hself : socket.user._id = rid := by
                    rcases h with h | h | h | h | h | h
                    · simp at h
                    · simp at h; exact absurd h hr
                    · simp at h
                    · obtain ⟨t2, h1, h2⟩ := h
                      simp at h1; subst h1; exact absurd h2 ht
                    · simp [hu] at h
                    · simp at h; exact h.symm
                  exact ⟨⟨_, by simp [messageSend, hr, TextField.truthy, ht0, ht, h0, hc, hu, hself]; rfl⟩,
                    by simp [sendMessage, hr, TextField.truthy, ht0, ht, h0, hc, hu, hself],
                    Or.inl ⟨400, "Cannot send message to yourself", by simp [sendMessage, hr, TextField.truthy, ht0, ht, h0, hc, hu, hself]⟩⟩

/-- An instance of these refusals: a text of blanks from Uma to Asha. -/
theorem invalid_send_rejected_witness :
    ∃ e, messageSend (sampleState .pending) ⟨"s1", uma⟩ (some ⟨some ashaId, .text " \t "⟩) true
        msg1 5 noFaults = ⟨sampleState .pending, [], ack true (.failure e)⟩ :=
  (invalid_send_rejected (sampleState .pending) ⟨"s1", uma⟩ ⟨some ashaId, .text " \t "⟩ true
    msg1 5 noFaults (Or.inr (Or.inr (Or.inr (Or.inl ⟨" \t ", rfl, by decide⟩))))).1

/-- C16. Asha sends "hi" to herself and writes her own id in upper case.
`User.findById` casts the id and resolves it to Asha, but the self test
compares the strings, which differ, so the send is not refused:
`message:send` persists a Message whose sender and receiver are both Asha,
emits it as `message:receive` and acknowledges success, and the REST
controller `sendMessage` persists it and answers 201. With her id written
as the store renders it, both paths refuse with "Cannot send message to
yourself". -/
theorem self_send_in_upper_case :
    castObjectId ashaIdUpper = some asha._id ∧
    findUser usersOnly.users (some ashaIdUpper) = some asha ∧
    messageSend usersOnly ⟨"s2", asha⟩ (some ⟨some ashaIdUpper, .text "hi"⟩) true msg1 5
        noFaults =
      ⟨{ usersOnly with messages := [⟨msg1, ashaId, ashaId, "hi", false, none, 5⟩] },
        [.to (ashaIdUpper ++ "_" ++ ashaId) (.messageReceive msg1 ashaId ashaId "hi" false 5)],
        [.success (.sent ⟨msg1, ashaId, ashaId, "hi", false, none, 5⟩)]⟩ ∧
    sendMessage usersOnly asha (some ⟨some ashaIdUpper, .text "hi"⟩) msg1 5 noFaults =
      ({ usersOnly with messages := [⟨msg1, ashaId, ashaId, "hi", false, none, 5⟩] },
        .json 201 ⟨msg1, ashaId, ashaId, "hi", false, none, 5⟩) ∧
    messageSend usersOnly ⟨"s2", asha⟩ (some ⟨some ashaId, .text "hi"⟩) true msg1 5 noFaults =
      ⟨usersOnly, [], [.failure "Cannot send message to yourself"]⟩ ∧
    sendMessage usersOnly asha (some ⟨some ashaId, .text "hi"⟩) msg1 5 noFaults =
      (usersOnly, .next 400 "Cannot send message to yourself") := by
  decide

/-! ## Trimming -/

theorem dropWhile_append_last (p : Char → Bool) (ys : List Char) (x : Char)
    (hx : p x = false) : ∃ zs, (ys ++ [x]).dropWhile p = zs ++ [x] := by
  induction ys with
  | nil => exact ⟨[], by simp [List.dropWhile, hx]⟩
  | cons y rest ih =>
    by_cases hy : p y = true
    · obtain ⟨zs, hz⟩ := ih
      exact ⟨zs, by simp [List.dropWhile, hy, hz]⟩
    · exact ⟨y :: rest, by simp [List.dropWhile, hy]⟩

theorem dropWhile_head (p : Char → Bool) (l : List Char) :
    l.dropWhile p = [] ∨ ∃ x rest, l.dropWhile p = x :: rest ∧ p x = false := by
  induction l with
  | nil => exact Or.inl rfl
  | cons y rest ih =>
    by_cases hy : p y = true
    · simpa [List.dropWhile, hy] using ih
    · exact Or.inr ⟨y, rest, by simp [List.dropWhile, hy], by simpa using hy⟩

/-- The trimmed characters begin and end with a character that is not white
space, so trimming them again changes nothing. -/
theorem trimmed_fixed (p : Char → Bool) (l : List Char) :
    (((((l.dropWhile p).reverse.dropWhile p).reverse).dropWhile p).reverse.dropWhile p).reverse
      = ((l.dropWhile p).reverse.dropWhile p).reverse := by
  rcases dropWhile_head p l with h | ⟨x, rest, h, hx⟩
  · simp [h]
  · rw [h]
    obtain ⟨zs, hz⟩ := dropWhile_append_last p rest.reverse x hx
    have h1 : (x :: rest).reverse.dropWhile p = zs ++ [x] := by
      simpa using hz
    rw [h1]
    have h2 : (zs ++ [x]).reverse = x :: zs.reverse := by simp
    rw [h2]
    have h3 : (x :: zs.reverse).dropWhile p = x :: zs.reverse := by
      simp [List.dropWhile, hx]
    rw [h3]
    have h4 : (x :: zs.reverse).reverse = zs ++ [x] := by simp
    rw [h4, ← h1, List.dropWhile_idempotent, h1, h2]

theorem jsTrim_jsTrim (s : String) : jsTrim (jsTrim s) = jsTrim s := by
  simp only [jsTrim]
  rw [trimmed_fixed]


/-! ## C17: a send that passes validation -/

/-- C17. A `message:send` that passes validation (receiver id present and
resolving to a user, not the id of the sender, text that does not trim to
empty and whose trimmed form has at most 2000 code units), on a working
store, appends exactly one Message with sender = caller, receiver = the
ObjectId to which receiverId casts (the id of the resolved user, and
receiverId itself when it is written as the store renders it), the trimmed
text, isRead = false and readAt = null; the fields of that record are
emitted first, as `message:receive`, to the room getRoomId(sender,
receiverId), and the record is returned in the success acknowledgment. -/
theorem valid_send_persists (st : ServerState) (socket : Socket) (rid t : String) (cb : Bool)
    (newId : String) (now : Nat) (receiver : User)
    (hrid : rid ≠ "") (htrim : jsTrim t ≠ "") (hlen : jsLength (jsTrim t) ≤ 2000)
    (hfind : findUser st.users (some rid) = some receiver)
    (hself : socket.user._id ≠ rid) :
    castObjectId rid = some receiver._id ∧
    (castObjectId rid = some rid → receiver._id = rid) ∧
    messageSend st socket (some ⟨some rid, .text t⟩) cb newId now noFaults =
      ⟨{ st with
          messages := st.messages ++
            [⟨newId, socket.user._id, receiver._id, jsTrim t, false, none, now⟩] },
        .to (getRoomId socket.user._id rid)
            (.messageReceive newId socket.user._id receiver._id (jsTrim t) false now) ::
          (match socketOf st rid with
            | none => []
            | some sid =>
              [.to sid (.messageNotification newId socket.user._id (jsTrim t) now)]),
        ack cb (.success
          (.sent ⟨newId, socket.user._id, receiver._id, jsTrim t, false, none, now⟩))⟩ := by
  have hcast : castObjectId rid = some receiver._id := by
    simpa using findUser_cast st.users (some rid) receiver hfind
  refine ⟨hcast, fun h => ?_, ?_⟩
  · rw [hcast] at h
    exact Option.some.inj h
  have ht0 : t ≠ "" := by
    intro h; subst h; exact htrim (by decide)
  have hlen2 : ¬ 2000 < jsLength (jsTrim t) := by omega
  have hcreate : createMessage st.messages newId now socket.user._id receiver._id (jsTrim t) =
      .ok (⟨newId, socket.user._id, receiver._id, jsTrim t, false, none, now⟩,
        st.messages ++ [⟨newId, socket.user._id, receiver._id, jsTrim t, false, none, now⟩]) := by
    simp [createMessage, jsTrim_jsTrim, htrim, hlen2]
  simp only [messageSend, noFaults, hcast, hfind, hcreate]
  simp only [TextField.truthy, socketOf]
  simp [hrid, ht0, htrim, hself]
  cases st.activeUsers.get rid with
  | none => rfl
  | some sid => by_cases hs : sid = "" <;> simp [hs]

/-- The boundary of C17: a text that passes the checks of the handler but
whose trimmed form exceeds 2000 code units is refused by the schema, so
nothing is persisted or emitted and the acknowledgment is a failure. -/
theorem long_send_refused (st : ServerState) (socket : Socket) (rid t : String) (cb : Bool)
    (newId : String) (now : Nat) (receiver : User)
    (hrid : rid ≠ "") (hlen : 2000 < jsLength (jsTrim t))
    (hfind : findUser st.users (some rid) = some receiver)
    (hself : socket.user._id ≠ rid) :
    messageSend st socket (some ⟨some rid, .text t⟩) cb newId now noFaults =
      ⟨st, [], ack cb (.failure "Message cannot exceed 2000 characters")⟩ := by
  have hcast : castObjectId rid = some receiver._id := by
    simpa using findUser_cast st.users (some rid) receiver hfind
  have htrim : jsTrim t ≠ "" := by
    intro h; rw [h] at hlen; simp [jsLength, utf16Units] at hlen
  have ht0 : t ≠ "" := by
    intro h; subst h; exact htrim (by decide)
  have hcreate : createMessage st.messages newId now socket.user._id receiver._id (jsTrim t) =
      .error "Message cannot exceed 2000 characters" := by
    simp [createMessage, jsTrim_jsTrim, htrim, hlen]
  simp only [messageSend, noFaults, hcast, hfind, hcreate]
  simp [TextField.truthy, hrid, ht0, htrim, hself, caught]

/-- The concrete instance of C17: Uma sends " hi " to Asha, who is offline. -/
theorem valid_send_persists_witness :
    messageSend (sampleState .pending) ⟨"s1", uma⟩ (some ⟨some ashaId, .text " hi "⟩) true
        msg1 5 noFaults =
      ⟨{ sampleState .pending with messages := [⟨msg1, umaId, ashaId, "hi", false, none, 5⟩] },
        [.to (ashaId ++ "_" ++ umaId) (.messageReceive msg1 umaId ashaId "hi" false 5)],
        [.success (.sent ⟨msg1, umaId, ashaId, "hi", false, none, 5⟩)]⟩ :=
  (valid_send_persists (sampleState .pending) ⟨"s1", uma⟩ ashaId " hi " true msg1 5 asha
    (by decide) (by decide) (by decide) (by decide) (by decide)).2.2


/-! ## C18: the notification to a subscribed receiver -/

/-- C18. Asha is online and her socket s2 is subscribed to the room of her
conversation with Uma; when Uma sends "hi", socket s2 receives
`message:receive` through the room and `message:notification` as well: the
handler tests only that the receiver is online, not that she is outside the
room. -/
theorem notification_despite_subscription :
    (getRoomId umaId ashaId, "s2") ∈ subscribedState.rooms ∧
      (messageSend subscribedState ⟨"s1", uma⟩ (some ⟨some ashaId, .text "hi"⟩) true msg1 5
        noFaults).emits =
        [.to (ashaId ++ "_" ++ umaId) (.messageReceive msg1 umaId ashaId "hi" false 5),
          .to "s2" (.messageNotification msg1 umaId "hi" 5)] ∧
      delivered subscribedState.rooms
        (messageSend subscribedState ⟨"s1", uma⟩ (some ⟨some ashaId, .text "hi"⟩) true msg1 5
          noFaults).emits "s2" =
        [.messageReceive msg1 umaId ashaId "hi" false 5, .messageNotification msg1 umaId "hi" 5] := by
  decide

/-! ## C19: one acknowledgment per call -/

/-- C19. Each of the seven handlers that take an acknowledgment invokes it
exactly once when it is supplied (and not at all when it is not), for every
payload, every server state, every clock reading and every pattern of
rejected store calls; an acknowledgment is a success or a failure by
construction. -/
theorem ack_exactly_once (st : ServerState) (socket : Socket) (cb : Bool) (newId : String)
    (t1 t2 t3 : Nat) (faults : Faults) :
    (∀ data, (messageSend st socket data cb newId t1 faults).acks.length = if cb then 1 else 0) ∧
    (∀ data, (messageRead st socket data cb t1 faults).acks.length = if cb then 1 else 0) ∧
    (∀ data, (consultationRequest st socket data cb newId t1 t2 t3 faults).acks.length =
      if cb then 1 else 0) ∧
    (∀ data, (consultationAccept st socket data cb t1 t2 faults).acks.length =
      if cb then 1 else 0) ∧
    (∀ data, (consultationDecline st socket data cb t1 faults).acks.length =
      if cb then 1 else 0) ∧
    (∀ data, (consultationCancel st socket data cb t1 faults).acks.length =
      if cb then 1 else 0) ∧
    (∀ data, (consultationComplete st socket data cb t1 faults).acks.length =
      if cb then 1 else 0) := by
  refine ⟨?_, ?_, ?_, ?_, ?_, ?_, ?_⟩ <;> intro data
  · cases cb <;> simp only [Bool.false_eq_true, if_true, if_false] <;>
      simp only [messageSend] <;> (repeat' split) <;> simp [ack, caught]
  · cases cb <;> simp only [Bool.false_eq_true, if_true, if_false] <;>
      simp only [messageRead] <;> (repeat' split) <;> simp [ack, caught]
  · cases cb <;> simp only [Bool.false_eq_true, if_true, if_false] <;>
      simp only [consultationRequest] <;> (repeat' split) <;> simp [ack, caught]
  · cases cb <;> simp only [Bool.false_eq_true, if_true, if_false] <;>
      simp only [consultationAccept] <;> (repeat' split) <;> simp [ack, caught]
  · cases cb <;> simp only [Bool.false_eq_true, if_true, if_false] <;>
      simp only [consultationDecline] <;> (repeat' split) <;> simp [ack, caught]
  · cases cb <;> simp only [Bool.false_eq_true, if_true, if_false] <;>
      simp only [consultationCancel] <;> (repeat' split) <;> simp [ack, caught]
  · cases cb <;> simp only [Bool.false_eq_true, if_true, if_false] <;>
      simp only [consultationComplete] <;> (repeat' split) <;> simp [ack, caught]

/-! ## C20: at most one live pending request per ordered pair -/

theorem isLivePending_mono (u a : String) (t t2 : Nat) (h : t ≤ t2) (r : ConsultationRequest)
    (hr : isLivePending u a t2 r = true) : isLivePending u a t r = true := by
  simp only [isLivePending, Bool.and_eq_true, decide_eq_true_eq] at hr ⊢
  exact ⟨hr.1, by omega⟩

theorem isLivePending_status (u a : String) (t : Nat) (r : ConsultationRequest)
    (hs : r.status ≠ .pending) : isLivePending u a t r = false := by
  cases h : isLivePending u a t r with
  | false => rfl
  | true =>
    simp only [isLivePending, Bool.and_eq_true, beq_iff_eq] at h
    exact absurd h.1.2 hs

/-- Later instants see fewer live pending requests. -/
theorem livePending_mono (rs : List ConsultationRequest) (u a : String) (t t2 : Nat)
    (h : t ≤ t2) : (livePending rs u a t2).length ≤ (livePending rs u a t).length :=
  (List.monotone_filter_right rs (isLivePending_mono u a t t2 h)).length_le

theorem length_filter_tail_le (p : ConsultationRequest → Bool) (x : ConsultationRequest)
    (rest : List ConsultationRequest) :
    (rest.filter p).length ≤ ((x :: rest).filter p).length := by
  cases hp : p x with
  | false => rw [List.filter_cons_of_neg (by simp [hp])]
  | true => rw [List.filter_cons_of_pos hp]; simp

theorem length_filter_cons_le (p : ConsultationRequest → Bool) (x y : ConsultationRequest)
    (l1 l2 : List ConsultationRequest) (h : (l1.filter p).length ≤ (l2.filter p).length)
    (hxy : p x = true → p y = true) :
    ((x :: l1).filter p).length ≤ ((y :: l2).filter p).length := by
  cases hp : p x with
  | false =>
    rw [List.filter_cons_of_neg (by simp [hp])]
    exact le_trans h (length_filter_tail_le p y l2)
  | true =>
    rw [List.filter_cons_of_pos hp, List.filter_cons_of_pos (hxy hp)]
    simpa using h

/-- Saving a document that is not pending adds no live pending request. -/
theorem livePending_save (rs : List ConsultationRequest) (saved : ConsultationRequest)
    (u a : String) (t : Nat) (hs : saved.status ≠ .pending) :
    (livePending (saveRequest rs saved) u a t).length ≤ (livePending rs u a t).length := by
  induction rs with
  | nil => simp [saveRequest]
  | cons x rest ih =>
    by_cases hx : x._id = saved._id
    · have h1 : saveRequest (x :: rest) saved = saved :: rest := by simp [saveRequest, hx]
      rw [h1]
      exact length_filter_cons_le _ saved x rest rest le_rfl
        (fun h => by rw [isLivePending_status u a t saved hs] at h; cases h)
    · have h1 : saveRequest (x :: rest) saved = x :: saveRequest rest saved := by
        simp [saveRequest, hx]
      rw [h1]
      exact length_filter_cons_le _ x x _ rest ih (fun h => h)

/-- The sweep adds no live pending request. -/
theorem livePending_sweep (rs : List ConsultationRequest) (hit : ConsultationRequest → Bool)
    (t2 : Nat) (u a : String) (t : Nat) :
    (livePending (rs.map fun r =>
        if hit r = true then { r with status := .expired, respondedAt := some t2 } else r)
      u a t).length ≤ (livePending rs u a t).length := by
  induction rs with
  | nil => simp [livePending]
  | cons x rest ih =>
    rw [List.map_cons]
    refine length_filter_cons_le _ _ x _ rest ih ?_
    by_cases hx : hit x = true
    · simp only [hx, if_true]
      intro h
      rw [isLivePending_status u a t _ (by simp)] at h
      cases h
    · simp only [hx]
      exact fun h => h

theorem Shrinks.length_le (rs rs2 : List ConsultationRequest) (h : Shrinks rs rs2)
    (u a : String) (t : Nat) : (livePending rs2 u a t).length ≤ (livePending rs u a t).length := by
  cases h with
  | same => exact le_rfl
  | save i found saved hf hid hopen hs => exact livePending_save rs saved u a t hs
  | sweep hit t2 hhit => exact livePending_sweep rs hit t2 u a t


theorem accept_shrinks (st : ServerState) (socket : Socket) (data : Option TransitionData)
    (cb : Bool) (t1 t2 : Nat) (faults : Faults) :
    Shrinks st.requests (consultationAccept st socket data cb t1 t2 faults).state.requests := by
  simp only [consultationAccept]
  repeat' split
  all_goals first
    | exact Shrinks.same
    | exact Shrinks.save _ _ _ (by assumption) (by rfl) (by simp_all) (by simp)

theorem decline_shrinks (st : ServerState) (socket : Socket) (data : Option TransitionData)
    (cb : Bool) (now : Nat) (faults : Faults) :
    Shrinks st.requests (consultationDecline st socket data cb now faults).state.requests := by
  simp only [consultationDecline]
  repeat' split
  all_goals first
    | exact Shrinks.same
    | exact Shrinks.save _ _ _ (by assumption) (by rfl) (by simp_all) (by simp)

theorem cancel_shrinks (st : ServerState) (socket : Socket) (data : Option TransitionData)
    (cb : Bool) (now : Nat) (faults : Faults) :
    Shrinks st.requests (consultationCancel st socket data cb now faults).state.requests := by
  simp only [consultationCancel]
  repeat' split
  all_goals first
    | exact Shrinks.same
    | exact Shrinks.save _ _ _ (by assumption) (by rfl) (by simp_all) (by simp)

theorem cancelRequest_shrinks (st : ServerState) (reqUser : User) (requestId : Option String)
    (now : Nat) (faults : Faults) :
    Shrinks st.requests (cancelRequest st reqUser requestId now faults).1.requests := by
  simp only [cancelRequest]
  repeat' split
  all_goals first
    | exact Shrinks.same
    | exact Shrinks.save _ _ _ (by assumption) (by rfl) (by simp_all) (by simp)

theorem complete_shrinks (st : ServerState) (socket : Socket) (data : Option TransitionData)
    (cb : Bool) (now : Nat) (faults : Faults) :
    Shrinks st.requests (consultationComplete st socket data cb now faults).state.requests := by
  simp only [consultationComplete]
  repeat' split
  all_goals first
    | exact Shrinks.same
    | exact Shrinks.save _ _ _ (by assumption) (by rfl) (by simp_all) (by simp)

theorem sweep_shrinks (st : ServerState) (t1 t2 : Nat) (faults : Faults) :
    Shrinks st.requests (expireOldRequests st t1 t2 faults).1.requests := by
  simp only [expireOldRequests]
  split
  · exact Shrinks.same
  · refine Shrinks.sweep _ t2 (fun r hr => ?_)
    simp only [Bool.and_eq_true, beq_iff_eq] at hr
    exact hr.1

theorem createRequest_ok (rs rs2 : List ConsultationRequest) (newId u a msg : String)
    (t e : Nat) (doc : ConsultationRequest)
    (h : createRequest rs newId u a msg t e = .ok (doc, rs2)) :
    rs2 = rs ++ [⟨newId, u, a, msg, .pending, t, none, none, e⟩] := by
  simp only [createRequest] at h
  split at h
  · cases h
  · simp only [Except.ok.injEq, Prod.mk.injEq] at h
    exact h.2.symm

/-- What create does to the collection: nothing, or it appends one pending
request for a pair that had no live pending request at the first clock
reading, expiring five minutes after the third. -/
theorem create_effect (st : ServerState) (socket : Socket) (data : Option RequestData)
    (cb : Bool) (newId : String) (t1 t2 t3 : Nat) (faults : Faults) :
    (consultationRequest st socket data cb newId t1 t2 t3 faults).state.requests = st.requests ∨
    ∃ aid msg, findLivePending st.requests socket.user._id aid t1 = none ∧
      (consultationRequest st socket data cb newId t1 t2 t3 faults).state.requests =
        st.requests ++
          [⟨newId, socket.user._id, aid, msg, .pending, t2, none, none, t3 + 5 * 60 * 1000⟩] := by
  simp only [consultationRequest]
  repeat' split
  all_goals first
    | exact Or.inl rfl
    | exact Or.inr ⟨_, _, by assumption,
        createRequest_ok _ _ _ _ _ _ _ _ _ (by assumption)⟩


theorem Op.last_mem (op : Op) : op.last ∈ op.times := by
  cases op <;> simp [Op.last, Op.times]

theorem Op.le_last (op : Op) (h : op.times.Pairwise (· ≤ ·)) : ∀ x ∈ op.times, x ≤ op.last := by
  cases op <;> simp [Op.last, Op.times] at h ⊢ <;> omega

theorem livePending_of_find_none (rs : List ConsultationRequest) (u a : String) (t : Nat)
    (h : findLivePending rs u a t = none) : livePending rs u a t = [] := by
  simp only [findLivePending, List.find?_eq_none] at h
  simp only [livePending, List.filter_eq_nil_iff]
  exact fun x hx => h x hx

/-- One operation keeps the invariant, from any instant not after its clock
readings to any instant not before them. -/
theorem step_invariant (st : ServerState) (op : Op) (t t2 : Nat)
    (hinv : ∀ u a, (livePending st.requests u a t).length ≤ 1)
    (hge : ∀ x ∈ op.times, t ≤ x) (hsorted : op.times.Pairwise (· ≤ ·))
    (hle : ∀ x ∈ op.times, x ≤ t2) :
    ∀ u a, (livePending (op.run st).requests u a t2).length ≤ 1 := by
  have htt : t ≤ t2 := le_trans (hge _ op.last_mem) (hle _ op.last_mem)
  have shrink : ∀ rs2, Shrinks st.requests rs2 →
      ∀ u a, (livePending rs2 u a t2).length ≤ 1 := fun rs2 h u a =>
    le_trans (h.length_le _ _ u a t2) (le_trans (livePending_mono _ u a t t2 htt) (hinv u a))
  cases op with
  | accept socket data cb t1 t3 faults => exact shrink _ (accept_shrinks ..)
  | decline socket data cb now faults => exact shrink _ (decline_shrinks ..)
  | cancel socket data cb now faults => exact shrink _ (cancel_shrinks ..)
  | cancelRest reqUser requestId now faults => exact shrink _ (cancelRequest_shrinks ..)
  | complete socket data cb now faults => exact shrink _ (complete_shrinks ..)
  | sweep t1 t3 faults => exact shrink _ (sweep_shrinks ..)
  | create socket data cb newId t1 t3 t4 faults =>
    intro u a
    have h1 : t1 ≤ t2 := hle t1 (by simp [Op.times])
    rcases create_effect st socket data cb newId t1 t3 t4 faults with h | ⟨aid, msg, hlive, h⟩
    · simp only [Op.run, h]
      exact shrink _ Shrinks.same u a
    · simp only [Op.run, h, livePending, List.filter_append, List.length_append]
      by_cases hpair : socket.user._id = u ∧ aid = a
      · obtain ⟨hu, ha⟩ := hpair
        subst hu; subst ha
        have h0 : (livePending st.requests socket.user._id aid t2).length = 0 := by
          have := livePending_mono st.requests socket.user._id aid t1 t2 h1
          rw [livePending_of_find_none _ _ _ _ hlive] at this
          simpa using this
        simp only [livePending] at h0
        rw [h0]
        have := List.length_filter_le (isLivePending socket.user._id aid t2)
          [(⟨newId, socket.user._id, aid, msg, .pending, t3, none, none, t4 + 5 * 60 * 1000⟩ :
            ConsultationRequest)]
        simpa using this
      · have hnew : [(⟨newId, socket.user._id, aid, msg, .pending, t3, none, none,
            t4 + 5 * 60 * 1000⟩ : ConsultationRequest)].filter (isLivePending u a t2) = [] := by
          rw [List.filter_eq_nil_iff]
          intro x hx
          simp only [List.mem_singleton] at hx
          subst hx
          simp only [isLivePending, Bool.and_eq_true, beq_iff_eq, decide_eq_true_eq]
          intro hh
          exact hpair ⟨hh.1.1.1, hh.1.1.2⟩
        rw [hnew]
        simpa using shrink _ Shrinks.same u a

theorem runOps_invariant (ops : List Op) : ∀ (st : ServerState) (t : Nat),
    (∀ u a, (livePending st.requests u a t).length ≤ 1) →
    (clockReads ops).Pairwise (· ≤ ·) → (∀ x ∈ clockReads ops, t ≤ x) →
    ∀ now, t ≤ now → (∀ x ∈ clockReads ops, x ≤ now) →
    ∀ u a, (livePending (runOps st ops).requests u a now).length ≤ 1 := by
  induction ops with
  | nil =>
    intro st t hinv _ _ now htn _ u a
    exact le_trans (livePending_mono _ u a t now htn) (hinv u a)
  | cons op rest ih =>
    intro st t hinv hs hge now _ hle
    have hreads : clockReads (op :: rest) = op.times ++ clockReads rest := by
      simp [clockReads]
    rw [hreads, List.pairwise_append] at hs
    rw [hreads] at hge hle
    obtain ⟨hs1, hs2, hs3⟩ := hs
    have hstep := step_invariant st op t op.last hinv
      (fun x hx => hge x (List.mem_append_left _ hx)) hs1 (op.le_last hs1)
    exact ih (op.run st) op.last hstep hs2 (fun y hy => hs3 _ op.last_mem _ hy) now
      (hle _ (List.mem_append_left _ op.last_mem))
      (fun y hy => hle y (List.mem_append_right _ hy))

/-- C20. Starting from a store with no request, after any sequence of create,
accept, decline, cancel (socket or REST), complete and sweep operations
executed one at a time, with any payloads, callers and rejected store calls,
and at any instant `now`, provided the clock readings of the operations
followed by `now` never decrease, each ordered (requester, provider) pair
has at most one request that is pending with expiresAt after `now`. -/
theorem at_most_one_live_pending (st0 : ServerState) (ops : List Op) (now : Nat)
    (u a : String) (h0 : st0.requests = [])
    (hclock : (clockReads ops ++ [now]).Pairwise (· ≤ ·)) :
    (livePending (runOps st0 ops).requests u a now).length ≤ 1 := by
  rw [List.pairwise_append] at hclock
  obtain ⟨hs, _, hle⟩ := hclock
  exact runOps_invariant ops st0 0 (by simp [h0, livePending]) hs (fun _ _ => Nat.zero_le _) now
    (Nat.zero_le _) (fun x hx => hle x hx now (by simp)) u a


/-- The concrete instance of C20: after the sample operations the store
holds three requests of Uma to Asha, two of them still marked pending, and
one of those is live at instant 400003. -/
theorem at_most_one_live_pending_witness :
    ((runOps usersOnly sampleOps).requests.map fun r => (r._id, r.status)) =
        [(req1, .pending), (req3, .declined), (req4, .pending)] ∧
      (livePending (runOps usersOnly sampleOps).requests umaId ashaId 400003).length ≤ 1 :=
  ⟨by decide, at_most_one_live_pending usersOnly sampleOps 400003 umaId ashaId rfl (by decide)⟩

/-! ## The branches of `consultation:request` -/

theorem request_fault0 (st : ServerState) (socket : Socket) (d : RequestData) (cb : Bool)
    (newId : String) (t1 t2 t3 : Nat) (faults : Faults) (e : String) (h0 : faults 0 = some e) :
    consultationRequest st socket (some d) cb newId t1 t2 t3 faults =
      ⟨st, [], caught cb e "Failed to send consultation request"⟩ := by
  simp [consultationRequest, h0]

theorem request_malformed (st : ServerState) (socket : Socket) (d : RequestData) (cb : Bool)
    (newId : String) (t1 t2 t3 : Nat) (faults : Faults) (h0 : faults 0 = none)
    (hc : castFails d.astrologerId = true) :
    consultationRequest st socket (some d) cb newId t1 t2 t3 faults =
      ⟨st, [], ack cb (.failure castError)⟩ := by
  obtain ⟨aid, msg⟩ := d
  cases aid with
  | none => simp [castFails] at hc
  | some aid =>
    simp only [castFails, Option.isNone_iff_eq_none] at hc
    simp [consultationRequest, h0, hc, caught]
    rfl

theorem request_unknown (st : ServerState) (socket : Socket) (d : RequestData) (cb : Bool)
    (newId : String) (t1 t2 t3 : Nat) (faults : Faults) (h0 : faults 0 = none)
    (hc : castFails d.astrologerId = false)
    (hu : findUser st.users d.astrologerId = none) :
    consultationRequest st socket (some d) cb newId t1 t2 t3 faults =
      ⟨st, [], ack cb (.failure "Astrologer not found")⟩ := by
  obtain ⟨aid, msg⟩ := d
  cases aid with
  | none => simp [consultationRequest, h0]
  | some aid =>
    simp only at hu
    cases hk : castObjectId aid with
    | none => simp [castFails, hk] at hc
    | some k => simp [consultationRequest, h0, hu, hk]

theorem request_wrong_role (st : ServerState) (socket : Socket) (d : RequestData) (cb : Bool)
    (newId : String) (t1 t2 t3 : Nat) (faults : Faults) (a : User) (h0 : faults 0 = none)
    (hu : findUser st.users d.astrologerId = some a) (hr : a.role ≠ .astrologer) :
    consultationRequest st socket (some d) cb newId t1 t2 t3 faults =
      ⟨st, [], ack cb (.failure "User is not an astrologer")⟩ := by
  obtain ⟨aid, msg⟩ := d
  cases aid with
  | none => simp [findUser] at hu
  | some aid =>
    simp only at hu
    have hk : castObjectId aid = some a._id := by
      simpa using findUser_cast st.users (some aid) a hu
    simp [consultationRequest, h0, hu, hr, hk]

theorem request_self (st : ServerState) (socket : Socket) (d : RequestData) (cb : Bool)
    (newId : String) (t1 t2 t3 : Nat) (faults : Faults) (a : User) (h0 : faults 0 = none)
    (hu : findUser st.users d.astrologerId = some a) (hr : a.role = .astrologer)
    (hs : d.astrologerId = some socket.user._id) :
    consultationRequest st socket (some d) cb newId t1 t2 t3 faults =
      ⟨st, [], ack cb (.failure "Cannot request consultation with yourself")⟩ := by
  obtain ⟨aid, msg⟩ := d
  simp only at hs
  subst hs
  simp only at hu
  have hk : castObjectId socket.user._id = some a._id := by
    simpa using findUser_cast st.users (some socket.user._id) a hu
  simp [consultationRequest, h0, hu, hr, hk]

theorem request_fault1 (st : ServerState) (socket : Socket) (aid : String)
    (msg : Option String) (cb : Bool) (newId : String) (t1 t2 t3 : Nat) (faults : Faults)
    (a : User) (e : String) (h0 : faults 0 = none)
    (hu : findUser st.users (some aid) = some a) (hr : a.role = .astrologer)
    (hs : socket.user._id ≠ aid) (h1 : faults 1 = some e) :
    consultationRequest st socket (some ⟨some aid, msg⟩) cb newId t1 t2 t3 faults =
      ⟨st, [], caught cb e "Failed to send consultation request"⟩ := by
  have hk : castObjectId aid = some a._id := by
    simpa using findUser_cast st.users (some aid) a hu
  simp [consultationRequest, h0, hu, hr, hs, h1, hk]

theorem request_duplicate (st : ServerState) (socket : Socket) (aid : String)
    (msg : Option String) (cb : Bool) (newId : String) (t1 t2 t3 : Nat) (faults : Faults)
    (a : User) (r : ConsultationRequest) (h0 : faults 0 = none)
    (hu : findUser st.users (some aid) = some a) (hr : a.role = .astrologer)
    (hs : socket.user._id ≠ aid) (h1 : faults 1 = none)
    (hl : findLivePending st.requests socket.user._id a._id t1 = some r) :
    consultationRequest st socket (some ⟨some aid, msg⟩) cb newId t1 t2 t3 faults =
      ⟨st, [], ack cb (.failure "You already have a pending request with this astrologer")⟩ := by
  have hk : castObjectId aid = some a._id := by
    simpa using findUser_cast st.users (some aid) a hu
  simp [consultationRequest, h0, hu, hr, hs, h1, hl, hk]

/-- The state after a request that passes the guards and the schema. -/
theorem request_inserted (st : ServerState) (socket : Socket) (aid : String)
    (msg : Option String) (cb : Bool) (newId : String) (t1 t2 t3 : Nat) (faults : Faults)
    (a : User) (h0 : faults 0 = none)
    (hu : findUser st.users (some aid) = some a) (hr : a.role = .astrologer)
    (hs : socket.user._id ≠ aid) (h1 : faults 1 = none)
    (hl : findLivePending st.requests socket.user._id a._id t1 = none) (h2 : faults 2 = none)
    (hlen : jsLength (orElse msg "") ≤ 500) :
    (consultationRequest st socket (some ⟨some aid, msg⟩) cb newId t1 t2 t3 faults).state =
      { st with
        requests := st.requests ++
          [⟨newId, socket.user._id, a._id, orElse msg "", .pending, t2, none, none,
            t3 + 300000⟩] } := by
  have hk : castObjectId aid = some a._id := by
    simpa using findUser_cast st.users (some aid) a hu
  have hlen2 : ¬ 500 < jsLength (orElse msg "") := by omega
  have hc : createRequest st.requests newId socket.user._id a._id (orElse msg "") t2
      (t3 + 5 * 60 * 1000) =
      .ok (⟨newId, socket.user._id, a._id, orElse msg "", .pending, t2, none, none, t3 + 300000⟩,
        st.requests ++
          [⟨newId, socket.user._id, a._id, orElse msg "", .pending, t2, none, none,
            t3 + 300000⟩]) := by
    simp [createRequest, hlen2]
  simp only [consultationRequest, h0, hk, hu, h1, hl, h2, hc]
  simp only [hr, hs, ne_eq, not_true_eq_false, if_false, beq_iff_eq]
  repeat' split
  all_goals rfl

/-- The whole outcome of a request that passes the guards and the schema on
a working store, when the provider is offline or the requester resolves. -/
theorem request_succeeds (st : ServerState) (socket : Socket) (aid : String)
    (msg : Option String) (cb : Bool) (newId : String) (t1 t2 t3 : Nat)
    (a : User)
    (hu : findUser st.users (some aid) = some a) (hr : a.role = .astrologer)
    (hs : socket.user._id ≠ aid)
    (hl : findLivePending st.requests socket.user._id a._id t1 = none)
    (hlen : jsLength (orElse msg "") ≤ 500)
    (hpop : socketOf st aid = none ∨ ∃ u, findUser st.users (some socket.user._id) = some u) :
    (consultationRequest st socket (some ⟨some aid, msg⟩) cb newId t1 t2 t3 noFaults).acks =
      ack cb (.success (.requested newId "Consultation request sent successfully")) := by
  have hk : castObjectId aid = some a._id := by
    simpa using findUser_cast st.users (some aid) a hu
  have hlen2 : ¬ 500 < jsLength (orElse msg "") := by omega
  have hc : createRequest st.requests newId socket.user._id a._id (orElse msg "") t2
      (t3 + 5 * 60 * 1000) =
      .ok (⟨newId, socket.user._id, a._id, orElse msg "", .pending, t2, none, none, t3 + 300000⟩,
        st.requests ++
          [⟨newId, socket.user._id, a._id, orElse msg "", .pending, t2, none, none,
            t3 + 300000⟩]) := by
    simp [createRequest, hlen2]
  simp only [consultationRequest, noFaults, hk, hu, hl, hc]
  simp only [hr, hs, ne_eq, not_true_eq_false, if_false, beq_iff_eq]
  rcases hpop with hoff | ⟨u, hu2⟩
  · simp [hoff]
  · simp only [hu2]
    cases socketOf st aid <;> rfl


theorem findLivePending_of_mem (rs : List ConsultationRequest) (u a : String) (t : Nat)
    (r : ConsultationRequest) (hr : r ∈ rs) (hu : r.user = u) (ha : r.astrologer = a)
    (hs : r.status = .pending) (ht : t < r.expiresAt) :
    ∃ x, findLivePending rs u a t = some x := by
  cases h : findLivePending rs u a t with
  | some x => exact ⟨x, rfl⟩
  | none =>
    simp only [findLivePending, List.find?_eq_none] at h
    exact absurd (by simp [isLivePending, hu, ha, hs, ht]) (h r hr)

theorem findLivePending_none_of_all (rs : List ConsultationRequest) (u a : String) (t : Nat)
    (h : ∀ r ∈ rs, r.user = u → r.astrologer = a → r.status ≠ .pending ∨ r.expiresAt ≤ t) :
    findLivePending rs u a t = none := by
  simp only [findLivePending, List.find?_eq_none]
  intro r hr hlive
  simp only [isLivePending, Bool.and_eq_true, beq_iff_eq, decide_eq_true_eq] at hlive
  rcases h r hr hlive.1.1.1 hlive.1.1.2 with h1 | h1
  · exact h1 hlive.1.2
  · omega

/-! ## C2: a second request of the same pair -/

/-- C2, as amended. Let the id sent resolve to an astrologer A and differ
from the id of the caller U. While a request of U to A is pending with
expiresAt in the future, a `consultation:request` of U to A fails and
inserts nothing, whatever its message and whatever the store answers. Once
every request of U to A has left the pending status or run out, a request
whose message has at most 500 code units, made on a working store with the
provider offline or the document of the requester still present, succeeds
and inserts one new pending request of U to A. -/
theorem second_request (st : ServerState) (socket : Socket) (aid : String)
    (msg : Option String) (cb : Bool) (newId : String) (t1 t2 t3 : Nat) (a : User)
    (hu : findUser st.users (some aid) = some a) (hr : a.role = .astrologer)
    (hs : socket.user._id ≠ aid) :
    ((∃ r ∈ st.requests, r.user = socket.user._id ∧ r.astrologer = a._id ∧ r.status = .pending ∧
        t1 < r.expiresAt) →
      ∀ faults, ∃ e,
        consultationRequest st socket (some ⟨some aid, msg⟩) cb newId t1 t2 t3 faults =
          ⟨st, [], ack cb (.failure e)⟩) ∧
    ((∀ r ∈ st.requests, r.user = socket.user._id → r.astrologer = a._id →
        r.status ≠ .pending ∨ r.expiresAt ≤ t1) →
      jsLength (orElse msg "") ≤ 500 →
      (socketOf st aid = none ∨ ∃ u, findUser st.users (some socket.user._id) = some u) →
      (consultationRequest st socket (some ⟨some aid, msg⟩) cb newId t1 t2 t3 noFaults).state =
        { st with
          requests := st.requests ++
            [⟨newId, socket.user._id, a._id, orElse msg "", .pending, t2, none, none,
              t3 + 300000⟩] } ∧
      (consultationRequest st socket (some ⟨some aid, msg⟩) cb newId t1 t2 t3 noFaults).acks =
        ack cb (.success (.requested newId "Consultation request sent successfully"))) := by
  refine ⟨?_, ?_⟩
  · rintro ⟨r, hmem, h1, h2, h3, h4⟩ faults
    obtain ⟨x, hx⟩ := findLivePending_of_mem st.requests _ _ t1 r hmem h1 h2 h3 h4
    cases h0 : faults 0 with
    | some e => exact ⟨_, by rw [request_fault0 _ _ _ _ _ _ _ _ _ e h0]; rfl⟩
    | none =>
      cases hf1 : faults 1 with
      | some e =>
        exact ⟨_, by rw [request_fault1 _ _ _ _ _ _ _ _ _ _ a e h0 hu hr hs hf1]; rfl⟩
      | none => exact ⟨_, request_duplicate _ _ _ _ _ _ _ _ _ _ a x h0 hu hr hs hf1 hx⟩
  · intro hall hlen hpop
    have hl := findLivePending_none_of_all st.requests _ _ t1 hall
    exact ⟨request_inserted st socket aid msg cb newId t1 t2 t3 noFaults a rfl hu hr hs rfl hl
        rfl hlen,
      request_succeeds st socket aid msg cb newId t1 t2 t3 a hu hr hs hl hlen hpop⟩

/-- The concrete instance of C2: the first request of Uma to Asha is
pending, so a second one fails; after it was declined a new one succeeds. -/
theorem second_request_witness :
    (∃ e, consultationRequest (sampleState .pending) ⟨"s1", uma⟩ (some ⟨some ashaId, none⟩) true
        req2 2000 2000 2000 noFaults = ⟨sampleState .pending, [], ack true (.failure e)⟩) ∧
      (consultationRequest (sampleState .declined) ⟨"s1", uma⟩ (some ⟨some ashaId, none⟩) true
        req2 2000 2000 2000 noFaults).acks =
        ack true (.success (.requested req2 "Consultation request sent successfully")) :=
  ⟨(second_request (sampleState .pending) ⟨"s1", uma⟩ ashaId none true req2 2000 2000 2000 asha
      (by decide) (by decide) (by decide)).1 ⟨sampleRequest .pending, by decide⟩ noFaults,
    ((second_request (sampleState .declined) ⟨"s1", uma⟩ ashaId none true req2 2000 2000 2000 asha
      (by decide) (by decide) (by decide)).2 (by decide) (by decide) (Or.inl (by decide))).2⟩

set_option maxRecDepth 100000 in
/-- C2 as stated fails: the prior request of Uma to Asha is declined, Asha
is an astrologer and is not Uma, yet a new request with a message of 501
characters is refused by the schema and nothing is inserted. -/
theorem second_request_long_message :
    (sampleState .declined).requests = [sampleRequest .declined] ∧
      findUser (sampleState .declined).users (some ashaId) = some asha ∧
      consultationRequest (sampleState .declined) ⟨"s1", uma⟩ (some ⟨some ashaId, some longText⟩)
        true req2 2000 2000 2000 noFaults =
        ⟨sampleState .declined, [], [.failure "Message cannot exceed 500 characters"]⟩ := by
  decide


/-! ## C3: the lifetime of a request -/

/-- C3. The handler reads the clock once for requestedAt and once more for
expiresAt: when the clock shows 1000 at the first of these reads and 1001
at the second, the stored request has requestedAt = 1000 and
expiresAt = 301001, which is 300001 ms later, not 300000. -/
theorem ttl_drifts_with_clock :
    (consultationRequest usersOnly ⟨"s1", uma⟩ (some ⟨some ashaId, none⟩) true req1 1000 1000
        1001 noFaults).state.requests =
      [⟨req1, umaId, ashaId, "", .pending, 1000, none, none, 301001⟩] ∧
    (301001 : Int) - 1000 ≠ 300000 := by
  decide

/-! ## C9: the guards of a request -/

/-- The guards as the handler tests them. If the target id resolves to no
user or to a user who is not an astrologer, if the target id is, letter for
letter, the id of the requester, or if a pending request of the requester
to the resolved astrologer with expiresAt in the future exists, the
acknowledgment is a failure and the state is unchanged, whatever the store
answers. Hence a request is inserted only if these tests pass. When they
pass, the message has at most 500 code units and the store answers the
lookup, the query and the insert, exactly one request is appended, with
status pending, the caller as requester and the resolved astrologer as
provider. -/
theorem request_guards (st : ServerState) (socket : Socket) (d : RequestData) (cb : Bool)
    (newId : String) (t1 t2 t3 : Nat) (faults : Faults) :
    ((findUser st.users d.astrologerId = none ∨
        (∃ a, findUser st.users d.astrologerId = some a ∧ a.role ≠ .astrologer) ∨
        d.astrologerId = some socket.user._id ∨
        (∃ a r, findUser st.users d.astrologerId = some a ∧
          findLivePending st.requests socket.user._id a._id t1 = some r)) →
      ∃ e, consultationRequest st socket (some d) cb newId t1 t2 t3 faults =
        ⟨st, [], ack cb (.failure e)⟩) ∧
    ((consultationRequest st socket (some d) cb newId t1 t2 t3 faults).state.requests ≠
        st.requests →
      ∃ aid a, d.astrologerId = some aid ∧ findUser st.users (some aid) = some a ∧
        a.role = .astrologer ∧ socket.user._id ≠ aid ∧
        findLivePending st.requests socket.user._id a._id t1 = none) ∧
    (∀ aid a, d.astrologerId = some aid → findUser st.users (some aid) = some a →
      a.role = .astrologer → socket.user._id ≠ aid →
      findLivePending st.requests socket.user._id a._id t1 = none →
      jsLength (orElse d.message "") ≤ 500 →
      faults 0 = none → faults 1 = none → faults 2 = none →
      (consultationRequest st socket (some d) cb newId t1 t2 t3 faults).state =
        { st with
          requests := st.requests ++
            [⟨newId, socket.user._id, a._id, orElse d.message "", .pending, t2, none, none,
              t3 + 300000⟩] }) := by
  have part1 : (findUser st.users d.astrologerId = none ∨
        (∃ a, findUser st.users d.astrologerId = some a ∧ a.role ≠ .astrologer) ∨
        d.astrologerId = some socket.user._id ∨
        (∃ a r, findUser st.users d.astrologerId = some a ∧
          findLivePending st.requests socket.user._id a._id t1 = some r)) →
      ∃ e, consultationRequest st socket (some d) cb newId t1 t2 t3 faults =
        ⟨st, [], ack cb (.failure e)⟩ := by
    intro h
    cases h0 : faults 0 with
    | some e => exact ⟨_, by rw [request_fault0 _ _ _ _ _ _ _ _ _ e h0]; rfl⟩
    | none =>
      cases hu : findUser st.users d.astrologerId with
      | none =>
        cases hc : castFails d.astrologerId with
        | true => exact ⟨_, request_malformed _ _ _ _ _ _ _ _ _ h0 hc⟩
        | false => exact ⟨_, request_unknown _ _ _ _ _ _ _ _ _ h0 hc hu⟩
      | some a =>
        by_cases hr : a.role = .astrologer
        · by_cases hs : d.astrologerId = some socket.user._id
          · exact ⟨_, request_self _ _ _ _ _ _ _ _ _ a h0 hu hr hs⟩
          · rcases h with h | ⟨a2, h, h2⟩ | h | ⟨a2, r, h, hl⟩
            · rw [hu] at h; cases h
            · rw [hu] at h; cases h; exact absurd hr h2
            · exact absurd h hs
            · rw [hu] at h
              cases h
              obtain ⟨aid2, msg⟩ := d
              cases aid2 with
              | none => simp [findUser] at hu
              | some aid =>
                simp only at hu hs
                have hs2 : socket.user._id ≠ aid := fun e => hs (by rw [e])
                cases hf1 : faults 1 with
                | some e =>
                  exact ⟨_, by
                    rw [request_fault1 _ _ _ _ _ _ _ _ _ _ a e h0 hu hr hs2 hf1]; rfl⟩
                | none =>
                  exact ⟨_, request_duplicate _ _ _ _ _ _ _ _ _ _ a r h0 hu hr hs2 hf1 hl⟩
        · exact ⟨_, request_wrong_role _ _ _ _ _ _ _ _ _ a h0 hu hr⟩
  refine ⟨part1, ?_, ?_⟩
  · intro hne
    by_contra hno
    apply hne
    have same : ∀ e, consultationRequest st socket (some d) cb newId t1 t2 t3 faults =
        ⟨st, [], ack cb (.failure e)⟩ →
        (consultationRequest st socket (some d) cb newId t1 t2 t3 faults).state.requests =
          st.requests := fun e he => by rw [he]
    cases hu : findUser st.users d.astrologerId with
    | none =>
      obtain ⟨e, he⟩ := part1 (Or.inl hu)
      exact same e he
    | some a =>
      by_cases hr : a.role = .astrologer
      · by_cases hs : d.astrologerId = some socket.user._id
        · obtain ⟨e, he⟩ := part1 (Or.inr (Or.inr (Or.inl hs)))
          exact same e he
        · cases hl : findLivePending st.requests socket.user._id a._id t1 with
          | none =>
            obtain ⟨aid2, msg⟩ := d
            cases aid2 with
            | none => simp [findUser] at hu
            | some aid =>
              simp only at hu hs
              have hs2 : socket.user._id ≠ aid := fun e => hs (by rw [e])
              exact absurd ⟨aid, a, rfl, hu, hr, hs2, hl⟩ hno
          | some r =>
            obtain ⟨e, he⟩ := part1 (Or.inr (Or.inr (Or.inr ⟨a, r, hu, hl⟩)))
            exact same e he
      · obtain ⟨e, he⟩ := part1 (Or.inr (Or.inl ⟨a, hu, hr⟩))
        exact same e he
  · intro aid a hd hu hr hs hl hlen h0 h1 h2
    obtain ⟨aid2, msg⟩ := d
    simp only at hd
    subst hd
    exact request_inserted st socket _ msg cb newId t1 t2 t3 faults a h0 hu hr hs h1 hl h2 hlen

set_option maxRecDepth 100000 in
/-- The schema limit: Asha resolves to an astrologer, Uma is not Asha and
the store holds no request, yet a request of Uma with a message of 501
characters inserts nothing. -/
theorem guards_hold_nothing_inserted :
    findUser usersOnly.users (some ashaId) = some asha ∧ asha.role = .astrologer ∧
      uma._id ≠ ashaId ∧ findLivePending usersOnly.requests umaId ashaId 1000 = none ∧
      (consultationRequest usersOnly ⟨"s1", uma⟩ (some ⟨some ashaId, some longText⟩) true req1
        1000 1000 1000 noFaults).state = usersOnly := by
  decide

/-- C9. Asha, an astrologer, requests a consultation with herself and
writes her own id in upper case. `User.findById` casts the id and resolves
it to Asha, but the self test compares the strings, which differ, so the
guard "requester differs from target" does not refuse: a pending request
whose requester and provider are both Asha is inserted and the
acknowledgment is a success. With her id written as the store renders it,
the handler refuses with "Cannot request consultation with yourself" and
inserts nothing. -/
theorem self_request_in_upper_case :
    castObjectId ashaIdUpper = some asha._id ∧
    findUser usersOnly.users (some ashaIdUpper) = some asha ∧
    consultationRequest usersOnly ⟨"s2", asha⟩ (some ⟨some ashaIdUpper, none⟩) true req1
        1000 1000 1000 noFaults =
      ⟨{ usersOnly with
          requests := [⟨req1, ashaId, ashaId, "", .pending, 1000, none, none, 301000⟩] }, [],
        [.success (.requested req1 "Consultation request sent successfully")]⟩ ∧
    consultationRequest usersOnly ⟨"s2", asha⟩ (some ⟨some ashaId, none⟩) true req1
        1000 1000 1000 noFaults =
      ⟨usersOnly, [], [.failure "Cannot request consultation with yourself"]⟩ := by
  decide


/-! ## Bulk updates -/

/-- The positions at which a bulk update changed a document are as many as
the documents matched, when the patch changes every document it matches. -/
theorem changed_count {α : Type} [DecidableEq α] (l : List α) (hit : α → Bool) (f : α → α)
    (hf : ∀ x, hit x = true → f x ≠ x) :
    ((l.zip (l.map fun x => if hit x = true then f x else x)).filter
      fun p => p.1 != p.2).length = (l.filter hit).length := by
  induction l with
  | nil => rfl
  | cons x rest ih =>
    simp only [List.map_cons, List.zip_cons_cons]
    cases hx : hit x with
    | true =>
      have hne : (x != f x) = true := by
        simpa using fun h => hf x hx h.symm
      simp only [if_true]
      rw [List.filter_cons_of_pos hx, List.filter_cons_of_pos (by simpa using hne)]
      simp only [List.length_cons, ih]
    | false =>
      simp only [Bool.false_eq_true, if_false]
      rw [List.filter_cons_of_neg (by simp), List.filter_cons_of_neg (by simp [hx])]
      exact ih

/-! ## C4: what the sweep changes -/

/-- C4. On a working store, for every state and instants t1 (read in the
filter) and t2 (read in the patch), expireOldRequests touches nothing but the
request collection; a request that is pending with expiresAt < t1 becomes
expired with respondedAt = t2 and is otherwise as before, every other
request is unchanged and stays at its place, and expiredCount is the number
of pending requests with expiresAt < t1, which is the number of positions
at which the collection changed. -/
theorem sweep_exact (st : ServerState) (t1 t2 : Nat) :
    (expireOldRequests st t1 t2 noFaults).1 =
      { st with requests := (expireOldRequests st t1 t2 noFaults).1.requests } ∧
    (expireOldRequests st t1 t2 noFaults).1.requests.length = st.requests.length ∧
    (∀ (i : Nat) (r : ConsultationRequest), st.requests[i]? = some r → r.status = .pending →
      r.expiresAt < t1 →
      (expireOldRequests st t1 t2 noFaults).1.requests[i]? =
        some { r with status := .expired, respondedAt := some t2 }) ∧
    (∀ (i : Nat) (r : ConsultationRequest), st.requests[i]? = some r →
      ¬ (r.status = .pending ∧ r.expiresAt < t1) →
      (expireOldRequests st t1 t2 noFaults).1.requests[i]? = some r) ∧
    (expireOldRequests st t1 t2 noFaults).2 =
      .json 200 (st.requests.filter fun r =>
        r.status == .pending && decide (r.expiresAt < t1)).length ∧
    (expireOldRequests st t1 t2 noFaults).2 =
      .json 200 ((st.requests.zip (expireOldRequests st t1 t2 noFaults).1.requests).filter
        fun p => p.1 != p.2).length := by
  refine ⟨rfl, ?_, ?_, ?_, rfl, ?_⟩
  · simp [expireOldRequests, noFaults]
  · intro i r hi hs he
    simp [expireOldRequests, noFaults, List.getElem?_map, hi, hs, he]
  · intro i r hi hn
    simp only [expireOldRequests, noFaults, List.getElem?_map, hi, Option.map_some']
    by_cases hs : r.status = .pending
    · have he : ¬ r.expiresAt < t1 := fun he => hn ⟨hs, he⟩
      simp [hs, he]
    · simp [hs]
  · simp only [expireOldRequests, noFaults]
    rw [changed_count st.requests _
      (fun r => { r with status := .expired, respondedAt := some t2 })]
    intro x hx h
    simp only [Bool.and_eq_true, beq_iff_eq] at hx
    have : x.status = .expired := by rw [← h]
    rw [hx.1] at this
    cases this

/-! ## C5: sweeping twice -/

/-- C5. A second sweep with the same filter instant, on a working store and
whatever the stamps, leaves the state of the first sweep as it is and
reports expiredCount = 0; in particular two sweeps at one instant yield the
state of one. -/
theorem sweep_idempotent (st : ServerState) (t1 t2 t3 : Nat) :
    expireOldRequests (expireOldRequests st t1 t2 noFaults).1 t1 t3 noFaults =
      ((expireOldRequests st t1 t2 noFaults).1, .json 200 0) ∧
    expireOldRequests (expireOldRequests st t1 t1 noFaults).1 t1 t1 noFaults =
      ((expireOldRequests st t1 t1 noFaults).1, .json 200 0) := by
  have key : ∀ a b, expireOldRequests (expireOldRequests st t1 a noFaults).1 t1 b noFaults =
      ((expireOldRequests st t1 a noFaults).1, .json 200 0) := by
    intro a b
    simp only [expireOldRequests, noFaults, List.map_map]
    have hmap : ∀ rs : List ConsultationRequest,
        rs.map ((fun r : ConsultationRequest =>
            if (r.status == Status.pending && decide (r.expiresAt < t1)) = true then
              { r with status := .expired, respondedAt := some b } else r) ∘
          fun r : ConsultationRequest =>
            if (r.status == Status.pending && decide (r.expiresAt < t1)) = true then
              { r with status := .expired, respondedAt := some a } else r) =
        rs.map fun r : ConsultationRequest =>
            if (r.status == Status.pending && decide (r.expiresAt < t1)) = true then
              { r with status := .expired, respondedAt := some a } else r := by
      intro rs
      apply List.map_congr_left
      intro r _
      simp only [Function.comp]
      by_cases h : (r.status == Status.pending && decide (r.expiresAt < t1)) = true
      · simp [h]
      · simp [h]
    have hfil : ∀ rs : List ConsultationRequest,
        (rs.map fun r : ConsultationRequest =>
            if (r.status == Status.pending && decide (r.expiresAt < t1)) = true then
              { r with status := .expired, respondedAt := some a } else r).filter
          (fun r => r.status == Status.pending && decide (r.expiresAt < t1)) = [] := by
      intro rs
      rw [List.filter_eq_nil_iff]
      intro x hx
      simp only [List.mem_map] at hx
      obtain ⟨r, _, hr⟩ := hx
      by_cases h : (r.status == Status.pending && decide (r.expiresAt < t1)) = true
      · simp only [h, if_true] at hr
        subst hr
        simp
      · simp only [h] at hr
        subst hr
        exact h
    rw [hmap, hfil]
    rfl
  exact ⟨key t2 t3, key t1 t1⟩


/-! ## C6: read marking -/

/-- C6, as amended. Read marking by reader R of the messages of sender S at
instant now sets isRead = true and readAt = now on the messages with
sender = S, receiver = R and isRead = false, leaves every other message
(reverse direction, other pairs, already read) as it is and at its place,
and counts the positions it changed. On a working store the socket handler
`message:read` does this update and acknowledges the count, for every
spelling of the id that casts to S; the REST controller `markAsRead` does it
and returns the count when S resolves to a user, and answers 404 without
changing anything when S does not resolve. -/
theorem mark_read_exact (st : ServerState) (socket : Socket) (sender : String) (now : Nat) :
    (markMessagesRead st.messages (some sender) socket.user._id now).1.length =
      st.messages.length ∧
    (∀ (i : Nat) (m : Message), st.messages[i]? = some m →
      m.sender = sender → m.receiver = socket.user._id → m.isRead = false →
      (markMessagesRead st.messages (some sender) socket.user._id now).1[i]? =
        some { m with isRead := true, readAt := some now }) ∧
    (∀ (i : Nat) (m : Message), st.messages[i]? = some m →
      ¬ (m.sender = sender ∧ m.receiver = socket.user._id ∧ m.isRead = false) →
      (markMessagesRead st.messages (some sender) socket.user._id now).1[i]? = some m) ∧
    (markMessagesRead st.messages (some sender) socket.user._id now).2 =
      ((st.messages.zip (markMessagesRead st.messages (some sender) socket.user._id now).1).filter
        fun p => p.1 != p.2).length ∧
    (∀ raw cb, castObjectId raw = some sender →
      (messageRead st socket (some ⟨some raw⟩) cb now noFaults).state =
        { st with
          messages := (markMessagesRead st.messages (some sender) socket.user._id now).1 } ∧
      (messageRead st socket (some ⟨some raw⟩) cb now noFaults).acks =
        ack cb (.success (.count
          (markMessagesRead st.messages (some sender) socket.user._id now).2))) ∧
    (∀ raw u, castObjectId raw = some sender → findUser st.users (some raw) = some u →
      markAsRead st socket.user raw now noFaults =
        ({ st with
            messages := (markMessagesRead st.messages (some sender) socket.user._id now).1 },
          .json 200 (markMessagesRead st.messages (some sender) socket.user._id now).2)) ∧
    (∀ raw, castObjectId raw = some sender → findUser st.users (some raw) = none →
      markAsRead st socket.user raw now noFaults = (st, .next 404 "Sender not found")) := by
  refine ⟨?_, ?_, ?_, ?_, ?_, ?_, ?_⟩
  · simp [markMessagesRead]
  · intro i m hi h1 h2 h3
    simp [markMessagesRead, List.getElem?_map, hi, h1, h2, h3]
  · intro i m hi hn
    simp only [markMessagesRead, List.getElem?_map, hi, Option.map_some']
    by_cases h : (some m.sender == some sender && m.receiver == socket.user._id &&
        m.isRead == false) = true
    · exfalso
      apply hn
      have h2 : (m.sender = sender ∧ m.receiver = socket.user._id) ∧ m.isRead = false := by
        simpa using h
      exact ⟨h2.1.1, h2.1.2, h2.2⟩
    · simp only [h]
      rfl
  · simp only [markMessagesRead]
    rw [changed_count st.messages _ (fun m => { m with isRead := true, readAt := some now })]
    intro x hx h
    simp only [Bool.and_eq_true, beq_iff_eq] at hx
    have : x.isRead = true := by rw [← h]
    rw [hx.2] at this
    cases this
  · intro raw cb hc
    simp [messageRead, noFaults, castFails, hc]
  · intro raw u hc hu
    simp [markAsRead, noFaults, hu, hc]
  · intro raw hc hu
    simp [markAsRead, noFaults, hu, hc]

/-- C6 as stated fails for the REST controller: the message m1 of Yan to Uma
is unread, Yan resolves to no user, and markAsRead by Uma answers 404 and
leaves m1 unread. -/
theorem unresolved_sender_not_marked :
    unreadState.messages = [⟨msg1, yanId, umaId, "hello", false, none, 10⟩] ∧
      markAsRead unreadState uma yanId 20 noFaults =
        (unreadState, .next 404 "Sender not found") ∧
      (messageRead unreadState ⟨"s1", uma⟩ (some ⟨some yanId⟩) true 20 noFaults).state.messages =
        [⟨msg1, yanId, umaId, "hello", true, some 20, 10⟩] := by
  decide


/-! ## C7: terminal requests -/

theorem saveRequest_keeps (rs : List ConsultationRequest) (k : String)
    (found saved : ConsultationRequest)
    (hf : rs.find? (fun r => r._id == k) = some found) (hid : saved._id = k)
    (i : Nat) (r : ConsultationRequest) (hi : rs[i]? = some r) (hne : r.status ≠ found.status) :
    (saveRequest rs saved)[i]? = some r := by
  induction rs generalizing i with
  | nil => simp at hi
  | cons x rest ih =>
    by_cases hx : x._id = k
    · have hxf : x = found := by
        rw [List.find?_cons_of_pos _ (by simpa using hx)] at hf
        exact Option.some.inj hf
      have hs : saveRequest (x :: rest) saved = saved :: rest := by
        simp [saveRequest, hx, hid]
      rw [hs]
      cases i with
      | zero =>
        simp only [List.getElem?_cons_zero, Option.some.injEq] at hi
        rw [← hi, hxf] at hne
        exact absurd rfl hne
      | succ n => simpa using hi
    · have hrest : rest.find? (fun r => r._id == k) = some found := by
        rw [List.find?_cons_of_neg _ (by simpa using hx)] at hf
        exact hf
      have hs : saveRequest (x :: rest) saved = x :: saveRequest rest saved := by
        simp [saveRequest, hx, hid]
      rw [hs]
      cases i with
      | zero => simpa using hi
      | succ n =>
        simp only [List.getElem?_cons_succ] at hi ⊢
        exact ih hrest n hi

/-- An operation other than create leaves every request that is neither
pending nor accepted where and as it was. -/
theorem Shrinks.keeps (rs rs2 : List ConsultationRequest) (h : Shrinks rs rs2) (i : Nat)
    (r : ConsultationRequest) (hi : rs[i]? = some r)
    (ht : r.status ≠ .pending ∧ r.status ≠ .accepted) : rs2[i]? = some r := by
  cases h with
  | same => exact hi
  | save k found saved hf hid hopen hs =>
    cases hcast : k.bind castObjectId with
    | none => simp [findRequest, hcast] at hf
    | some k =>
      simp only [findRequest, hcast] at hf
      have hk : found._id = k := by simpa using List.find?_some hf
      refine saveRequest_keeps rs k found saved hf (by rw [hid, hk]) i r hi ?_
      rcases hopen with h | h
      · rw [h]; exact ht.1
      · rw [h]; exact ht.2
  | sweep hit t2 hhit =>
    rw [List.getElem?_map, hi]
    have : hit r ≠ true := fun h => ht.1 (hhit r h)
    simp [this]

/-- C7. A request whose status is declined, cancelled, expired or completed
is left where and as it was, in every field, by every operation of the
broker (create, accept, decline, cancel through the socket or REST,
complete, sweep), whoever calls it, whatever request it names and whatever
the store answers. When accept, decline, cancel or complete names such a
request, the whole state is unchanged, nothing is emitted and the call
reports a failure. -/
theorem terminal_frozen (st : ServerState) (r : ConsultationRequest)
    (ht : r.status = .declined ∨ r.status = .cancelled ∨ r.status = .expired ∨
      r.status = .completed) :
    (∀ (op : Op) (i : Nat), st.requests[i]? = some r → (op.run st).requests[i]? = some r) ∧
    (∀ (socket : Socket) (d : TransitionData) (cb : Bool) (t1 t2 : Nat) (faults : Faults),
      findRequest st.requests d.requestId = some r →
      (∃ e, consultationAccept st socket (some d) cb t1 t2 faults =
        ⟨st, [], ack cb (.failure e)⟩) ∧
      (∃ e, consultationDecline st socket (some d) cb t1 faults =
        ⟨st, [], ack cb (.failure e)⟩) ∧
      (∃ e, consultationCancel st socket (some d) cb t1 faults =
        ⟨st, [], ack cb (.failure e)⟩) ∧
      (∃ e, consultationComplete st socket (some d) cb t1 faults =
        ⟨st, [], ack cb (.failure e)⟩) ∧
      (cancelRequest st socket.user d.requestId t1 faults).1 = st ∧
      ((∃ code msg, 400 ≤ code ∧ code < 500 ∧
          (cancelRequest st socket.user d.requestId t1 faults).2 = .next code msg) ∨
        ∃ e, (cancelRequest st socket.user d.requestId t1 faults).2 = .thrown e)) := by
  have hnp : r.status ≠ .pending := by
    rcases ht with h | h | h | h <;> rw [h] <;> decide
  have hna : r.status ≠ .accepted := by
    rcases ht with h | h | h | h <;> rw [h] <;> decide
  refine ⟨?_, ?_⟩
  · intro op i hi
    have keep : ∀ rs2, Shrinks st.requests rs2 → rs2[i]? = some r :=
      fun rs2 h => h.keeps _ _ i r hi ⟨hnp, hna⟩
    cases op with
    | accept socket data cb t1 t3 faults => exact keep _ (accept_shrinks ..)
    | decline socket data cb now faults => exact keep _ (decline_shrinks ..)
    | cancel socket data cb now faults => exact keep _ (cancel_shrinks ..)
    | cancelRest reqUser requestId now faults => exact keep _ (cancelRequest_shrinks ..)
    | complete socket data cb now faults => exact keep _ (complete_shrinks ..)
    | sweep t1 t3 faults => exact keep _ (sweep_shrinks ..)
    | create socket data cb newId t1 t3 t4 faults =>
      rcases create_effect st socket data cb newId t1 t3 t4 faults with h | ⟨aid, msg, _, h⟩
      · simp only [Op.run, h]; exact hi
      · simp only [Op.run, h]
        have hlt : i < st.requests.length := by
          by_contra hge
          rw [List.getElem?_eq_none (by omega)] at hi
          cases hi
        rw [List.getElem?_append_left hlt]
        exact hi
  · intro socket d cb t1 t2 faults hf
    refine ⟨?_, ?_, ?_, ?_, ?_, ?_⟩
    · cases h0 : faults 0 with
      | some e => exact ⟨_, by simp [consultationAccept, h0, caught]; rfl⟩
      | none =>
        by_cases ha : r.astrologer = socket.user._id
        · exact ⟨_, by simp [consultationAccept, h0, hf, castFails_of_findRequest _ _ _ hf, ha, hnp]; rfl⟩
        · exact ⟨_, by simp [consultationAccept, h0, hf, castFails_of_findRequest _ _ _ hf, ha]; rfl⟩
    · cases h0 : faults 0 with
      | some e => exact ⟨_, by simp [consultationDecline, h0, caught]; rfl⟩
      | none =>
        by_cases ha : r.astrologer = socket.user._id
        · exact ⟨_, by simp [consultationDecline, h0, hf, castFails_of_findRequest _ _ _ hf, ha, hnp]; rfl⟩
        · exact ⟨_, by simp [consultationDecline, h0, hf, castFails_of_findRequest _ _ _ hf, ha]; rfl⟩
    · cases h0 : faults 0 with
      | some e => exact ⟨_, by simp [consultationCancel, h0, caught]; rfl⟩
      | none =>
        by_cases hu : r.user = socket.user._id
        · exact ⟨_, by simp [consultationCancel, h0, hf, castFails_of_findRequest _ _ _ hf, hu, hnp]; rfl⟩
        · exact ⟨_, by simp [consultationCancel, h0, hf, castFails_of_findRequest _ _ _ hf, hu]; rfl⟩
    · cases h0 : faults 0 with
      | some e => exact ⟨_, by rw [complete_fault st socket d cb t1 faults e h0]; rfl⟩
      | none =>
        by_cases hp : r.user = socket.user._id ∨ r.astrologer = socket.user._id
        · exact ⟨_, complete_wrong_status st socket d cb t1 faults r h0 hf hp hna⟩
        · exact ⟨_, complete_stranger st socket d cb t1 faults r h0 hf
            (fun h => hp (Or.inl h)) (fun h => hp (Or.inr h))⟩
    · cases h0 : faults 0 with
      | some e => simp [cancelRequest, h0]
      | none =>
        by_cases hu : r.user = socket.user._id
        · simp [cancelRequest, h0, hf, castFails_of_findRequest _ _ _ hf, hu, hnp]
        · simp [cancelRequest, h0, hf, castFails_of_findRequest _ _ _ hf, hu]
    · cases h0 : faults 0 with
      | some e => exact Or.inr ⟨e, by simp [cancelRequest, h0]⟩
      | none =>
        by_cases hu : r.user = socket.user._id
        · exact Or.inl ⟨400, _, by norm_num, by norm_num,
            by simp [cancelRequest, h0, hf, castFails_of_findRequest _ _ _ hf, hu, hnp]; rfl⟩
        · exact Or.inl ⟨403, _, by norm_num, by norm_num,
            by simp [cancelRequest, h0, hf, castFails_of_findRequest _ _ _ hf, hu]; rfl⟩

/-- The concrete instance of C7: the declined request of Uma to Asha
survives an accept by Asha, which fails. -/
theorem terminal_frozen_witness :
    ∃ e, consultationAccept (sampleState .declined) ⟨"s2", asha⟩ (some sampleTransition) true
        2000 2000 noFaults = ⟨sampleState .declined, [], ack true (.failure e)⟩ :=
  ((terminal_frozen (sampleState .declined) (sampleRequest .declined)
    (Or.inl rfl)).2 ⟨"s2", asha⟩ sampleTransition true 2000 2000 noFaults (by decide)).1


/-! ## C8: accepting a pending request -/

/-- What accept does on a working store for a pending request of the caller
whose requester resolves: past expiresAt it saves expired and fails,
otherwise it saves accepted with respondedAt and succeeds. -/
theorem accept_pending (st : ServerState) (socket : Socket) (d : TransitionData) (cb : Bool)
    (t1 t2 : Nat) (r : ConsultationRequest) (u : User)
    (hf : findRequest st.requests d.requestId = some r)
    (ha : r.astrologer = socket.user._id) (hs : r.status = .pending)
    (hu : findUser st.users (some r.user) = some u) :
    (t1 > r.expiresAt →
      consultationAccept st socket (some d) cb t1 t2 noFaults =
        ⟨{ st with
            requests := saveRequest st.requests
              { r with status := .expired, respondedAt := some t2 } }, [],
          ack cb (.failure "Request has expired")⟩) ∧
    (¬ t1 > r.expiresAt →
      (consultationAccept st socket (some d) cb t1 t2 noFaults).state =
        { st with
          requests := saveRequest st.requests
            { r with status := .accepted, respondedAt := some t2 } } ∧
      (consultationAccept st socket (some d) cb t1 t2 noFaults).acks =
        ack cb (.success (.acceptedFor u "Consultation request accepted"))) := by
  refine ⟨fun ht => ?_, fun ht => ?_⟩
  · simp [consultationAccept, noFaults, hf, castFails_of_findRequest _ _ _ hf, ha, hs, ht]
  · simp [consultationAccept, noFaults, hf, castFails_of_findRequest _ _ _ hf, ha, hs, ht, hu]

/-- C8. The pending request r1 of Uma to Asha expires at 301000, and the user
document of Uma has been deleted. When Asha accepts at instant 2000,
`populate` yields no user: on a working store the request is saved as
accepted and the handler then throws on `request.user._id`, and whatever
the store answers the acknowledgment is a failure, never a success. -/
theorem accept_after_requester_deleted :
    findRequest orphanState.requests (some req1) = some (sampleRequest .pending) ∧
      findUser orphanState.users (some umaId) = none ∧
      consultationAccept orphanState ⟨"s2", asha⟩ (some sampleTransition) true 2000 2000
          noFaults =
        ⟨{ orphanState with
            requests := [{ sampleRequest .accepted with respondedAt := some 2000 }] }, [],
          [.failure nullReadError]⟩ ∧
      ∀ faults : Faults, ∃ e,
        (consultationAccept orphanState ⟨"s2", asha⟩ (some sampleTransition) true 2000 2000
          faults).acks = [.failure e] := by
  refine ⟨by decide, by decide, by decide, ?_⟩
  intro faults
  have hf : findRequest orphanState.requests sampleTransition.requestId =
      some (sampleRequest .pending) := by decide
  have hu : findUser orphanState.users (some (sampleRequest .pending).user) = none := by decide
  have ha : (sampleRequest .pending).astrologer = asha._id := by decide
  have hs : (sampleRequest .pending).status = .pending := rfl
  have ht : ¬ (sampleRequest .pending).expiresAt < 2000 := by decide
  cases h0 : faults 0 with
  | some e => exact ⟨_, by simp [consultationAccept, h0, caught, ack]; rfl⟩
  | none =>
    cases h1 : faults 1 with
    | some e => exact ⟨_, by simp [consultationAccept, h0, h1, hf, castFails_of_findRequest _ _ _ hf, ha, hs, ht, caught, ack]; rfl⟩
    | none => exact ⟨_, by simp [consultationAccept, h0, h1, hf, castFails_of_findRequest _ _ _ hf, ha, hs, ht, hu, caught, ack]; rfl⟩

/-! ## C10: declining a pending request -/

/-- What decline does on a working store for a pending request of the caller
whose requester resolves. -/
theorem decline_pending (st : ServerState) (socket : Socket) (d : TransitionData) (cb : Bool)
    (now : Nat) (r : ConsultationRequest) (u : User)
    (hf : findRequest st.requests d.requestId = some r)
    (ha : r.astrologer = socket.user._id) (hs : r.status = .pending)
    (hu : findUser st.users (some r.user) = some u) :
    consultationDecline st socket (some d) cb now noFaults =
      ⟨{ st with
          requests := saveRequest st.requests
            { r with status := .declined, respondedAt := some now } },
        (match socketOf st u._id with
          | none => []
          | some sid =>
            [.to sid (.consultationDeclined r._id socket.user._id socket.user.name
              (orElse d.reason "Astrologer is currently unavailable"))]),
        ack cb (.success (.text "Consultation request declined"))⟩ := by
  simp [consultationDecline, noFaults, hf, castFails_of_findRequest _ _ _ hf, ha, hs, hu]

/-- C10. The pending request r1 of Uma to Asha is declined by Asha after the
user document of Uma has been deleted: `populate` yields no user, on a
working store the request is saved as declined and the handler then throws
on `request.user._id`, and whatever the store answers the acknowledgment is
a failure, never a success. -/
theorem decline_after_requester_deleted :
    findRequest orphanState.requests (some req1) = some (sampleRequest .pending) ∧
      findUser orphanState.users (some umaId) = none ∧
      consultationDecline orphanState ⟨"s2", asha⟩ (some sampleTransition) true 2000 noFaults =
        ⟨{ orphanState with
            requests := [{ sampleRequest .declined with respondedAt := some 2000 }] }, [],
          [.failure nullReadError]⟩ ∧
      ∀ faults : Faults, ∃ e,
        (consultationDecline orphanState ⟨"s2", asha⟩ (some sampleTransition) true 2000
          faults).acks = [.failure e] := by
  refine ⟨by decide, by decide, by decide, ?_⟩
  intro faults
  have hf : findRequest orphanState.requests sampleTransition.requestId =
      some (sampleRequest .pending) := by decide
  have hu : findUser orphanState.users (some (sampleRequest .pending).user) = none := by decide
  have ha : (sampleRequest .pending).astrologer = asha._id := by decide
  have hs : (sampleRequest .pending).status = .pending := rfl
  cases h0 : faults 0 with
  | some e => exact ⟨_, by simp [consultationDecline, h0, caught, ack]; rfl⟩
  | none =>
    cases h1 : faults 1 with
    | some e => exact ⟨_, by simp [consultationDecline, h0, h1, hf, castFails_of_findRequest _ _ _ hf, ha, hs, caught, ack]; rfl⟩
    | none => exact ⟨_, by simp [consultationDecline, h0, h1, hf, castFails_of_findRequest _ _ _ hf, ha, hs, hu, caught, ack]; rfl⟩


/-! ## C22: cancel on the push and on the pull path -/

/-- C22. For every state, request id, caller, instant and behaviour of the
store, the socket handler `consultation:cancel` and the REST controller
`cancelRequest` leave the same server state, and one reports success
exactly when the other does. On a working store both succeed exactly when
the request exists, the caller is its requester and its status is pending,
and the state they leave is the one the cancel row of the specification
prescribes: the request saved as cancelled with respondedAt = now on
success, nothing changed on failure. -/
theorem cancel_paths_agree (st : ServerState) (socket : Socket) (rid reason : Option String)
    (now : Nat) (faults : Faults) :
    (∀ cb, (consultationCancel st socket (some ⟨rid, reason⟩) cb now faults).state =
      (cancelRequest st socket.user rid now faults).1) ∧
    ((∃ a, (consultationCancel st socket (some ⟨rid, reason⟩) true now faults).acks =
        [.success a]) ↔
      ∃ b, (cancelRequest st socket.user rid now faults).2 = .json 200 b) ∧
    ((∃ b, (cancelRequest st socket.user rid now noFaults).2 = .json 200 b) ↔
      ∃ r, findRequest st.requests rid = some r ∧ r.user = socket.user._id ∧
        r.status = .pending) ∧
    (cancelRequest st socket.user rid now noFaults).1 =
      (match specCancel st.requests socket.user._id rid now with
        | some rs => { st with requests := rs }
        | none => st) := by
  have hn0 : noFaults 0 = none := rfl
  have hn1 : noFaults 1 = none := rfl
  refine ⟨?_, ?_, ?_, ?_⟩
  · intro cb
    simp only [consultationCancel, cancelRequest]
    repeat' split
    all_goals rfl
  · simp only [consultationCancel, cancelRequest]
    repeat' split
    all_goals simp_all [ack, caught]
  · simp only [cancelRequest, hn0, hn1]
    cases hf : findRequest st.requests rid with
    | none => cases hc : castFails rid <;> simp
    | some r =>
      have hc := castFails_of_findRequest _ _ _ hf
      by_cases hu : r.user = socket.user._id
      · by_cases hs : r.status = .pending
        · simp [hu, hs, hc]
        · simp [hu, hs, hc]
      · simp [hu, hc]
  · simp only [cancelRequest, specCancel, hn0, hn1]
    cases hf : findRequest st.requests rid with
    | none => cases hc : castFails rid <;> simp
    | some r =>
      have hc := castFails_of_findRequest _ _ _ hf
      by_cases hu : r.user = socket.user._id
      · by_cases hs : r.status = .pending
        · simp [hu, hs, hc]
        · simp [hu, hs, hc]
      · simp [hu, hc]


/-! ## C23: transitions after the expiry instant -/

/-- C23. The pending request r1 of Uma to Asha expired at 301000. At instant
400000 accept by Asha re-checks the expiry and saves the request as
expired, but decline by Asha saves it as declined, and cancel by Uma,
through the socket and through the REST controller, saves it as cancelled:
decline and cancel test only that the status is pending. -/
theorem transitions_after_expiry :
    (sampleRequest .pending).expiresAt < 400000 ∧
    (consultationAccept (sampleState .pending) ⟨"s2", asha⟩ (some sampleTransition) true
        400000 400000 noFaults).state.requests =
      [{ sampleRequest .expired with respondedAt := some 400000 }] ∧
    consultationDecline (sampleState .pending) ⟨"s2", asha⟩ (some sampleTransition) true
        400000 noFaults =
      ⟨{ sampleState .pending with
          requests := [{ sampleRequest .declined with respondedAt := some 400000 }] }, [],
        [.success (.text "Consultation request declined")]⟩ ∧
    consultationCancel (sampleState .pending) ⟨"s1", uma⟩ (some sampleTransition) true
        400000 noFaults =
      ⟨{ sampleState .pending with
          requests := [{ sampleRequest .cancelled with respondedAt := some 400000 }] }, [],
        [.success (.text "Consultation request cancelled")]⟩ ∧
    cancelRequest (sampleState .pending) uma (some req1) 400000 noFaults =
      ({ sampleState .pending with
          requests := [{ sampleRequest .cancelled with respondedAt := some 400000 }] },
        .json 200 "Request cancelled successfully") := by
  decide


/-! ## C25: what a transition may change -/

theorem SameFrame.refl (r : ConsultationRequest) : SameFrame r r := by
  cases r; rfl

theorem sameFrame_all (rs : List ConsultationRequest) : List.Forall₂ SameFrame rs rs := by
  induction rs with
  | nil => exact List.Forall₂.nil
  | cons x rest ih => exact List.Forall₂.cons (SameFrame.refl x) ih

theorem sameFrame_save (rs : List ConsultationRequest) (i : Option String)
    (found saved : ConsultationRequest) (hf : findRequest rs i = some found)
    (hs : SameFrame found saved) : List.Forall₂ SameFrame rs (saveRequest rs saved) := by
  have hid : saved._id = found._id := by rw [hs]
  cases hcast : i.bind castObjectId with
  | none => simp [findRequest, hcast] at hf
  | some k =>
    simp only [findRequest, hcast] at hf
    have hk : found._id = k := by simpa using List.find?_some hf
    induction rs with
    | nil => simp at hf
    | cons x rest ih =>
      by_cases hx : x._id = k
      · have hxf : x = found := by
          rw [List.find?_cons_of_pos _ (by simpa using hx)] at hf
          exact Option.some.inj hf
        have h1 : saveRequest (x :: rest) saved = saved :: rest := by
          simp [saveRequest, hx, hid, hk]
        rw [h1, hxf]
        exact List.Forall₂.cons hs (sameFrame_all rest)
      · have hrest : rest.find? (fun r => r._id == k) = some found := by
          rw [List.find?_cons_of_neg _ (by simpa using hx)] at hf
          exact hf
        have h1 : saveRequest (x :: rest) saved = x :: saveRequest rest saved := by
          simp [saveRequest, hx, hid, hk]
        rw [h1]
        exact List.Forall₂.cons (SameFrame.refl x) (ih hrest)

theorem sameFrame_sweep (rs : List ConsultationRequest) (hit : ConsultationRequest → Bool)
    (t2 : Nat) :
    List.Forall₂ SameFrame rs (rs.map fun r =>
      if hit r = true then { r with status := .expired, respondedAt := some t2 } else r) := by
  induction rs with
  | nil => exact List.Forall₂.nil
  | cons x rest ih =>
    rw [List.map_cons]
    refine List.Forall₂.cons ?_ ih
    by_cases hx : hit x = true
    · simp only [hx, if_true]; rfl
    · simp only [hx]; exact SameFrame.refl x

theorem accept_frame (st : ServerState) (socket : Socket) (data : Option TransitionData)
    (cb : Bool) (t1 t2 : Nat) (faults : Faults) :
    List.Forall₂ SameFrame st.requests
      (consultationAccept st socket data cb t1 t2 faults).state.requests := by
  simp only [consultationAccept]
  repeat' split
  all_goals first
    | exact sameFrame_all _
    | exact sameFrame_save _ _ _ _ (by assumption) (by rfl)

theorem decline_frame (st : ServerState) (socket : Socket) (data : Option TransitionData)
    (cb : Bool) (now : Nat) (faults : Faults) :
    List.Forall₂ SameFrame st.requests
      (consultationDecline st socket data cb now faults).state.requests := by
  simp only [consultationDecline]
  repeat' split
  all_goals first
    | exact sameFrame_all _
    | exact sameFrame_save _ _ _ _ (by assumption) (by rfl)

theorem cancel_frame (st : ServerState) (socket : Socket) (data : Option TransitionData)
    (cb : Bool) (now : Nat) (faults : Faults) :
    List.Forall₂ SameFrame st.requests
      (consultationCancel st socket data cb now faults).state.requests := by
  simp only [consultationCancel]
  repeat' split
  all_goals first
    | exact sameFrame_all _
    | exact sameFrame_save _ _ _ _ (by assumption) (by rfl)

theorem cancelRequest_frame (st : ServerState) (reqUser : User) (requestId : Option String)
    (now : Nat) (faults : Faults) :
    List.Forall₂ SameFrame st.requests
      (cancelRequest st reqUser requestId now faults).1.requests := by
  simp only [cancelRequest]
  repeat' split
  all_goals first
    | exact sameFrame_all _
    | exact sameFrame_save _ _ _ _ (by assumption) (by rfl)

theorem complete_frame (st : ServerState) (socket : Socket) (data : Option TransitionData)
    (cb : Bool) (now : Nat) (faults : Faults) :
    List.Forall₂ SameFrame st.requests
      (consultationComplete st socket data cb now faults).state.requests := by
  simp only [consultationComplete]
  repeat' split
  all_goals first
    | exact sameFrame_all _
    | exact sameFrame_save _ _ _ _ (by assumption) (by rfl)

theorem sweep_frame (st : ServerState) (t1 t2 : Nat) (faults : Faults) :
    List.Forall₂ SameFrame st.requests (expireOldRequests st t1 t2 faults).1.requests := by
  simp only [expireOldRequests]
  split
  · exact sameFrame_all _
  · exact sameFrame_sweep _ _ t2

theorem forall₂_getElem? (l1 l2 : List ConsultationRequest)
    (h : List.Forall₂ SameFrame l1 l2) (i : Nat) (r : ConsultationRequest)
    (hi : l1[i]? = some r) : ∃ r2, l2[i]? = some r2 ∧ SameFrame r r2 := by
  induction h generalizing i with
  | nil => simp at hi
  | cons hab _ ih =>
    cases i with
    | zero =>
      simp only [List.getElem?_cons_zero, Option.some.injEq] at hi
      subst hi
      exact ⟨_, by simp, hab⟩
    | succ n =>
      simp only [List.getElem?_cons_succ] at hi ⊢
      exact ih n hi

theorem forall₂_ids (l1 l2 : List ConsultationRequest) (h : List.Forall₂ SameFrame l1 l2) :
    l2.map (fun r => r._id) = l1.map (fun r => r._id) := by
  induction h with
  | nil => rfl
  | cons hab _ ih =>
    simp only [List.map_cons, ih]
    rw [hab]

/-- C25. For every state and every operation among accept, decline, cancel
(socket or REST), complete and sweep, with any caller, payload, instants and
store behaviour: the collection keeps its length and its list of request
ids, and the request at each position keeps its id, requester, provider,
message, requestedAt and expiresAt, so that only status, respondedAt and
completedAt may differ and no request is deleted. -/
theorem frame_kept (st : ServerState) (op : Op) (hop : op.isCreate = false) :
    (op.run st).requests.length = st.requests.length ∧
    (op.run st).requests.map (fun r => r._id) = st.requests.map (fun r => r._id) ∧
    ∀ (i : Nat) (r : ConsultationRequest), st.requests[i]? = some r →
      ∃ r2, (op.run st).requests[i]? = some r2 ∧
        r2._id = r._id ∧ r2.user = r.user ∧ r2.astrologer = r.astrologer ∧
        r2.message = r.message ∧ r2.requestedAt = r.requestedAt ∧
        r2.expiresAt = r.expiresAt := by
  have key : List.Forall₂ SameFrame st.requests (op.run st).requests := by
    cases op with
    | create socket data cb newId t1 t2 t3 faults => simp [Op.isCreate] at hop
    | accept socket data cb t1 t2 faults => exact accept_frame ..
    | decline socket data cb now faults => exact decline_frame ..
    | cancel socket data cb now faults => exact cancel_frame ..
    | cancelRest reqUser requestId now faults => exact cancelRequest_frame ..
    | complete socket data cb now faults => exact complete_frame ..
    | sweep t1 t2 faults => exact sweep_frame ..
  refine ⟨key.length_eq.symm, forall₂_ids _ _ key, ?_⟩
  intro i r hi
  obtain ⟨r2, h2, hs⟩ := forall₂_getElem? _ _ key i r hi
  refine ⟨r2, h2, ?_⟩
  rw [hs]
  exact ⟨rfl, rfl, rfl, rfl, rfl, rfl⟩

/-- The concrete instance of C25: Asha declines the sample request. -/
theorem frame_kept_witness :
    (Op.run (sampleState .pending)
        (.decline ⟨"s2", asha⟩ (some sampleTransition) true 2000 noFaults)).requests =
        [{ sampleRequest .declined with respondedAt := some 2000 }] ∧
      (Op.run (sampleState .pending)
        (.decline ⟨"s2", asha⟩ (some sampleTransition) true 2000 noFaults)).requests.map
          (fun r => r._id) = (sampleState .pending).requests.map (fun r => r._id) :=
  ⟨by decide,
    (frame_kept (sampleState .pending)
      (.decline ⟨"s2", asha⟩ (some sampleTransition) true 2000 noFaults) rfl).2.1⟩


/-! ## C28: stamps and status -/

theorem mem_saveRequest (rs : List ConsultationRequest) (saved x : ConsultationRequest)
    (hx : x ∈ saveRequest rs saved) : x ∈ rs ∨ x = saved := by
  induction rs with
  | nil => simp [saveRequest] at hx
  | cons y rest ih =>
    by_cases hy : y._id = saved._id
    · have h1 : saveRequest (y :: rest) saved = saved :: rest := by simp [saveRequest, hy]
      rw [h1] at hx
      rcases List.mem_cons.1 hx with h | h
      · exact Or.inr h
      · exact Or.inl (List.mem_cons_of_mem _ h)
    · have h1 : saveRequest (y :: rest) saved = y :: saveRequest rest saved := by
        simp [saveRequest, hy]
      rw [h1] at hx
      rcases List.mem_cons.1 hx with h | h
      · exact Or.inl (by rw [h]; exact List.mem_cons_self _ _)
      · rcases ih h with h2 | h2
        · exact Or.inl (List.mem_cons_of_mem _ h2)
        · exact Or.inr h2

theorem mem_of_findRequest (rs : List ConsultationRequest) (i : Option String)
    (r : ConsultationRequest) (h : findRequest rs i = some r) : r ∈ rs := by
  cases hcast : i.bind castObjectId with
  | none => simp [findRequest, hcast] at h
  | some k =>
    simp only [findRequest, hcast] at h
    exact List.mem_of_find?_eq_some h

theorem stamps_save (rs : List ConsultationRequest) (saved : ConsultationRequest)
    (h : ∀ r ∈ rs, WellStamped r) (hs : WellStamped saved) :
    ∀ r ∈ saveRequest rs saved, WellStamped r := by
  intro r hr
  rcases mem_saveRequest rs saved r hr with h1 | h1
  · exact h r h1
  · rw [h1]; exact hs

theorem accept_stamps (st : ServerState) (socket : Socket) (data : Option TransitionData)
    (cb : Bool) (t1 t2 : Nat) (faults : Faults)
    (h : ∀ r ∈ st.requests, WellStamped r) :
    ∀ r ∈ (consultationAccept st socket data cb t1 t2 faults).state.requests, WellStamped r := by
  simp only [consultationAccept]
  repeat' split
  all_goals first
    | exact h
    | (refine stamps_save _ _ h ?_
       have hfound := h _ (mem_of_findRequest _ _ _ (by assumption))
       simp_all [WellStamped])

theorem decline_stamps (st : ServerState) (socket : Socket) (data : Option TransitionData)
    (cb : Bool) (now : Nat) (faults : Faults)
    (h : ∀ r ∈ st.requests, WellStamped r) :
    ∀ r ∈ (consultationDecline st socket data cb now faults).state.requests, WellStamped r := by
  simp only [consultationDecline]
  repeat' split
  all_goals first
    | exact h
    | (refine stamps_save _ _ h ?_
       have hfound := h _ (mem_of_findRequest _ _ _ (by assumption))
       simp_all [WellStamped])

theorem cancel_stamps (st : ServerState) (socket : Socket) (data : Option TransitionData)
    (cb : Bool) (now : Nat) (faults : Faults)
    (h : ∀ r ∈ st.requests, WellStamped r) :
    ∀ r ∈ (consultationCancel st socket data cb now faults).state.requests, WellStamped r := by
  simp only [consultationCancel]
  repeat' split
  all_goals first
    | exact h
    | (refine stamps_save _ _ h ?_
       have hfound := h _ (mem_of_findRequest _ _ _ (by assumption))
       simp_all [WellStamped])

theorem cancelRequest_stamps (st : ServerState) (reqUser : User) (requestId : Option String)
    (now : Nat) (faults : Faults)
    (h : ∀ r ∈ st.requests, WellStamped r) :
    ∀ r ∈ (cancelRequest st reqUser requestId now faults).1.requests, WellStamped r := by
  simp only [cancelRequest]
  repeat' split
  all_goals first
    | exact h
    | (refine stamps_save _ _ h ?_
       have hfound := h _ (mem_of_findRequest _ _ _ (by assumption))
       simp_all [WellStamped])

theorem complete_stamps (st : ServerState) (socket : Socket) (data : Option TransitionData)
    (cb : Bool) (now : Nat) (faults : Faults)
    (h : ∀ r ∈ st.requests, WellStamped r) :
    ∀ r ∈ (consultationComplete st socket data cb now faults).state.requests, WellStamped r := by
  simp only [consultationComplete]
  repeat' split
  all_goals first
    | exact h
    | (refine stamps_save _ _ h ?_
       have hfound := h _ (mem_of_findRequest _ _ _ (by assumption))
       simp_all [WellStamped])

theorem sweep_stamps (st : ServerState) (t1 t2 : Nat) (faults : Faults)
    (h : ∀ r ∈ st.requests, WellStamped r) :
    ∀ r ∈ (expireOldRequests st t1 t2 faults).1.requests, WellStamped r := by
  simp only [expireOldRequests]
  split
  · exact h
  · intro r hr
    simp only [List.mem_map] at hr
    obtain ⟨x, hx, hxr⟩ := hr
    have hw := h x hx
    by_cases hit : (x.status == Status.pending && decide (x.expiresAt < t1)) = true
    · simp only [hit, if_true] at hxr
      simp only [Bool.and_eq_true, beq_iff_eq] at hit
      subst hxr
      simp_all [WellStamped]
    · simp only [hit] at hxr
      subst hxr
      exact hw

theorem create_stamps (st : ServerState) (socket : Socket) (data : Option RequestData)
    (cb : Bool) (newId : String) (t1 t2 t3 : Nat) (faults : Faults)
    (h : ∀ r ∈ st.requests, WellStamped r) :
    ∀ r ∈ (consultationRequest st socket data cb newId t1 t2 t3 faults).state.requests,
      WellStamped r := by
  rcases create_effect st socket data cb newId t1 t2 t3 faults with he | ⟨aid, msg, _, he⟩
  · rw [he]; exact h
  · rw [he]
    intro r hr
    rcases List.mem_append.1 hr with h1 | h1
    · exact h r h1
    · simp only [List.mem_singleton] at h1
      subst h1
      simp [WellStamped]

theorem runOps_stamps (ops : List Op) : ∀ st : ServerState,
    (∀ r ∈ st.requests, WellStamped r) → ∀ r ∈ (runOps st ops).requests, WellStamped r := by
  induction ops with
  | nil => intro st h; exact h
  | cons op rest ih =>
    intro st h
    apply ih (op.run st)
    cases op with
    | create socket data cb newId t1 t2 t3 faults => exact create_stamps _ _ _ _ _ _ _ _ _ h
    | accept socket data cb t1 t2 faults => exact accept_stamps _ _ _ _ _ _ _ h
    | decline socket data cb now faults => exact decline_stamps _ _ _ _ _ _ h
    | cancel socket data cb now faults => exact cancel_stamps _ _ _ _ _ _ h
    | cancelRest reqUser requestId now faults => exact cancelRequest_stamps _ _ _ _ _ h
    | complete socket data cb now faults => exact complete_stamps _ _ _ _ _ _ h
    | sweep t1 t2 faults => exact sweep_stamps _ _ _ _ h

/-- C28. In every state produced from a store with no request by a sequence
of create, accept, decline, cancel (socket or REST), complete and sweep
operations, with any callers, payloads, instants and store behaviour, each
request satisfies: status pending implies respondedAt = null and
completedAt = null; status accepted, declined, cancelled or expired implies
respondedAt != null and completedAt = null; status completed implies
respondedAt != null and completedAt != null. -/
theorem stamps_fit_status (st0 : ServerState) (ops : List Op) (r : ConsultationRequest)
    (h0 : st0.requests = []) (hr : r ∈ (runOps st0 ops).requests) :
    (r.status = .pending → r.respondedAt = none ∧ r.completedAt = none) ∧
    (r.status = .accepted ∨ r.status = .declined ∨ r.status = .cancelled ∨
        r.status = .expired → r.respondedAt ≠ none ∧ r.completedAt = none) ∧
    (r.status = .completed → r.respondedAt ≠ none ∧ r.completedAt ≠ none) := by
  have hw : WellStamped r :=
    runOps_stamps ops st0 (by rw [h0]; intro x hx; cases hx) r hr
  unfold WellStamped at hw
  refine ⟨fun h => ?_, fun h => ?_, fun h => ?_⟩
  · rw [h] at hw; exact hw
  · rcases h with h | h | h | h <;> rw [h] at hw <;> exact hw
  · rw [h] at hw; exact hw

/-- The concrete instance of C28: the declined request r3 of the sample
operations. -/
theorem stamps_fit_status_witness :
    (runOps usersOnly sampleOps).requests[1]? = some declinedSample ∧
      declinedSample.respondedAt ≠ none ∧ declinedSample.completedAt = none :=
  ⟨by decide,
    (stamps_fit_status usersOnly sampleOps declinedSample rfl (by decide)).2.1
      (Or.inr (Or.inl rfl))⟩

/-! ## C27: the three expiry tests -/

theorem findRequest_map (rs : List ConsultationRequest) (i : Option String)
    (f : ConsultationRequest → ConsultationRequest) (hf : ∀ r, (f r)._id = r._id) :
    findRequest (rs.map f) i = (findRequest rs i).map f := by
  cases hcast : i.bind castObjectId with
  | none => simp [findRequest, hcast]
  | some k =>
    simp only [findRequest, hcast]
    induction rs with
    | nil => rfl
    | cons x rest ih =>
      rw [List.map_cons]
      by_cases hx : x._id = k
      · rw [List.find?_cons_of_pos _ (by simpa [hf] using hx),
          List.find?_cons_of_pos _ (by simpa using hx)]
        rfl
      · rw [List.find?_cons_of_neg _ (by simpa [hf] using hx),
          List.find?_cons_of_neg _ (by simpa using hx)]
        exact ih

/-- C27, as amended. For a pending request of the caller whose requester
resolves, on a working store and at one instant now: (a) accept saves the
request as expired exactly when the sweep at that instant does, namely when
expiresAt < now; (b) the filter of the uniqueness guard matches the request
exactly when now < expiresAt, while accept succeeds exactly when
now <= expiresAt; so a request that blocks a second one can always be
accepted, and the two tests differ exactly at now = expiresAt, where the
request no longer blocks and can still be accepted. -/
theorem expiry_tests (st : ServerState) (socket : Socket) (d : TransitionData)
    (r : ConsultationRequest) (u : User) (now : Nat)
    (hf : findRequest st.requests d.requestId = some r) (hs : r.status = .pending)
    (ha : r.astrologer = socket.user._id)
    (hu : findUser st.users (some r.user) = some u) :
    (((findRequest (consultationAccept st socket (some d) true now now noFaults).state.requests
          d.requestId).map fun x => x.status) = some .expired ↔ r.expiresAt < now) ∧
    (((findRequest (expireOldRequests st now now noFaults).1.requests
          d.requestId).map fun x => x.status) = some .expired ↔ r.expiresAt < now) ∧
    (isLivePending r.user r.astrologer now r = true ↔ now < r.expiresAt) ∧
    ((∃ a, (consultationAccept st socket (some d) true now now noFaults).acks = [.success a]) ↔
      now ≤ r.expiresAt) ∧
    (now = r.expiresAt →
      isLivePending r.user r.astrologer now r = false ∧
      ∃ a, (consultationAccept st socket (some d) true now now noFaults).acks =
        [.success a]) := by
  obtain ⟨h1, h2⟩ := accept_pending st socket d true now now r u hf ha hs hu
  have hacc : (∃ a, (consultationAccept st socket (some d) true now now noFaults).acks =
      [.success a]) ↔ now ≤ r.expiresAt := by
    by_cases ht : now > r.expiresAt
    · rw [h1 ht]
      simp [ack]
      omega
    · rw [(h2 ht).2]
      simp [ack]
      omega
  have hlive : isLivePending r.user r.astrologer now r = true ↔ now < r.expiresAt := by
    simp [isLivePending, hs]
  refine ⟨?_, ?_, hlive, hacc, ?_⟩
  · by_cases ht : now > r.expiresAt
    · rw [h1 ht]
      simp only []
      rw [findRequest_saveRequest st.requests d.requestId r
        { r with status := .expired, respondedAt := some now } hf rfl]
      simp
      omega
    · rw [(h2 ht).1]
      simp only []
      rw [findRequest_saveRequest st.requests d.requestId r
        { r with status := .accepted, respondedAt := some now } hf rfl]
      simp
      omega
  · simp only [expireOldRequests, noFaults]
    rw [findRequest_map _ _ _ (by intro x; split <;> rfl), hf]
    by_cases ht : r.expiresAt < now
    · simp [hs, ht]
    · simp [hs, ht]
  · intro hnow
    refine ⟨?_, hacc.2 (by omega)⟩
    cases hl : isLivePending r.user r.astrologer now r with
    | false => rfl
    | true => have := hlive.1 hl; omega

/-- The concrete instance of C27: the sample request, tested at 2000. -/
theorem expiry_tests_witness :
    isLivePending umaId ashaId 2000 (sampleRequest .pending) = true ∧
      ∃ a, (consultationAccept (sampleState .pending) ⟨"s2", asha⟩ (some sampleTransition) true
        2000 2000 noFaults).acks = [.success a] :=
  have h := expiry_tests (sampleState .pending) ⟨"s2", asha⟩ sampleTransition
    (sampleRequest .pending) uma 2000 (by decide) rfl rfl (by decide)
  ⟨h.2.2.1.2 (by decide), h.2.2.2.1.2 (by decide)⟩

/-- C27 as stated fails at now = expiresAt: at instant 301000 the pending
request r1 of Uma to Asha does not block, so a second request r2 of Uma to
Asha is inserted, and Asha can still accept r1 at that instant. -/
theorem boundary_instant_disagrees :
    (sampleRequest .pending).expiresAt = 301000 ∧
    ((consultationRequest (sampleState .pending) ⟨"s1", uma⟩ (some ⟨some ashaId, none⟩) true req2
        301000 301000 301000 noFaults).state.requests.map fun r => (r._id, r.status)) =
      [(req1, .pending), (req2, .pending)] ∧
    (consultationAccept (sampleState .pending) ⟨"s2", asha⟩ (some sampleTransition) true
        301000 301000 noFaults).acks =
      [.success (.acceptedFor uma "Consultation request accepted")] := by
  decide


/-! ## C29: rooms of different conversations -/

theorem split_at_separator (c : Char) (l1 r1 l2 r2 : List Char) (h1 : c ∉ l1) (h2 : c ∉ l2)
    (h : l1 ++ c :: r1 = l2 ++ c :: r2) : l1 = l2 ∧ r1 = r2 := by
  induction l1 generalizing l2 with
  | nil =>
    cases l2 with
    | nil => simpa using h
    | cons y ys =>
      simp only [List.nil_append, List.cons_append, List.cons.injEq] at h
      exact absurd (by rw [h.1]; exact List.mem_cons_self _ _) h2
  | cons x xs ih =>
    cases l2 with
    | nil =>
      simp only [List.nil_append, List.cons_append, List.cons.injEq] at h
      exact absurd (by rw [← h.1]; exact List.mem_cons_self _ _) h1
    | cons y ys =>
      simp only [List.cons_append, List.cons.injEq] at h
      obtain ⟨hxy, ht⟩ := h
      obtain ⟨e1, e2⟩ := ih ys (fun hm => h1 (List.mem_cons_of_mem _ hm))
        (fun hm => h2 (List.mem_cons_of_mem _ hm)) ht
      exact ⟨by rw [hxy, e1], e2⟩

theorem joined_injective (x y x2 y2 : String) (hx : '_' ∉ x.data) (hx2 : '_' ∉ x2.data)
    (h : x ++ "_" ++ y = x2 ++ "_" ++ y2) : x = x2 ∧ y = y2 := by
  have hd := congrArg String.data h
  simp only [String.data_append] at hd
  have hd2 : x.data ++ '_' :: y.data = x2.data ++ '_' :: y2.data := by
    simpa [List.append_assoc] using hd
  obtain ⟨e1, e2⟩ := split_at_separator '_' _ _ _ _ hx hx2 hd2
  exact ⟨String.ext e1, String.ext e2⟩

/-- C29. For id strings a, b, c, d none of which contains the separator "_",
getRoomId(a, b) = getRoomId(c, d) only if the unordered pairs are equal, so
the room to which the messages of one conversation are emitted is the room
of no other pair; for ids that may contain "_" this fails: the pairs
("a_b", "c") and ("a", "b_c") are different and get the same room. -/
theorem room_injective :
    (∀ a b c d : String, '_' ∉ a.data → '_' ∉ b.data → '_' ∉ c.data → '_' ∉ d.data →
      getRoomId a b = getRoomId c d → (a = c ∧ b = d) ∨ (a = d ∧ b = c)) ∧
    (getRoomId "a_b" "c" = getRoomId "a" "b_c" ∧
      ¬ (("a_b" = "a" ∧ "c" = "b_c") ∨ ("a_b" = "b_c" ∧ "c" = "a"))) := by
  refine ⟨?_, by decide⟩
  intro a b c d ha hb hc hd h
  unfold getRoomId at h
  split at h <;> split at h
  · obtain ⟨e1, e2⟩ := joined_injective _ _ _ _ hb hd h
    exact Or.inl ⟨e2, e1⟩
  · obtain ⟨e1, e2⟩ := joined_injective _ _ _ _ hb hc h
    exact Or.inr ⟨e2, e1⟩
  · obtain ⟨e1, e2⟩ := joined_injective _ _ _ _ ha hd h
    exact Or.inr ⟨e1, e2⟩
  · obtain ⟨e1, e2⟩ := joined_injective _ _ _ _ ha hc h
    exact Or.inl ⟨e1, e2⟩


/-! ## C30: the status report and the create guard -/

/-- C30, as amended. Let the id sent resolve to an astrologer A and differ
from the id of the caller U. On a working store checkConsultationStatus
reports canRequest = true exactly when no request of U to A is pending with
expiresAt after now and no request of U to A is accepted, whereas a `consultation:request` of U to A at that
instant (with the default message) passes the uniqueness guard and inserts
a request exactly when no request of U to A is pending with expiresAt after
now. So canRequest = true implies that the request is inserted, and the
converse fails exactly when an accepted request of the pair exists. -/
theorem status_vs_guard (st : ServerState) (socket : Socket) (aid : String) (a : User)
    (cb : Bool) (newId : String) (now : Nat)
    (hu : findUser st.users (some aid) = some a) (hr : a.role = .astrologer)
    (hs : socket.user._id ≠ aid) :
    checkConsultationStatus st socket.user aid now noFaults =
      .json 200
        { canRequest := !(findLivePending st.requests socket.user._id a._id now).isSome &&
            !(findAccepted st.requests socket.user._id a._id).isSome,
          hasPending := (findLivePending st.requests socket.user._id a._id now).isSome,
          hasActive := (findAccepted st.requests socket.user._id a._id).isSome,
          pendingRequest := findLivePending st.requests socket.user._id a._id now,
          activeConsultation := findAccepted st.requests socket.user._id a._id } ∧
    ((consultationRequest st socket (some ⟨some aid, none⟩) cb newId now now now
          noFaults).state.requests =
        st.requests ++ [⟨newId, socket.user._id, a._id, "", .pending, now, none, none,
          now + 300000⟩] ↔
      findLivePending st.requests socket.user._id a._id now = none) ∧
    ((findLivePending st.requests socket.user._id a._id now = none ∧
        findAccepted st.requests socket.user._id a._id = none) →
      (consultationRequest st socket (some ⟨some aid, none⟩) cb newId now now now
          noFaults).state.requests =
        st.requests ++ [⟨newId, socket.user._id, a._id, "", .pending, now, none, none,
          now + 300000⟩]) ∧
    (∀ r, findLivePending st.requests socket.user._id a._id now = none →
      findAccepted st.requests socket.user._id a._id = some r →
      (∃ report, checkConsultationStatus st socket.user aid now noFaults = .json 200 report ∧
        report.canRequest = false) ∧
      (consultationRequest st socket (some ⟨some aid, none⟩) cb newId now now now
          noFaults).state.requests =
        st.requests ++ [⟨newId, socket.user._id, a._id, "", .pending, now, none, none,
          now + 300000⟩]) := by
  have hk : castObjectId aid = some a._id := by
    simpa using findUser_cast st.users (some aid) a hu
  have hreport : checkConsultationStatus st socket.user aid now noFaults =
      .json 200
        { canRequest := !(findLivePending st.requests socket.user._id a._id now).isSome &&
            !(findAccepted st.requests socket.user._id a._id).isSome,
          hasPending := (findLivePending st.requests socket.user._id a._id now).isSome,
          hasActive := (findAccepted st.requests socket.user._id a._id).isSome,
          pendingRequest := findLivePending st.requests socket.user._id a._id now,
          activeConsultation := findAccepted st.requests socket.user._id a._id } := by
    simp [checkConsultationStatus, noFaults, hu, hr, hk]
  have hins : findLivePending st.requests socket.user._id a._id now = none →
      (consultationRequest st socket (some ⟨some aid, none⟩) cb newId now now now
          noFaults).state.requests =
        st.requests ++ [⟨newId, socket.user._id, a._id, "", .pending, now, none, none,
          now + 300000⟩] := by
    intro hl
    have h := request_inserted st socket aid none cb newId now now now noFaults a rfl hu hr hs
      rfl hl rfl (by decide)
    rw [h]
    rfl
  refine ⟨hreport, ⟨?_, hins⟩, fun h => hins h.1, ?_⟩
  · intro heq
    cases hl : findLivePending st.requests socket.user._id a._id now with
    | none => rfl
    | some r =>
      rw [request_duplicate st socket aid none cb newId now now now noFaults a r rfl hu hr hs
        rfl hl] at heq
      have := congrArg List.length heq
      simp at this
  · intro r hl hacc
    refine ⟨⟨_, hreport, ?_⟩, hins hl⟩
    simp [hl, hacc]

/-- The concrete instance of C30: Uma and Asha with no request between them. -/
theorem status_vs_guard_witness :
    (∃ report, checkConsultationStatus usersOnly uma ashaId 2000 noFaults = .json 200 report ∧
        report.canRequest = true) ∧
      (consultationRequest usersOnly ⟨"s1", uma⟩ (some ⟨some ashaId, none⟩) true req1 2000 2000
          2000 noFaults).state.requests =
        [⟨req1, umaId, ashaId, "", .pending, 2000, none, none, 302000⟩] :=
  have h := status_vs_guard usersOnly ⟨"s1", uma⟩ ashaId asha true req1 2000
    (by decide) (by decide) (by decide)
  ⟨⟨_, h.1, by decide⟩, h.2.2.1 ⟨by decide, by decide⟩⟩

/-- C30 as stated fails: the request r1 of Uma to Asha is accepted and no
request of the pair is pending, so checkConsultationStatus reports
canRequest = false, yet a `consultation:request` of Uma to Asha at the same
instant passes the uniqueness guard and inserts the request r2. -/
theorem accepted_blocks_status_only :
    checkConsultationStatus (sampleState .accepted) uma ashaId 2000 noFaults =
      .json 200
        { canRequest := false, hasPending := false, hasActive := true,
          pendingRequest := none, activeConsultation := some (sampleRequest .accepted) } ∧
    consultationRequest (sampleState .accepted) ⟨"s1", uma⟩ (some ⟨some ashaId, none⟩) true req2
        2000 2000 2000 noFaults =
      ⟨{ sampleState .accepted with
          requests := [sampleRequest .accepted,
            ⟨req2, umaId, ashaId, "", .pending, 2000, none, none, 302000⟩] }, [],
        [.success (.requested req2 "Consultation request sent successfully")]⟩ := by
  decide


/-! ## C26: the status filter of the history -/

/-- What the history returns, whatever the page: requests of the caller that
are not pending, and of the status asked for when the filter is one of
accepted, declined, expired and completed. -/
theorem history_sound (st : ServerState) (reqUser : User) (page limit : Option Int)
    (status : Option String) (faults : Faults) (body : HistoryPage)
    (h : getRequestHistory st reqUser page limit status faults = .json 200 body) :
    ∀ r ∈ body.requests, r.astrologer = reqUser._id ∧ r.status ≠ .pending ∧
      ∀ t, status = some t → t ∈ ["accepted", "declined", "expired", "completed"] →
        r.status.text = t := by
  intro r hr
  simp only [getRequestHistory] at h
  repeat' split at h
  all_goals first
    | (cases h; done)
    | skip
  simp only [RestResult.json.injEq, true_and] at h
  subst h
  have hmem := List.mem_of_mem_drop (List.mem_of_mem_take hr)
  rw [List.mem_insertionSort] at hmem
  have hq := (List.mem_filter.1 hmem).2
  simp only [Bool.and_eq_true, beq_iff_eq] at hq
  obtain ⟨ha, hm⟩ := hq
  refine ⟨ha, ?_, ?_⟩
  · intro hp
    rw [hp] at hm
    cases status with
    | none => exact absurd hm (by decide)
    | some t =>
      simp only [historyStatusMatches] at hm
      split at hm
      · rename_i hc
        have ht : "pending" = t := by simpa [Status.text] using hm
        subst ht
        exact absurd hc (by decide)
      · exact absurd hm (by decide)
  · intro t ht hin
    cases ht
    simp only [List.mem_cons, List.mem_singleton, List.not_mem_nil, or_false] at hin
    generalize r.status = x at hm
    rcases hin with rfl | rfl | rfl | rfl <;> cases x <;>
      first | rfl | exact absurd hm (by decide)

/-- C26. Asha has a cancelled, a declined and a pending request. With the
filter "declined" her history holds the declined request only, but with the
filter "cancelled" it holds the declined request as well as the cancelled
one: "cancelled" is missing from the list of filter values the controller
accepts, so the filter is dropped and all non-pending requests return. -/
theorem cancelled_filter_ignored :
    ((getRequestHistory historyState asha none none (some "declined") noFaults) =
      .json 200 ⟨[⟨req2, umaId, ashaId, "", .declined, 2000, some 2500, none, 302000⟩], 1, 1, 1,
        20⟩) ∧
    ((getRequestHistory historyState asha none none (some "cancelled") noFaults) =
      .json 200 ⟨[⟨req2, umaId, ashaId, "", .declined, 2000, some 2500, none, 302000⟩,
        { sampleRequest .cancelled with respondedAt := some 1500 }], 1, 1, 2, 20⟩) ∧
    getRequestHistory historyState asha none none (some "cancelled") noFaults =
      getRequestHistory historyState asha none none none noFaults := by
  decide


/-! ## C24: who may trigger the sweep -/

/-- C24. Uma is authenticated and her role is user, not admin: the check
`isAdmin` would reject her with 403, but it is not part of the chain of
`POST /expire-old`, which holds `isAuthenticated` only; her call at instant
400000 runs expireOldRequests, which expires the pending request r1 and
answers 200 with expiredCount = 1. -/
theorem sweep_open_to_any_user :
    isAuthenticated staffedState (some "Bearer token-of-uma") sampleVerify noFaults =
      .pass uma ∧
    uma.role = .user ∧
    isAdmin (some uma) = .reject 403 "Access denied. Admin privileges required" ∧
    postExpireOld staffedState (some "Bearer token-of-uma") sampleVerify 400000 400000
        noFaults noFaults =
      ({ staffedState with
          requests := [{ sampleRequest .expired with respondedAt := some 400000 }] },
        .json 200 1) := by
  decide


/-! ## C21: two accept calls in flight -/

/-- Setting two paths on the stored document is saving the loaded document
with these paths set, when the document was loaded from this collection. -/
theorem saveModified_eq (rs : List ConsultationRequest) (i : Option String)
    (r : ConsultationRequest) (status : Status) (t : Option Nat)
    (hf : findRequest rs i = some r) :
    saveModified rs r._id status t =
      saveRequest rs { r with status := status, respondedAt := t } := by
  cases hcast : i.bind castObjectId with
  | none => simp [findRequest, hcast] at hf
  | some k =>
    simp only [findRequest, hcast] at hf
    have hk : r._id = k := by simpa using List.find?_some hf
    induction rs with
    | nil => rfl
    | cons x rest ih =>
      by_cases hx : x._id = k
      · have hxr : x = r := by
          rw [List.find?_cons_of_pos _ (by simpa using hx)] at hf
          exact Option.some.inj hf
        subst hxr
        simp [saveModified, saveRequest]
      · have hrest : rest.find? (fun r => r._id == k) = some r := by
          rw [List.find?_cons_of_neg _ (by simpa using hx)] at hf
          exact hf
        have hne : ¬ x._id = r._id := by rw [hk]; exact hx
        simp [saveModified, saveRequest, hne, ih hrest]

theorem findRequest_saveModified (rs : List ConsultationRequest) (i : Option String)
    (r : ConsultationRequest) (status : Status) (t : Option Nat)
    (hf : findRequest rs i = some r) :
    findRequest (saveModified rs r._id status t) i =
      some { r with status := status, respondedAt := t } := by
  rw [saveModified_eq rs i r status t hf]
  exact findRequest_saveRequest rs i r _ hf rfl

/-- The handler is its load step followed at once by the rest. -/
theorem accept_phases (st : ServerState) (socket : Socket) (d : TransitionData) (cb : Bool)
    (t1 t2 : Nat) (faults : Faults) :
    consultationAccept st socket (some d) cb t1 t2 faults =
      match faults 0 with
      | some e => ⟨st, [], caught cb e "Failed to accept consultation request"⟩
      | none =>
        if castFails d.requestId then
          ⟨st, [], caught cb castError "Failed to accept consultation request"⟩
        else acceptResume st socket (acceptLoad st d) cb t1 t2 faults := by
  cases h0 : faults 0 with
  | some e => simp [consultationAccept, h0]
  | none =>
    cases hf : findRequest st.requests d.requestId with
    | none =>
      cases hc : castFails d.requestId <;>
        simp [consultationAccept, acceptResume, acceptLoad, h0, hf, hc]
    | some r =>
      have hc := castFails_of_findRequest _ _ _ hf
      have e1 := saveModified_eq st.requests d.requestId r .expired (some t2) hf
      have e2 := saveModified_eq st.requests d.requestId r .accepted (some t2) hf
      simp only [consultationAccept, acceptResume, acceptLoad, h0, hf, e1, e2, hc]


theorem resume_fresh (st2 : ServerState) (socket : Socket) (r : ConsultationRequest) (u : User)
    (cb : Bool) (t1 t2 : Nat) (hs : r.status = .pending) (ha : r.astrologer = socket.user._id)
    (ht : ¬ t1 > r.expiresAt) :
    acceptResume st2 socket ⟨some r, some u⟩ cb t1 t2 noFaults =
      ⟨{ st2 with requests := saveModified st2.requests r._id .accepted (some t2) },
        (match socketOf st2 u._id with
          | none => []
          | some sid =>
            [Emit.to sid (.consultationAccepted r._id socket.user._id socket.user.name)]),
        ack cb (.success (.acceptedFor u "Consultation request accepted"))⟩ := by
  simp [acceptResume, noFaults, hs, ha, ht]

theorem resume_stale (st2 : ServerState) (socket : Socket) (r : ConsultationRequest)
    (ux : Option User) (cb : Bool) (t1 t2 : Nat) (faults : Faults)
    (hs : r.status = .accepted) (ha : r.astrologer = socket.user._id) :
    acceptResume st2 socket ⟨some r, ux⟩ cb t1 t2 faults =
      ⟨st2, [], ack cb (.failure "Request is already accepted")⟩ := by
  simp [acceptResume, hs, ha, Status.text]

/-- C21, as amended. A pending request whose requester resolves is accepted
by its provider in two calls, each before expiresAt, on a working store;
each call is a load step and a save step and a schedule tells which call
moves next. When one call runs to its end before the other loads, that
call saves accepted and acknowledges success as the handler alone does,
and the other acknowledges the failure "Request is already accepted" and
writes nothing. In each of the four other schedules both calls load the
pending request, both save accepted and both acknowledge success, and the
request ends accepted with the respondedAt of the later save. -/
theorem two_accepts (st : ServerState) (sa sb : Socket) (rid : Option String)
    (r : ConsultationRequest) (u : User) (ta1 ta2 tb1 tb2 : Nat) (sched : List Bool)
    (hf : findRequest st.requests rid = some r) (hs : r.status = .pending)
    (ha : r.astrologer = sa.user._id) (hb : r.astrologer = sb.user._id)
    (hta : ¬ ta1 > r.expiresAt) (htb : ¬ tb1 > r.expiresAt)
    (hu : findUser st.users (some r.user) = some u)
    (hc1 : sched.count true = 2) (hc2 : sched.count false = 2) :
    (sched = [true, true, false, false] →
      runTwo (acceptCall sa rid ta1 ta2) (acceptCall sb rid tb1 tb2) ⟨st, .idle, .idle⟩ sched =
        ⟨(consultationAccept st sa (some ⟨rid, none⟩) true ta1 ta2 noFaults).state,
          .done (consultationAccept st sa (some ⟨rid, none⟩) true ta1 ta2 noFaults).emits
            [.success (.acceptedFor u "Consultation request accepted")],
          .done [] [.failure "Request is already accepted"]⟩) ∧
    (sched = [false, false, true, true] →
      runTwo (acceptCall sa rid ta1 ta2) (acceptCall sb rid tb1 tb2) ⟨st, .idle, .idle⟩ sched =
        ⟨(consultationAccept st sb (some ⟨rid, none⟩) true tb1 tb2 noFaults).state,
          .done [] [.failure "Request is already accepted"],
          .done (consultationAccept st sb (some ⟨rid, none⟩) true tb1 tb2 noFaults).emits
            [.success (.acceptedFor u "Consultation request accepted")]⟩) ∧
    (sched ≠ [true, true, false, false] → sched ≠ [false, false, true, true] →
      ∃ ea eb t, (t = ta2 ∨ t = tb2) ∧
        (runTwo (acceptCall sa rid ta1 ta2) (acceptCall sb rid tb1 tb2) ⟨st, .idle, .idle⟩
          sched).first = .done ea [.success (.acceptedFor u "Consultation request accepted")] ∧
        (runTwo (acceptCall sa rid ta1 ta2) (acceptCall sb rid tb1 tb2) ⟨st, .idle, .idle⟩
          sched).second = .done eb [.success (.acceptedFor u "Consultation request accepted")] ∧
        findRequest (runTwo (acceptCall sa rid ta1 ta2) (acceptCall sb rid tb1 tb2)
          ⟨st, .idle, .idle⟩ sched).state.requests rid =
          some { r with status := .accepted, respondedAt := some t }) := by
  have hn0 : noFaults 0 = none := rfl
  have hc : castFails rid = false := castFails_of_findRequest _ _ _ hf
  -- the load of either call on the initial store
  have hload : acceptLoad st ⟨rid, none⟩ = ⟨some r, some u⟩ := by
    simp [acceptLoad, hf, hu]
  -- the store after a first save, and the load served by it
  have hfind1 : ∀ t, findRequest (saveModified st.requests r._id .accepted (some t)) rid =
      some { r with status := .accepted, respondedAt := some t } :=
    fun t => findRequest_saveModified st.requests rid r .accepted (some t) hf
  have hload1 : ∀ t, acceptLoad
      { st with requests := saveModified st.requests r._id .accepted (some t) } ⟨rid, none⟩ =
      ⟨some { r with status := .accepted, respondedAt := some t }, some u⟩ := by
    intro t
    simp [acceptLoad, hfind1 t, hu]
  have hfind2 : ∀ t t3, findRequest
      (saveModified (saveModified st.requests r._id .accepted (some t)) r._id .accepted
        (some t3)) rid = some { r with status := .accepted, respondedAt := some t3 } :=
    fun t t3 => findRequest_saveModified _ rid
      { r with status := .accepted, respondedAt := some t } .accepted (some t3) (hfind1 t)
  -- the handler alone
  have hseq : ∀ (sx : Socket) (t1 t2 : Nat), r.astrologer = sx.user._id → ¬ t1 > r.expiresAt →
      consultationAccept st sx (some ⟨rid, none⟩) true t1 t2 noFaults =
        ⟨{ st with requests := saveModified st.requests r._id .accepted (some t2) },
          (match socketOf st u._id with
            | none => []
            | some sid =>
              [Emit.to sid (.consultationAccepted r._id sx.user._id sx.user.name)]),
          [.success (.acceptedFor u "Consultation request accepted")]⟩ := by
    intro sx t1 t2 hx ht
    rw [accept_phases]
    simp only [hn0, hload, hc]
    rw [resume_fresh st sx r u true t1 t2 hs hx ht]
    rfl
  refine ⟨?_, ?_, ?_⟩
  · intro h
    subst h
    rw [hseq sa ta1 ta2 ha hta]
    simp only [runTwo, stepAccept, acceptCall, hload, hn0, hc, Bool.false_eq_true, if_false]
    rw [resume_fresh st sa r u true ta1 ta2 hs ha hta]
    simp only [hload1]
    rw [resume_stale _ sb { r with status := .accepted, respondedAt := some ta2 } (some u) true
      tb1 tb2 noFaults rfl hb]
    rfl
  · intro h
    subst h
    rw [hseq sb tb1 tb2 hb htb]
    simp only [runTwo, stepAccept, acceptCall, hload, hn0, hc, Bool.false_eq_true, if_false]
    rw [resume_fresh st sb r u true tb1 tb2 hs hb htb]
    simp only [hload1]
    rw [resume_stale _ sa { r with status := .accepted, respondedAt := some tb2 } (some u) true
      ta1 ta2 noFaults rfl ha]
    rfl
  · intro hn1 hn2
    have hlen : sched.length = 4 := by
      have := List.count_true_add_count_false sched
      omega
    match sched, hlen with
    | [x1, x2, x3, x4], _ =>
      cases x1 <;> cases x2 <;> cases x3 <;> cases x4 <;>
        first
        | (exfalso; revert hc1; decide)
        | (exfalso; exact hn1 rfl)
        | (exfalso; exact hn2 rfl)
        | skip
      all_goals
        simp only [runTwo, stepAccept, acceptCall, hload, hn0, hc, Bool.false_eq_true, if_false]
        simp only [resume_fresh _ sa r u true ta1 ta2 hs ha hta,
          resume_fresh _ sb r u true tb1 tb2 hs hb htb, ack_true]
      · exact ⟨_, _, ta2, Or.inl rfl, rfl, rfl, hfind2 tb2 ta2⟩
      · exact ⟨_, _, tb2, Or.inr rfl, rfl, rfl, hfind2 ta2 tb2⟩
      · exact ⟨_, _, ta2, Or.inl rfl, rfl, rfl, hfind2 tb2 ta2⟩
      · exact ⟨_, _, tb2, Or.inr rfl, rfl, rfl, hfind2 ta2 tb2⟩


/-- The concrete instance of C21: Asha accepts the sample request from two
sockets, the first call finishing before the second loads. -/
theorem two_accepts_witness :
    runTwo (acceptCall ⟨"s2", asha⟩ (some req1) 2000 2001)
        (acceptCall ⟨"s3", asha⟩ (some req1) 2002 2003) ⟨sampleState .pending, .idle, .idle⟩
        [true, true, false, false] =
      ⟨(consultationAccept (sampleState .pending) ⟨"s2", asha⟩ (some ⟨some req1, none⟩) true
          2000 2001 noFaults).state,
        .done (consultationAccept (sampleState .pending) ⟨"s2", asha⟩ (some ⟨some req1, none⟩)
          true 2000 2001 noFaults).emits
          [.success (.acceptedFor uma "Consultation request accepted")],
        .done [] [.failure "Request is already accepted"]⟩ :=
  (two_accepts (sampleState .pending) ⟨"s2", asha⟩ ⟨"s3", asha⟩ (some req1)
    (sampleRequest .pending) uma 2000 2001 2002 2003 [true, true, false, false]
    (by decide) rfl rfl rfl (by decide) (by decide) (by decide) (by decide) (by decide)).1 rfl

/-- C21 as stated fails: when both calls of Asha load the pending request
r1 before either saves, both save accepted and both acknowledge success. -/
theorem both_accepts_succeed :
    runTwo (acceptCall ⟨"s2", asha⟩ (some req1) 2000 2001)
        (acceptCall ⟨"s3", asha⟩ (some req1) 2002 2003) ⟨sampleState .pending, .idle, .idle⟩
        [true, false, true, false] =
      ⟨{ sampleState .pending with
          requests := [{ sampleRequest .accepted with respondedAt := some 2003 }] },
        .done [] [.success (.acceptedFor uma "Consultation request accepted")],
        .done [] [.success (.acceptedFor uma "Consultation request accepted")]⟩ := by
  decide


end AstroAsync
